import Mathlib

/-!
# SimGear logging subsystem (`simgear/debug/logstream.cxx`)

A shallow embedding of `LogCallback`, `logstream::LogStreamPrivate` and the
`logstream` facade, followed by theorems about filtering, priority
translation, the entry queue and the dispatcher loop.

Modelling conventions

* `sgDebugClass` and `sgDebugPriority` are C enums; both are embedded as `Nat`
  (the values the enums can carry), bitwise `&` is `Nat.land`.
* `const char*` is `Option String` (`none` is the null pointer), `int` is `Int`.
* A `LogCallback*` is the address of the object, a `Nat`; the objects live in
  `LogStreamPrivate.heap`.
* The virtual call `(*cb)(c, p, file, line, message)` is an effect; every such
  call is recorded, in order, in `LogStreamPrivate.calls`.
* The worker thread executes `run`; `workerStep` is one iteration of its loop
  and `threadAlive` tells whether the thread is still inside `run`.
-/

namespace Simgear

/-! ## Debug classes and priorities -/

/-- Modelled from the spec: the enumerators of `sgDebugClass` are declared in
`simgear/debug/debug_types.h`, which is not among the sources. A category is a
bit flag; `SG_NONE` is the empty set of flags. -/
def SG_NONE : Nat := 0x00000000

/-- Modelled from the spec: the single-bit category flag `SG_TERRAIN`
(`debug_types.h`, not among the sources). -/
def SG_TERRAIN : Nat := 0x00000001

/-- Modelled from the spec: the single-bit category flag `SG_ASTRO`
(`debug_types.h`, not among the sources). -/
def SG_ASTRO : Nat := 0x00000002

/-- Modelled from the spec: the single-bit category flag `SG_FLIGHT`
(`debug_types.h`, not among the sources). -/
def SG_FLIGHT : Nat := 0x00000004

/-- Modelled from the spec: the single-bit category flag `SG_INPUT`
(`debug_types.h`, not among the sources). -/
def SG_INPUT : Nat := 0x00000008

/-- Modelled from the spec: the single-bit category flag `SG_GL`
(`debug_types.h`, not among the sources). -/
def SG_GL : Nat := 0x00000010

/-- Modelled from the spec: the single-bit category flag `SG_VIEW`
(`debug_types.h`, not among the sources). -/
def SG_VIEW : Nat := 0x00000020

/-- Modelled from the spec: the single-bit category flag `SG_COCKPIT`
(`debug_types.h`, not among the sources). -/
def SG_COCKPIT : Nat := 0x00000040

/-- Modelled from the spec: the single-bit category flag `SG_GENERAL`
(`debug_types.h`, not among the sources). -/
def SG_GENERAL : Nat := 0x00000080

/-- Modelled from the spec: the single-bit category flag `SG_MATH`
(`debug_types.h`, not among the sources). -/
def SG_MATH : Nat := 0x00000100

/-- Modelled from the spec: the single-bit category flag `SG_EVENT`
(`debug_types.h`, not among the sources). -/
def SG_EVENT : Nat := 0x00000200

/-- Modelled from the spec: the single-bit category flag `SG_AIRCRAFT`
(`debug_types.h`, not among the sources). -/
def SG_AIRCRAFT : Nat := 0x00000400

/-- Modelled from the spec: the single-bit category flag `SG_AUTOPILOT`
(`debug_types.h`, not among the sources). -/
def SG_AUTOPILOT : Nat := 0x00000800

/-- Modelled from the spec: the single-bit category flag `SG_IO`
(`debug_types.h`, not among the sources). -/
def SG_IO : Nat := 0x00001000

/-- Modelled from the spec: the single-bit category flag `SG_CLIPPER`
(`debug_types.h`, not among the sources). -/
def SG_CLIPPER : Nat := 0x00002000

/-- Modelled from the spec: the single-bit category flag `SG_NETWORK`
(`debug_types.h`, not among the sources). -/
def SG_NETWORK : Nat := 0x00004000

/-- Modelled from the spec: the single-bit category flag `SG_ATC`
(`debug_types.h`, not among the sources). -/
def SG_ATC : Nat := 0x00008000

/-- Modelled from the spec: the single-bit category flag `SG_NASAL`
(`debug_types.h`, not among the sources). -/
def SG_NASAL : Nat := 0x00010000

/-- Modelled from the spec: the single-bit category flag `SG_INSTR`
(`debug_types.h`, not among the sources). -/
def SG_INSTR : Nat := 0x00020000

/-- Modelled from the spec: the single-bit category flag `SG_SYSTEMS`
(`debug_types.h`, not among the sources). -/
def SG_SYSTEMS : Nat := 0x00040000

/-- Modelled from the spec: the single-bit category flag `SG_AI`
(`debug_types.h`, not among the sources). -/
def SG_AI : Nat := 0x00080000

/-- Modelled from the spec: the single-bit category flag `SG_ENVIRONMENT`
(`debug_types.h`, not among the sources). -/
def SG_ENVIRONMENT : Nat := 0x00100000

/-- Modelled from the spec: the single-bit category flag `SG_SOUND`
(`debug_types.h`, not among the sources). -/
def SG_SOUND : Nat := 0x00200000

/-- Modelled from the spec: the single-bit category flag `SG_NAVAID`
(`debug_types.h`, not among the sources). -/
def SG_NAVAID : Nat := 0x00400000

/-- Modelled from the spec: the single-bit category flag `SG_GUI`
(`debug_types.h`, not among the sources). -/
def SG_GUI : Nat := 0x00800000

/-- Modelled from the spec: the single-bit category flag `SG_TERRASYNC`
(`debug_types.h`, not among the sources). -/
def SG_TERRASYNC : Nat := 0x01000000

/-- Modelled from the spec: the single-bit category flag `SG_PARTICLES`
(`debug_types.h`, not among the sources). -/
def SG_PARTICLES : Nat := 0x02000000

/-- Modelled from the spec: the single-bit category flag `SG_HEADLESS`
(`debug_types.h`, not among the sources). -/
def SG_HEADLESS : Nat := 0x04000000

/-- Modelled from the spec: the reserved always-pass category that stands for
the third-party scene graph logger (`debug_types.h`, not among the sources). -/
def SG_OSG : Nat := 0x08000000

/-- Modelled from the spec: the mask with every category bit set
(`debug_types.h`, not among the sources). -/
def SG_ALL : Nat := 0xFFFFFFFF

/-- Modelled from the spec: the enumerators of `sgDebugPriority`
(`debug_types.h`, not among the sources), totally ordered
BULK < DEBUG < INFO < WARN < ALERT < POPUP and followed by the two virtual
developer levels. -/
def SG_BULK : Nat := 1

/-- Modelled from the spec: priority DEBUG, see `SG_BULK`. -/
def SG_DEBUG : Nat := 2

/-- Modelled from the spec: priority INFO, see `SG_BULK`. -/
def SG_INFO : Nat := 3

/-- Modelled from the spec: priority WARN, see `SG_BULK`. -/
def SG_WARN : Nat := 4

/-- Modelled from the spec: priority ALERT, see `SG_BULK`. -/
def SG_ALERT : Nat := 5

/-- Modelled from the spec: priority POPUP, see `SG_BULK`. -/
def SG_POPUP : Nat := 6

/-- Modelled from the spec: virtual developer warning level, see `SG_BULK`. -/
def SG_DEV_WARN : Nat := 7

/-- Modelled from the spec: virtual developer alert level, see `SG_BULK`. -/
def SG_DEV_ALERT : Nat := 8

/-! ## LogCallback -/

/-- The filter state of a `simgear::LogCallback` object (`m_class`, `m_priority`). -/
structure LogCallback where
  m_class : Nat
  m_priority : Nat
deriving DecidableEq, Repr

/-- `LogCallback::shouldLog`. -/
def LogCallback.shouldLog (self : LogCallback) (c p : Nat) : Bool :=
  if (c &&& self.m_class) != 0 && decide (p ≥ self.m_priority) then true
  else if c == SG_OSG then true
  else false

/-- `LogCallback::setLogLevels`. -/
def LogCallback.setLogLevels (self : LogCallback) (c p : Nat) : LogCallback :=
  let self1 := { self with m_priority := p }
  { self1 with m_class := c }

/-- `LogCallback::debugPriorityToString`. -/
def LogCallback.debugPriorityToString (p : Nat) : String :=
  if p == SG_ALERT then "ALRT"
  else if p == SG_BULK then "BULK"
  else if p == SG_DEBUG then "DBUG"
  else if p == SG_INFO then "INFO"
  else if p == SG_POPUP then "POPU"
  else if p == SG_WARN then "WARN"
  else "UNKN"

/-- `LogCallback::debugClassToString`. -/
def LogCallback.debugClassToString (c : Nat) : String :=
  if c == SG_NONE then "none"
  else if c == SG_TERRAIN then "terrain"
  else if c == SG_ASTRO then "astro"
  else if c == SG_FLIGHT then "flight"
  else if c == SG_INPUT then "input"
  else if c == SG_GL then "opengl"
  else if c == SG_VIEW then "view"
  else if c == SG_COCKPIT then "cockpit"
  else if c == SG_GENERAL then "general"
  else if c == SG_MATH then "math"
  else if c == SG_EVENT then "event"
  else if c == SG_AIRCRAFT then "aircraft"
  else if c == SG_AUTOPILOT then "autopilot"
  else if c == SG_IO then "io"
  else if c == SG_CLIPPER then "clipper"
  else if c == SG_NETWORK then "network"
  else if c == SG_ATC then "atc"
  else if c == SG_NASAL then "nasal"
  else if c == SG_INSTR then "instruments"
  else if c == SG_SYSTEMS then "systems"
  else if c == SG_AI then "ai"
  else if c == SG_ENVIRONMENT then "environment"
  else if c == SG_SOUND then "sound"
  else if c == SG_NAVAID then "navaid"
  else if c == SG_GUI then "gui"
  else if c == SG_TERRASYNC then "terrasync"
  else if c == SG_PARTICLES then "particles"
  else if c == SG_HEADLESS then "headless"
  else if c == SG_OSG then "OSG"
  else "unknown"

/-- The `printf` conversion `%.8s`: at most eight characters of the string. -/
def fmtPrecision8 (str : String) : String :=
  str.take 8

/-- The `printf` conversion `%-10s`: the string, padded with blanks on the
right to ten characters. -/
def fmtLeft10 (str : String) : String :=
  str ++ String.mk (List.replicate (10 - str.length) ' ')

/-- `StderrLogCallback::operator()`: the text written to `stderr`, where
`elapsed` is the `%8.2f` rendering of `logTimer.elapsedMSec()/1000.0` and
`%i` is the decimal rendering of the line. -/
def StderrLogCallback.call (self : LogCallback) (elapsed : String) (c p : Nat)
    (file : Option String) (line : Int) (aMessage : String) : String :=
  if !self.shouldLog c p then ""
  else if file.isSome && line != -1 then
    elapsed ++ " " ++ file.getD "" ++ ":" ++ toString line ++ ": [" ++
      fmtPrecision8 (LogCallback.debugPriorityToString p) ++ "]:" ++
      fmtLeft10 (LogCallback.debugClassToString c) ++ " " ++ aMessage ++ "\n"
  else
    elapsed ++ " [" ++ fmtPrecision8 (LogCallback.debugPriorityToString p) ++ "]:" ++
      fmtLeft10 (LogCallback.debugClassToString c) ++ " " ++ aMessage ++ "\n"

/-! ## LogStreamPrivate -/

/-- `LogStreamPrivate::LogEntry`. -/
structure LogEntry where
  debugClass : Nat
  debugPriority : Nat
  file : Option String
  line : Int
  message : String
deriving DecidableEq, Repr

/-- One executed virtual call `(*cb)(c, p, file, line, message)`: the callee
and the five arguments. -/
structure Invocation where
  cb : Nat
  debugClass : Nat
  debugPriority : Nat
  file : Option String
  line : Int
  message : String
deriving DecidableEq, Repr

/-- The members of `logstream::LogStreamPrivate`, with the queue
`m_entries` as a list (head is the front), and the modelling fields `heap`
(callback objects by address), `deleted` (addresses passed to `delete`),
`threadAlive` (the worker thread is inside `run`) and `calls` (the callback
invocations made so far). -/
structure LogStreamPrivate where
  m_entries : List LogEntry
  m_startupEntries : List LogEntry
  m_startupLogging : Bool
  m_callbacks : List Nat
  m_consoleCallbacks : List Nat
  m_logClass : Nat
  m_logPriority : Nat
  m_isRunning : Bool
  m_developerMode : Bool
  m_fileLine : Bool
  m_testMode : Bool
  heap : Nat → LogCallback
  deleted : List Nat
  threadAlive : Bool
  calls : List Invocation

namespace LogStreamPrivate

/-- The constructor `LogStreamPrivate()` on a non-Windows build: `stderrCb` is
the address that `new StderrLogCallback` returns and `heap0` the objects that
exist already. -/
def new (heap0 : Nat → LogCallback) (stderrCb : Nat) : LogStreamPrivate :=
  { m_entries := []
    m_startupEntries := []
    m_startupLogging := false
    m_callbacks := [stderrCb]
    m_consoleCallbacks := [stderrCb]
    m_logClass := SG_ALL
    m_logPriority := SG_ALERT
    m_isRunning := false
    m_developerMode := false
    m_fileLine := false
    m_testMode := false
    heap := Function.update heap0 stderrCb { m_class := SG_ALL, m_priority := SG_ALERT }
    deleted := []
    threadAlive := false
    calls := [] }

/-- `LogStreamPrivate::translatePriority`. -/
def translatePriority (s : LogStreamPrivate) (p : Nat) : Nat :=
  if p == SG_DEV_WARN then
    (if s.m_developerMode then SG_WARN else SG_DEBUG)
  else if p == SG_DEV_ALERT then
    (if s.m_developerMode then SG_POPUP else SG_WARN)
  else p

/-- `LogStreamPrivate::would_log`; `static_cast<unsigned>` is reduction
modulo `2^32`. -/
def would_log (s : LogStreamPrivate) (c p : Nat) : Bool :=
  if s.m_testMode then true
  else if p % 2 ^ 32 == SG_OSG % 2 ^ 32 then true
  else
    let p1 := s.translatePriority p
    if p1 ≥ SG_INFO then true
    else ((c &&& s.m_logClass) != 0 && decide (p1 ≥ s.m_logPriority))

/-- `LogStreamPrivate::log`: the entry is pushed at the back of the queue. -/
def log (s : LogStreamPrivate) (c p : Nat) (fileName : Option String) (line : Int)
    (msg : String) : LogStreamPrivate :=
  let p1 := s.translatePriority p
  let line1 : Int := if !s.m_fileLine then -1 else line
  let entry : LogEntry :=
    { debugClass := c, debugPriority := p1, file := fileName, line := line1, message := msg }
  { s with m_entries := s.m_entries ++ [entry] }

/-- The marker test of `run`:
`(entry.debugClass == SG_NONE) && entry.file && !strcmp(entry.file, "done")`. -/
def isDoneMarker (entry : LogEntry) : Bool :=
  entry.debugClass == SG_NONE &&
    (match entry.file with
     | none => false
     | some f => f == "done")

/-- The record of the call `(*cb)(entry.debugClass, entry.debugPriority,
entry.file, entry.line, entry.message)`. -/
def callOf (entry : LogEntry) (cb : Nat) : Invocation :=
  { cb := cb, debugClass := entry.debugClass, debugPriority := entry.debugPriority,
    file := entry.file, line := entry.line, message := entry.message }

/-- The call `(*cb)(entry.debugClass, entry.debugPriority, entry.file,
entry.line, entry.message)`. -/
def invoke (s : LogStreamPrivate) (cb : Nat) (entry : LogEntry) : LogStreamPrivate :=
  { s with calls := s.calls ++ [callOf entry cb] }

/-- The body of the loop of `run` after the marker test: the optional append
to the startup list, then the loop over `m_callbacks`. -/
def dispatch (s : LogStreamPrivate) (entry : LogEntry) : LogStreamPrivate :=
  let s1 := if s.m_startupLogging then
      { s with m_startupEntries := s.m_startupEntries ++ [entry] }
    else s
  s1.m_callbacks.foldl (fun acc cb => acc.invoke cb entry) s1

/-- One iteration of the `while (1)` loop of `run`, executed by the worker
thread: nothing happens when the thread is not running or when `pop` finds
the queue empty (it blocks); the marker makes `run` return. -/
def workerStep (s : LogStreamPrivate) : LogStreamPrivate :=
  if !s.threadAlive then s
  else
    match s.m_entries with
    | [] => s
    | entry :: rest =>
      if isDoneMarker entry then { s with m_entries := rest, threadAlive := false }
      else dispatch { s with m_entries := rest } entry

/-- `LogStreamPrivate::run` executed until the thread returns or blocks on the
empty queue: every iteration pops one entry, so as many iterations as there
are queued entries are enough. -/
def run (s : LogStreamPrivate) : LogStreamPrivate :=
  Nat.iterate workerStep s.m_entries.length s

/-- `LogStreamPrivate::startLog`; `start()` launches the thread. -/
def startLog (s : LogStreamPrivate) : LogStreamPrivate :=
  if s.m_isRunning then s
  else
    let s1 := { s with m_isRunning := true }
    { s1 with threadAlive := true }

/-- `LogStreamPrivate::stop`: `join()` lets the worker thread run until it
has returned from `run`. -/
def stop (s : LogStreamPrivate) : Bool × LogStreamPrivate :=
  if !s.m_isRunning then (false, s)
  else
    let s1 := s.log SG_NONE SG_ALERT (some "done") (-1) ""
    let s2 := s1.run
    (true, { s2 with m_isRunning := false })

/-- The RAII object `PauseThread` around `body`: the constructor calls
`stop()`, the destructor calls `startLog()` when the thread was running. -/
def PauseThread (s : LogStreamPrivate) (body : LogStreamPrivate → LogStreamPrivate) :
    LogStreamPrivate :=
  let r := s.stop
  let s1 := body r.2
  if r.1 then s1.startLog else s1

/-- `LogStreamPrivate::setStartupLoggingEnabled`. -/
def setStartupLoggingEnabled (s : LogStreamPrivate) (on_ : Bool) : LogStreamPrivate :=
  if s.m_startupLogging == on_ then s
  else
    let s1 := { s with m_startupLogging := on_ }
    { s1 with m_startupEntries := [] }

/-- `LogStreamPrivate::addCallback`. -/
def addCallback (s : LogStreamPrivate) (cb : Nat) : LogStreamPrivate :=
  s.PauseThread fun s1 =>
    let s2 := { s1 with m_callbacks := s1.m_callbacks ++ [cb] }
    s2.m_startupEntries.foldl (fun acc entry => acc.invoke cb entry) s2

/-- `LogStreamPrivate::removeCallback`: `std::find` then `erase` of the first
occurrence. -/
def removeCallback (s : LogStreamPrivate) (cb : Nat) : LogStreamPrivate :=
  s.PauseThread fun s1 =>
    if cb ∈ s1.m_callbacks then { s1 with m_callbacks := s1.m_callbacks.erase cb }
    else s1

/-- `LogStreamPrivate::removeCallbacks`. -/
def removeCallbacks (s : LogStreamPrivate) : LogStreamPrivate :=
  s.PauseThread fun s1 =>
    let s2 := s1.m_callbacks.foldl (fun acc cb => { acc with deleted := acc.deleted ++ [cb] }) s1
    let s3 := { s2 with m_callbacks := [] }
    { s3 with m_consoleCallbacks := [] }

/-- `LogStreamPrivate::setLogLevels`. -/
def setLogLevels (s : LogStreamPrivate) (c p : Nat) : LogStreamPrivate :=
  s.PauseThread fun s1 =>
    let s2 := { s1 with m_logPriority := p }
    let s3 := { s2 with m_logClass := c }
    s3.m_consoleCallbacks.foldl
      (fun acc cb => { acc with heap := Function.update acc.heap cb ((acc.heap cb).setLogLevels c p) })
      s3

end LogStreamPrivate

/-! ## logstream -/

/-- The class `logstream`: the private part `d` and the popup messages. -/
structure logstream where
  d : LogStreamPrivate
  popup_msgs : List String

namespace logstream

/-- The constructor `logstream::logstream()`. -/
def new (heap0 : Nat → LogCallback) (stderrCb : Nat) : logstream :=
  { d := (LogStreamPrivate.new heap0 stderrCb).startLog, popup_msgs := [] }

/-- `logstream::setLogLevels`. -/
def setLogLevels (self : logstream) (c p : Nat) : logstream :=
  { self with d := self.d.setLogLevels c p }

/-- `logstream::setDeveloperMode`. -/
def setDeveloperMode (self : logstream) (devMode : Bool) : logstream :=
  { self with d := { self.d with m_developerMode := devMode } }

/-- `logstream::setFileLine`. -/
def setFileLine (self : logstream) (fileLine : Bool) : logstream :=
  { self with d := { self.d with m_fileLine := fileLine } }

/-- `logstream::addCallback`. -/
def addCallback (self : logstream) (cb : Nat) : logstream :=
  { self with d := self.d.addCallback cb }

/-- `logstream::removeCallback`. -/
def removeCallback (self : logstream) (cb : Nat) : logstream :=
  { self with d := self.d.removeCallback cb }

/-- `logstream::log`. -/
def log (self : logstream) (c p : Nat) (fileName : Option String) (line : Int)
    (msg : String) : logstream :=
  { self with d := self.d.log c p fileName line msg }

/-- `logstream::would_log`. -/
def would_log (self : logstream) (c p : Nat) : Bool :=
  self.d.would_log c p

/-- `logstream::setTestingMode`. -/
def setTestingMode (self : logstream) (testMode : Bool) : logstream :=
  let self1 := { self with d := { self.d with m_testMode := testMode } }
  if testMode then { self1 with d := self1.d.removeCallbacks } else self1

end logstream

/-! ## Specification-side definitions -/

/-- The filter rule in the words of the specification: the category
intersects the global mask and the (translated) priority reaches the global
threshold, or the category is the reserved one, or test mode is active. -/
def would_log_spec (s : LogStreamPrivate) (c p : Nat) : Prop :=
  ((c &&& s.m_logClass) ≠ 0 ∧ s.translatePriority p ≥ s.m_logPriority) ∨ c = SG_OSG ∨
    s.m_testMode = true

/-- The registry right after `LogStreamPrivate()` with no other callback
object around and the console callback at address `0`. -/
def freshPrivate : LogStreamPrivate :=
  LogStreamPrivate.new (fun _ => { m_class := 0, m_priority := 0 }) 0

/-- The queued entries in front of the first stop marker: the ones the
worker dispatches before it returns. -/
def beforeMarker : List LogEntry → List LogEntry
  | [] => []
  | e :: q => if LogStreamPrivate.isDoneMarker e then [] else e :: beforeMarker q

/-- The queued entries behind the first stop marker. -/
def afterMarker : List LogEntry → List LogEntry
  | [] => []
  | e :: q => if LogStreamPrivate.isDoneMarker e then q else afterMarker q

/-- Whether a stop marker is queued. -/
def hasMarker : List LogEntry → Bool
  | [] => false
  | e :: q => if LogStreamPrivate.isDoneMarker e then true else hasMarker q

/-- The calls a dispatch of the entries `es` to the callback list `cbs`
makes: entry by entry, and for each entry callback by callback. -/
def callsFor (cbs : List Nat) : List LogEntry → List Invocation
  | [] => []
  | e :: es => cbs.map (LogStreamPrivate.callOf e) ++ callsFor cbs es

/-- One step of an execution in which a producer thread logs while the
worker thread runs: either a call of `log` or one iteration of the worker
loop. -/
inductive Action where
  | log (c p : Nat) (fileName : Option String) (line : Int) (msg : String)
  | work
deriving DecidableEq, Repr

/-- Whether the action is a `log` call with category `SG_NONE` and file
`"done"`. -/
def Action.isMarkerLog : Action → Bool
  | .log c _ f _ _ => c == SG_NONE && f == some "done"
  | .work => false

/-- Whether the action is a `log` call. -/
def Action.isLog : Action → Bool
  | .log _ _ _ _ _ => true
  | .work => false

/-- The effect of one action on the registry. -/
def LogStreamPrivate.perform (s : LogStreamPrivate) : Action → LogStreamPrivate
  | .log c p f l m => s.log c p f l m
  | .work => s.workerStep

/-- The effect of a schedule of actions, left to right. -/
def LogStreamPrivate.performAll (s : LogStreamPrivate) (acts : List Action) : LogStreamPrivate :=
  acts.foldl LogStreamPrivate.perform s

/-- The entry `log(c, p, f, l, m)` stores in state `s`. -/
def storedEntry (s : LogStreamPrivate) (c p : Nat) (f : Option String) (l : Int)
    (m : String) : LogEntry :=
  { debugClass := c, debugPriority := s.translatePriority p, file := f,
    line := if s.m_fileLine then l else -1, message := m }

/-- The entries that the `log` calls of a schedule store, in call order. -/
def loggedEntries (s : LogStreamPrivate) : List Action → List LogEntry
  | [] => []
  | .log c p f l m :: acts => storedEntry s c p f l m :: loggedEntries s acts
  | .work :: acts => loggedEntries s acts

/-- Modelled from the spec: the capturing test sink of the concrete scenario
is not in the sources. It is a `LogCallback` whose `operator()` re-checks
`shouldLog` against its own filter `sink` and, when that passes, stores the
five arguments; `capturedBy` is what the sink at address `cb` has stored
after the calls `calls`. -/
def capturedBy (sink : LogCallback) (cb : Nat) (calls : List Invocation) : List LogEntry :=
  (calls.filter (fun i => i.cb == cb && sink.shouldLog i.debugClass i.debugPriority)).map
    (fun i => { debugClass := i.debugClass, debugPriority := i.debugPriority, file := i.file,
                line := i.line, message := i.message })

/-- The concrete scenario on the registry `ls`: register the callback `cb`,
call `log(c, p, f, l, m)`, let the worker loop iterate `k` times, and call
`stop`. -/
def captureRun (ls : logstream) (cb : Nat) (c p : Nat) (f : Option String) (l : Int)
    (m : String) (k : Nat) : Bool × LogStreamPrivate :=
  ((ls.addCallback cb).d.performAll (Action.log c p f l m :: List.replicate k Action.work)).stop

/-- The entry that `stop` queues: `log(SG_NONE, SG_ALERT, "done", -1, "")`. -/
def LogStreamPrivate.doneEntry : LogEntry :=
  { debugClass := SG_NONE, debugPriority := SG_ALERT, file := some "done", line := -1,
    message := "" }

/-- The state `t` differs from `s` at most in the three fields the worker
loop and `log` write: the queue, the startup list and the call trace. -/
def Frame (s t : LogStreamPrivate) : Prop :=
  t = { s with m_entries := t.m_entries, m_startupEntries := t.m_startupEntries,
               calls := t.calls }

/-- A heap in which every address holds a capturing sink with mask `SG_ALL`
and threshold `SG_DEBUG`. -/
def captureHeap : Nat → LogCallback :=
  fun _ => { m_class := SG_ALL, m_priority := SG_DEBUG }

/-- The fresh registry after `startLog`. -/
def demoRunning : LogStreamPrivate :=
  freshPrivate.startLog

/-- A schedule: a `log` call, one worker iteration, another `log` call. -/
def demoActions : List Action :=
  [Action.log SG_GENERAL SG_ALERT (some "a.c") 10 "hello", Action.work,
   Action.log SG_IO SG_DEV_ALERT none 3 "bye"]

/-- A stored entry that is not the stop marker. -/
def demoEntry : LogEntry :=
  { debugClass := SG_GENERAL, debugPriority := SG_ALERT, file := some "a.c", line := -1,
    message := "hello" }

/-- The running fresh registry with `demoEntry` queued. -/
def demoQueued : LogStreamPrivate :=
  { demoRunning with m_entries := [demoEntry] }

/-- The entries a call of `stop` lets the worker dispatch before `join`
returns: the queued entries in front of the first stop marker when the
dispatcher is running and its thread is inside the loop, none otherwise. -/
def drained (s : LogStreamPrivate) : List LogEntry :=
  if s.m_isRunning && s.threadAlive then beforeMarker s.m_entries else []

/-- The state in which `stop` leaves the registry (second component of its
result), written out field by field. -/
def paused (s : LogStreamPrivate) : LogStreamPrivate :=
  { s with
    m_entries :=
      if s.m_isRunning then
        (if s.threadAlive then afterMarker (s.m_entries ++ [LogStreamPrivate.doneEntry])
         else s.m_entries ++ [LogStreamPrivate.doneEntry])
      else s.m_entries
    threadAlive := s.threadAlive && !s.m_isRunning
    m_isRunning := false
    m_startupEntries := s.m_startupEntries ++ (if s.m_startupLogging then drained s else [])
    calls := s.calls ++ callsFor s.m_callbacks (drained s) }

/-- `logstream::popup`. -/
def logstream.popup (self : logstream) (msg : String) : logstream :=
  { self with popup_msgs := self.popup_msgs ++ [msg] }

/-- `logstream::get_popup`: the returned string and the object afterwards. -/
def logstream.get_popup (self : logstream) : String × logstream :=
  let rv := ""
  if !self.popup_msgs.isEmpty then
    let rv1 := self.popup_msgs.headD ""
    (rv1, { self with popup_msgs := self.popup_msgs.tail })
  else (rv, self)

/-- `logstream::has_popup`. -/
def logstream.has_popup (self : logstream) : Bool :=
  if self.popup_msgs.length > 0 then true else false

/-- `logstream::setStartupLoggingEnabled`. -/
def logstream.setStartupLoggingEnabled (self : logstream) (enabled : Bool) : logstream :=
  { self with d := self.d.setStartupLoggingEnabled enabled }

/-- The operations that move a `logstream` from one state to the next: the
public member functions, `startLog` and `stop` of the private part, and
`work`, one iteration of the worker loop. -/
inductive Op where
  | startLog
  | stop
  | work
  | log (c p : Nat) (fileName : Option String) (line : Int) (msg : String)
  | setLogLevels (c p : Nat)
  | setDeveloperMode (devMode : Bool)
  | setFileLine (fileLine : Bool)
  | addCallback (cb : Nat)
  | removeCallback (cb : Nat)
  | setStartupLoggingEnabled (enabled : Bool)
  | setTestingMode (testMode : Bool)
  | popup (msg : String)
  | get_popup
deriving DecidableEq, Repr

/-- The effect of one operation. -/
def logstream.apply (self : logstream) : Op → logstream
  | .startLog => { self with d := self.d.startLog }
  | .stop => { self with d := self.d.stop.2 }
  | .work => { self with d := self.d.workerStep }
  | .log c p f l m => self.log c p f l m
  | .setLogLevels c p => self.setLogLevels c p
  | .setDeveloperMode b => self.setDeveloperMode b
  | .setFileLine b => self.setFileLine b
  | .addCallback cb => self.addCallback cb
  | .removeCallback cb => self.removeCallback cb
  | .setStartupLoggingEnabled b => self.setStartupLoggingEnabled b
  | .setTestingMode b => self.setTestingMode b
  | .popup msg => self.popup msg
  | .get_popup => self.get_popup.2

/-- The states a `logstream` can be in: the state in which the constructor
of the private part leaves it, and every state an operation leads to from
such a state. -/
inductive Reachable : logstream → Prop where
  | init (heap0 : Nat → LogCallback) (stderrCb : Nat) :
      Reachable { d := LogStreamPrivate.new heap0 stderrCb, popup_msgs := [] }
  | step (ls : logstream) (op : Op) : Reachable ls → Reachable (ls.apply op)

/-- The running fresh registry with startup logging enabled and `demoEntry`
still queued. -/
def demoPending : LogStreamPrivate :=
  { demoQueued with m_startupLogging := true }

/-- The step from `s` to `t` keeps the startup-logging flag and, while the
flag is off, the startup list. -/
def StartupKept (s t : LogStreamPrivate) : Prop :=
  t.m_startupLogging = s.m_startupLogging ∧
    (s.m_startupLogging = false → t.m_startupEntries = s.m_startupEntries)

/-- The calls `popup(m1)`, ..., `popup(mn)` in that order. -/
def logstream.popups (self : logstream) (msgs : List String) : logstream :=
  msgs.foldl logstream.popup self

/-- The results of `n` successive calls of `get_popup`, in call order, and
the object afterwards. -/
def logstream.get_popups (self : logstream) : Nat → List String × logstream
  | 0 => ([], self)
  | n + 1 =>
    let r := self.get_popup
    let rest := r.2.get_popups n
    (r.1 :: rest.1, rest.2)

/-- A hexadecimal digit as the `printf` conversion `x` prints it, in lower
case. -/
def hexDigit (d : Nat) : Char :=
  if d < 10 then Char.ofNat (48 + d) else Char.ofNat (87 + d)

/-- The `sprintf` conversion `%06x` of an `unsigned int`: the hexadecimal
digits, at least six of them, padded with zeros on the left. -/
def fmt06x (i : Nat) : String :=
  if i < 16 ^ 6 then
    String.mk [hexDigit (i / 16 ^ 5 % 16), hexDigit (i / 16 ^ 4 % 16), hexDigit (i / 16 ^ 3 % 16),
      hexDigit (i / 16 ^ 2 % 16), hexDigit (i / 16 % 16), hexDigit (i % 16)]
  else if i < 16 ^ 7 then
    String.mk [hexDigit (i / 16 ^ 6 % 16), hexDigit (i / 16 ^ 5 % 16), hexDigit (i / 16 ^ 4 % 16),
      hexDigit (i / 16 ^ 3 % 16), hexDigit (i / 16 ^ 2 % 16), hexDigit (i / 16 % 16),
      hexDigit (i % 16)]
  else
    String.mk [hexDigit (i / 16 ^ 7 % 16), hexDigit (i / 16 ^ 6 % 16), hexDigit (i / 16 ^ 5 % 16),
      hexDigit (i / 16 ^ 4 % 16), hexDigit (i / 16 ^ 3 % 16), hexDigit (i / 16 ^ 2 % 16),
      hexDigit (i / 16 % 16), hexDigit (i % 16)]

/-- The `sprintf` conversion `%02x` of a value below 256. -/
def fmt02x (b : Nat) : String :=
  String.mk [hexDigit (b / 16 % 16), hexDigit (b % 16)]

/-- One iteration of the inner loop of `logstream::hexdump` (the ASCII
dump): what `strcat` makes of `temp` for the position `j`. The memory is
`mem`, a byte (taken modulo 256) per offset. -/
def hexdumpAscii (mem : Nat → Nat) (len : Nat) (temp : String) (j : Nat) : String :=
  if j ≥ len then temp ++ " "
  else if (mem j % 256) &&& 0x7f > 32 then temp ++ String.singleton (Char.ofNat (mem j % 256))
  else temp ++ "."

/-- The outer loop of `logstream::hexdump` from the index `i` on, with the
row text `temp` built so far; `bound` is the value of the loop bound and
the first argument bounds the number of iterations. -/
def hexdumpLoop (c p : Nat) (fileName : Option String) (line : Int) (mem : Nat → Nat)
    (len columns bound : Nat) : Nat → Nat → String → logstream → logstream
  | 0, _, _, self => self
  | fuel + 1, i, temp, self =>
    if i < bound then
      if temp.length > 500 then self
      else
        let temp1 := if i % columns == 0 then temp ++ ("0x" ++ fmt06x i ++ ": ") else temp
        let temp2 := if i < len then temp1 ++ (fmt02x (mem i % 256) ++ " ") else temp1 ++ "   "
        if i % columns == columns - 1 then
          let temp3 := (List.range' (i - (columns - 1)) columns).foldl (hexdumpAscii mem len) temp2
          hexdumpLoop c p fileName line mem len columns bound fuel (i + 1) ""
            (self.log c p fileName line temp3)
        else hexdumpLoop c p fileName line mem len columns bound fuel (i + 1) temp2 self
    else self

/-- `logstream::hexdump`; the loop bound is computed in `unsigned int`
arithmetic, and the loop makes at most that many iterations. -/
def logstream.hexdump (self : logstream) (c p : Nat) (fileName : Option String) (line : Int)
    (mem : Nat → Nat) (len columns : Nat) : logstream :=
  let bound := (len + (if len % columns != 0 then columns - len % columns else 0)) % 2 ^ 32
  hexdumpLoop c p fileName line mem len columns bound bound 0 "" self

/-- The hexadecimal cell of the offset `i`: the byte and a blank, or three
blanks behind the end of the buffer. -/
def hexCell (mem : Nat → Nat) (len i : Nat) : String :=
  if i < len then fmt02x (mem i % 256) ++ " " else "   "

/-- The text of row `r` in front of the ASCII column after `k` cells: the
offset of the row and the cells. -/
def hexRowPrefix (mem : Nat → Nat) (len columns r k : Nat) : String :=
  (List.range' (r * columns) k).foldl (fun t i => t ++ hexCell mem len i)
    ("0x" ++ fmt06x (r * columns) ++ ": ")

/-- The character of the ASCII column for the offset `j`. -/
def asciiChar (mem : Nat → Nat) (len j : Nat) : Char :=
  if j ≥ len then ' '
  else if (mem j % 256) &&& 0x7f > 32 then Char.ofNat (mem j % 256)
  else '.'

/-- The text of row `r`: offset, `columns` cells, and the ASCII column with
one character per position of the row. -/
def hexRow (mem : Nat → Nat) (len columns r : Nat) : String :=
  hexRowPrefix mem len columns r columns ++
    String.mk ((List.range' (r * columns) columns).map (asciiChar mem len))

/-- The rows of a dump of `len` bytes in rows of `columns`. -/
def hexRows (mem : Nat → Nat) (len columns : Nat) : List String :=
  (List.range ((len + columns - 1) / columns)).map (hexRow mem len columns)

/-- The ASCII rendering in the words of the specification: a printable
byte, one in the range 0x20..0x7e, is shown as itself and every other byte
as a dot. -/
def printableAscii (b : Nat) : Char :=
  if 0x20 ≤ b ∧ b ≤ 0x7e then Char.ofNat b else '.'

/-- A buffer for examples: the bytes of "Hi there", then zeros. -/
def demoMem : Nat → Nat :=
  fun i => ([72, 105, 32, 116, 104, 101, 114, 101] : List Nat).getD i 0

/-- The stream manipulators `std::setw(8) << std::left` applied to a string:
the string, padded with blanks on the right to eight characters. -/
def fmtLeft8 (str : String) : String :=
  str ++ String.mk (List.replicate (8 - str.length) ' ')

/-- `FileLogCallback::operator()`: the text appended to `m_file`, where
`elapsed` is the rendering of `logTimer.elapsedMSec() / 1000.0` in fixed
notation with two decimals, right-justified in eight characters, the same
text `%8.2f` gives. The result is `none` when `file` is the null pointer:
inserting a null `const char*` into a stream has no defined behaviour. -/
def FileLogCallback.call (self : LogCallback) (elapsed : String) (c p : Nat)
    (file : Option String) (line : Int) (message : String) : Option String :=
  if !self.shouldLog c p then some ""
  else
    match file with
    | none => none
    | some f =>
      some (elapsed ++ fmtLeft8 (" [" ++ LogCallback.debugPriorityToString p ++ "]:") ++
        fmtLeft10 (LogCallback.debugClassToString c) ++ " " ++ f ++ ":" ++ toString line ++
        ":" ++ message ++ "\n")

/-- `WinDebugLogCallback::operator()` (Windows builds): the text handed to
`OutputDebugStringA`. -/
def WinDebugLogCallback.call (self : LogCallback) (c p : Nat) (_file : Option String)
    (_line : Int) (aMessage : String) : String :=
  if !self.shouldLog c p then ""
  else LogCallback.debugClassToString c ++ ":" ++ aMessage ++ "\n"

/-- The console line in the words of the specification: elapsed time,
priority code in brackets, category padded to ten, then `file:line: ` when a
location is present (file not null and line not `-1`), then the message. -/
def consoleLineSpec (elapsed : String) (c p : Nat) (file : Option String) (line : Int)
    (message : String) : String :=
  if file.isSome && line != -1 then
    elapsed ++ " [" ++ LogCallback.debugPriorityToString p ++ "]:" ++
      fmtLeft10 (LogCallback.debugClassToString c) ++ " " ++ file.getD "" ++ ":" ++
      toString line ++ ": " ++ message ++ "\n"
  else
    elapsed ++ " [" ++ LogCallback.debugPriorityToString p ++ "]:" ++
      fmtLeft10 (LogCallback.debugClassToString c) ++ " " ++ message ++ "\n"

/-- The filter of a sink that accepts every category from `SG_DEBUG` on. -/
def demoSink : LogCallback :=
  { m_class := SG_ALL, m_priority := SG_DEBUG }

/-- The states a `logstream` reaches when `removeCallback` is never applied
to a callback of the console sublist. -/
inductive ReachableSparing : logstream → Prop where
  | init (heap0 : Nat → LogCallback) (stderrCb : Nat) :
      ReachableSparing { d := LogStreamPrivate.new heap0 stderrCb, popup_msgs := [] }
  | step (ls : logstream) (op : Op) : ReachableSparing ls →
      (∀ cb, op = Op.removeCallback cb → cb ∉ ls.d.m_consoleCallbacks) →
      ReachableSparing (ls.apply op)

/-- The fresh `logstream` after `removeCallback` of its console callback,
which lives at address `0`. -/
def demoRemoved : logstream :=
  (logstream.new captureHeap 0).removeCallback 0

/-- The statements of `LogStreamPrivate::addCallback` between the
construction and the destruction of `pause`: `m_callbacks.push_back(cb)` and
the replay loop over `m_startupEntries`. -/
def LogStreamPrivate.addCallbackBody (cb : Nat) (t : LogStreamPrivate) : LogStreamPrivate :=
  let t1 := { t with m_callbacks := t.m_callbacks ++ [cb] }
  t1.m_startupEntries.foldl (fun acc entry => acc.invoke cb entry) t1

/-- The statements of `LogStreamPrivate::removeCallback` between the
construction and the destruction of `pause`: `std::find` and `erase`. -/
def LogStreamPrivate.removeCallbackBody (cb : Nat) (t : LogStreamPrivate) : LogStreamPrivate :=
  if cb ∈ t.m_callbacks then { t with m_callbacks := t.m_callbacks.erase cb } else t

/-- The statements of `LogStreamPrivate::removeCallbacks` between the
construction and the destruction of `pause`: the `delete` loop and the two
`clear` calls. -/
def LogStreamPrivate.removeCallbacksBody (t : LogStreamPrivate) : LogStreamPrivate :=
  let t1 := t.m_callbacks.foldl (fun acc cb => { acc with deleted := acc.deleted ++ [cb] }) t
  let t2 := { t1 with m_callbacks := [] }
  { t2 with m_consoleCallbacks := [] }

/-- The statements of `LogStreamPrivate::setLogLevels` between the
construction and the destruction of `pause`: the two assignments and the
loop over `m_consoleCallbacks`. -/
def LogStreamPrivate.setLogLevelsBody (c p : Nat) (t : LogStreamPrivate) : LogStreamPrivate :=
  let t1 := { t with m_logPriority := p }
  let t2 := { t1 with m_logClass := c }
  t2.m_consoleCallbacks.foldl
    (fun acc cb => { acc with heap := Function.update acc.heap cb ((acc.heap cb).setLogLevels c p) })
    t2

/-- The fresh `logstream` with one entry logged and not yet dispatched. -/
def demoLogged : logstream :=
  (logstream.new captureHeap 0).log SG_GENERAL SG_ALERT (some "a.c") 10 "hello"

/-- A `logstream` with startup logging enabled and one entry in the startup
list: constructed, started, startup logging switched on, one entry logged
and dispatched. -/
def demoBuffered : logstream :=
  (((({ d := LogStreamPrivate.new captureHeap 0, popup_msgs := [] } : logstream).apply
    Op.startLog).apply (Op.setStartupLoggingEnabled true)).apply
    (Op.log SG_GENERAL SG_ALERT (some "a.c") 10 "hello")).apply Op.work

/-! ## The worker loop in closed form -/

namespace LogStreamPrivate

theorem foldl_invoke_callbacks (e : LogEntry) (l : List Nat) (s : LogStreamPrivate) :
    l.foldl (fun acc cb => acc.invoke cb e) s =
      { s with calls := s.calls ++ l.map (callOf e) } := by
  induction l generalizing s with
  | nil => simp
  | cons cb l ih => rw [List.foldl_cons, ih]; simp [invoke, List.append_assoc]

theorem foldl_invoke_entries (cb : Nat) (l : List LogEntry) (s : LogStreamPrivate) :
    l.foldl (fun acc entry => acc.invoke cb entry) s =
      { s with calls := s.calls ++ l.map (fun e => callOf e cb) } := by
  induction l generalizing s with
  | nil => simp
  | cons e l ih => rw [List.foldl_cons, ih]; simp [invoke, List.append_assoc]

theorem foldl_delete (l : List Nat) (s : LogStreamPrivate) :
    l.foldl (fun acc cb => { acc with deleted := acc.deleted ++ [cb] }) s =
      { s with deleted := s.deleted ++ l } := by
  induction l generalizing s with
  | nil => simp
  | cons cb l ih => rw [List.foldl_cons, ih]; simp [List.append_assoc]

theorem foldl_setLogLevels (c p : Nat) (l : List Nat) (s : LogStreamPrivate) :
    l.foldl (fun acc cb =>
        { acc with heap := Function.update acc.heap cb ((acc.heap cb).setLogLevels c p) }) s =
      { s with heap :=
          (l.foldl (fun h cb => Function.update h cb ((h cb).setLogLevels c p)) s.heap) } := by
  induction l generalizing s with
  | nil => simp
  | cons cb l ih => rw [List.foldl_cons, ih]; simp

theorem dispatch_eq (s : LogStreamPrivate) (e : LogEntry) :
    s.dispatch e =
      { s with
        m_startupEntries :=
          if s.m_startupLogging then s.m_startupEntries ++ [e] else s.m_startupEntries
        calls := s.calls ++ s.m_callbacks.map (callOf e) } := by
  unfold dispatch
  rw [foldl_invoke_callbacks]
  cases h : s.m_startupLogging <;> simp [h]

theorem iterate_workerStep_dead (n : Nat) (s : LogStreamPrivate) (h : s.threadAlive = false) :
    Nat.iterate workerStep n s = s := by
  induction n with
  | zero => rfl
  | succ n ih =>
    have h1 : workerStep s = s := by simp [workerStep, h]
    rw [Function.iterate_succ_apply, h1, ih]

theorem run_dead (s : LogStreamPrivate) (h : s.threadAlive = false) : s.run = s :=
  iterate_workerStep_dead _ s h

theorem run_alive_aux (q : List LogEntry) :
    ∀ s : LogStreamPrivate, s.threadAlive = true → s.m_entries = q →
      s.run =
        { s with
          m_entries := afterMarker q
          threadAlive := !hasMarker q
          m_startupEntries :=
            s.m_startupEntries ++ (if s.m_startupLogging then beforeMarker q else [])
          calls := s.calls ++ callsFor s.m_callbacks (beforeMarker q) } := by
  induction q with
  | nil =>
    intro s ha hq
    cases s
    simp only at ha hq
    subst ha hq
    simp [run, afterMarker, hasMarker, beforeMarker, callsFor]
  | cons e q ih =>
    intro s ha hq
    have hrun : s.run = Nat.iterate workerStep (q.length + 1) s := by
      simp [run, hq]
    rw [hrun, Function.iterate_succ_apply]
    cases hm : isDoneMarker e
    · have hstep : workerStep s = dispatch { s with m_entries := q } e := by
        simp [workerStep, ha, hq, hm]
      have hrun2 : Nat.iterate workerStep q.length (workerStep s) = (workerStep s).run := by
        simp [run, hstep, dispatch_eq]
      rw [hrun2, hstep, ih _ (by simp [dispatch_eq, ha]) (by simp [dispatch_eq])]
      cases hs : s.m_startupLogging <;>
        simp [dispatch_eq, afterMarker, hasMarker, beforeMarker, callsFor, hm, hs,
          List.append_assoc]
    · have hstep : workerStep s = { s with m_entries := q, threadAlive := false } := by
        simp [workerStep, ha, hq, hm]
      rw [hstep, iterate_workerStep_dead _ _ (by simp)]
      simp [afterMarker, hasMarker, beforeMarker, callsFor, hm]

theorem run_alive (s : LogStreamPrivate) (h : s.threadAlive = true) :
    s.run =
      { s with
        m_entries := afterMarker s.m_entries
        threadAlive := !hasMarker s.m_entries
        m_startupEntries :=
          s.m_startupEntries ++ (if s.m_startupLogging then beforeMarker s.m_entries else [])
        calls := s.calls ++ callsFor s.m_callbacks (beforeMarker s.m_entries) } :=
  run_alive_aux s.m_entries s h rfl

theorem isDoneMarker_doneEntry : isDoneMarker doneEntry = true := by decide

theorem log_done (s : LogStreamPrivate) :
    s.log SG_NONE SG_ALERT (some "done") (-1) "" =
      { s with m_entries := s.m_entries ++ [doneEntry] } := by
  have h : s.translatePriority SG_ALERT = SG_ALERT := by
    simp [translatePriority, SG_ALERT, SG_DEV_WARN, SG_DEV_ALERT]
  cases hf : s.m_fileLine <;> simp [log, h, hf, doneEntry]

theorem stop_not_running (s : LogStreamPrivate) (h : s.m_isRunning = false) :
    s.stop = (false, s) := by
  simp [stop, h]

theorem stop_running (s : LogStreamPrivate) (h : s.m_isRunning = true) :
    s.stop =
      (true, { ({ s with m_entries := s.m_entries ++ [doneEntry] } : LogStreamPrivate).run with
                m_isRunning := false }) := by
  simp [stop, h, log_done]

theorem run_testMode (s : LogStreamPrivate) : s.run.m_testMode = s.m_testMode := by
  cases h : s.threadAlive
  · rw [run_dead s h]
  · rw [run_alive s h]

theorem stop_testMode (s : LogStreamPrivate) : s.stop.2.m_testMode = s.m_testMode := by
  cases h : s.m_isRunning
  · rw [stop_not_running s h]
  · rw [stop_running s h]
    simp [run_testMode]

theorem startLog_testMode (s : LogStreamPrivate) : s.startLog.m_testMode = s.m_testMode := by
  cases h : s.m_isRunning <;> simp [startLog, h]

theorem PauseThread_testMode (s : LogStreamPrivate) (body : LogStreamPrivate → LogStreamPrivate)
    (hbody : ∀ t, (body t).m_testMode = t.m_testMode) :
    (s.PauseThread body).m_testMode = s.m_testMode := by
  unfold PauseThread
  cases h : s.stop.1 <;> simp only [h, if_true, if_false, Bool.false_eq_true] <;>
    simp [startLog_testMode, hbody, stop_testMode]

theorem removeCallbacks_testMode (s : LogStreamPrivate) :
    s.removeCallbacks.m_testMode = s.m_testMode := by
  unfold removeCallbacks
  apply PauseThread_testMode
  intro t
  simp [foldl_delete]

theorem setLogLevels_testMode (s : LogStreamPrivate) (c p : Nat) :
    (s.setLogLevels c p).m_testMode = s.m_testMode := by
  unfold setLogLevels
  apply PauseThread_testMode
  intro t
  simp [foldl_setLogLevels]

theorem log_eq (s : LogStreamPrivate) (c p : Nat) (f : Option String) (l : Int) (m : String) :
    s.log c p f l m = { s with m_entries := s.m_entries ++ [storedEntry s c p f l m] } := by
  cases hf : s.m_fileLine <;> simp [log, storedEntry, hf]

theorem workerStep_pop (s : LogStreamPrivate) (e : LogEntry) (q : List LogEntry)
    (ha : s.threadAlive = true) (hq : s.m_entries = e :: q) (hm : isDoneMarker e = false) :
    s.workerStep =
      { s with
        m_entries := q
        m_startupEntries :=
          if s.m_startupLogging then s.m_startupEntries ++ [e] else s.m_startupEntries
        calls := s.calls ++ s.m_callbacks.map (callOf e) } := by
  simp [workerStep, ha, hq, hm, dispatch_eq]

theorem would_log_of_testMode (s : LogStreamPrivate) (h : s.m_testMode = true) (c p : Nat) :
    s.would_log c p = true := by
  simp [would_log, h]

end LogStreamPrivate

/-! ## Facts about queues and call traces -/

theorem callsFor_append (cbs : List Nat) (a b : List LogEntry) :
    callsFor cbs (a ++ b) = callsFor cbs a ++ callsFor cbs b := by
  induction a with
  | nil => simp [callsFor]
  | cons e a ih => simp [callsFor, ih, List.append_assoc]

theorem hasMarker_append_single (q : List LogEntry) (e : LogEntry)
    (hq : hasMarker q = false) :
    hasMarker (q ++ [e]) = LogStreamPrivate.isDoneMarker e := by
  induction q with
  | nil => cases h : LogStreamPrivate.isDoneMarker e <;> simp [hasMarker, h]
  | cons x q ih =>
    cases hx : LogStreamPrivate.isDoneMarker x
    · simp [hasMarker, hx] at hq ⊢
      exact ih hq
    · simp [hasMarker, hx] at hq

theorem beforeMarker_append_done (q : List LogEntry) (e : LogEntry)
    (hq : hasMarker q = false) (he : LogStreamPrivate.isDoneMarker e = true) :
    beforeMarker (q ++ [e]) = q ∧ afterMarker (q ++ [e]) = [] := by
  induction q with
  | nil => simp [beforeMarker, afterMarker, he]
  | cons x q ih =>
    cases hx : LogStreamPrivate.isDoneMarker x
    · simp [hasMarker, hx] at hq
      simp [beforeMarker, afterMarker, hx, ih hq]
    · simp [hasMarker, hx] at hq

theorem filter_map_callOf (e : LogEntry) (cb : Nat) (cbs : List Nat) :
    (cbs.map (LogStreamPrivate.callOf e)).filter (fun i => i.cb == cb) =
      List.replicate (cbs.count cb) (LogStreamPrivate.callOf e cb) := by
  induction cbs with
  | nil => simp
  | cons x cbs ih =>
    by_cases hx : x = cb
    · subst hx
      simp [List.filter_cons, LogStreamPrivate.callOf, List.replicate_succ] at ih ⊢
      exact ih
    · have hx2 : (x == cb) = false := by simpa using hx
      simp [List.filter_cons, LogStreamPrivate.callOf, hx, hx2, List.count_cons] at ih ⊢
      exact ih

theorem filter_callsFor_of_count_one (cb : Nat) (cbs : List Nat) (h : cbs.count cb = 1)
    (es : List LogEntry) :
    (callsFor cbs es).filter (fun i => i.cb == cb) =
      es.map (fun e => LogStreamPrivate.callOf e cb) := by
  induction es with
  | nil => simp [callsFor]
  | cons e es ih => simp [callsFor, List.filter_append, filter_map_callOf, h, ih]

theorem loggedEntries_length (s : LogStreamPrivate) (acts : List Action) :
    (loggedEntries s acts).length = acts.countP Action.isLog := by
  induction acts with
  | nil => simp [loggedEntries]
  | cons a acts ih => cases a <;> simp [loggedEntries, Action.isLog, ih]

theorem loggedEntries_congr (s t : LogStreamPrivate) (h1 : t.m_developerMode = s.m_developerMode)
    (h2 : t.m_fileLine = s.m_fileLine) (acts : List Action) :
    loggedEntries t acts = loggedEntries s acts := by
  induction acts with
  | nil => simp [loggedEntries]
  | cons a acts ih =>
    cases a <;> simp [loggedEntries, ih, storedEntry, LogStreamPrivate.translatePriority, h1, h2]

theorem Frame.refl (s : LogStreamPrivate) : Frame s s := by
  unfold Frame
  rfl

theorem Frame.trans {s t u : LogStreamPrivate} (h1 : Frame s t) (h2 : Frame t u) :
    Frame s u := by
  unfold Frame at *
  obtain ⟨⟩ := s
  obtain ⟨⟩ := t
  obtain ⟨⟩ := u
  simp only [LogStreamPrivate.mk.injEq] at *
  simp_all

theorem Frame.of_eq {s t : LogStreamPrivate} (q st : List LogEntry) (c : List Invocation)
    (h : t = { s with m_entries := q, m_startupEntries := st, calls := c }) : Frame s t := by
  unfold Frame
  subst h
  rfl

/-- The invariant of an execution without marker entries: only the queue,
the startup list and the call trace change, no marker gets queued, and the
calls (startup records) made so far followed by those still owed to the
queued entries are the ones owed to everything that was queued or logged. -/
theorem performAll_invariant (acts : List Action) :
    ∀ s : LogStreamPrivate, s.threadAlive = true → hasMarker s.m_entries = false →
      (∀ a ∈ acts, Action.isMarkerLog a = false) →
      Frame s (s.performAll acts) ∧
      hasMarker (s.performAll acts).m_entries = false ∧
      (s.performAll acts).m_startupEntries ++
          (if s.m_startupLogging then (s.performAll acts).m_entries else []) =
        s.m_startupEntries ++
          (if s.m_startupLogging then s.m_entries ++ loggedEntries s acts else []) ∧
      (s.performAll acts).calls ++ callsFor s.m_callbacks (s.performAll acts).m_entries =
        s.calls ++ callsFor s.m_callbacks (s.m_entries ++ loggedEntries s acts) := by
  induction acts with
  | nil =>
    intro s ha hq _
    simp [LogStreamPrivate.performAll, loggedEntries, hq, Frame.refl]
  | cons a acts ih =>
    intro s ha hq hacts
    have hrest : ∀ b ∈ acts, Action.isMarkerLog b = false :=
      fun b hb => hacts b (List.mem_cons_of_mem _ hb)
    have ha0 : Action.isMarkerLog a = false := hacts a (List.mem_cons_self _ _)
    have hfold : s.performAll (a :: acts) = (s.perform a).performAll acts := by
      simp [LogStreamPrivate.performAll]
    rw [hfold]
    cases a with
    | log c p f l m =>
      have hnm : LogStreamPrivate.isDoneMarker (storedEntry s c p f l m) = false := by
        cases f with
        | none => simp [LogStreamPrivate.isDoneMarker, storedEntry]
        | some f =>
          simpa [LogStreamPrivate.isDoneMarker, storedEntry, Action.isMarkerLog] using ha0
      have hq1 : hasMarker (s.m_entries ++ [storedEntry s c p f l m]) = false := by
        rw [hasMarker_append_single _ _ hq, hnm]
      have hs1 : s.perform (Action.log c p f l m) =
          { s with m_entries := s.m_entries ++ [storedEntry s c p f l m] } := by
        simp [LogStreamPrivate.perform, LogStreamPrivate.log_eq]
      have hf1 : Frame s (s.perform (Action.log c p f l m)) :=
        Frame.of_eq _ s.m_startupEntries s.calls hs1
      have h := ih (s.perform (Action.log c p f l m)) (by simp [hs1, ha])
        (by simpa [hs1] using hq1) hrest
      have hc := loggedEntries_congr s (s.perform (Action.log c p f l m))
        (by simp [hs1]) (by simp [hs1]) acts
      obtain ⟨h1, h2, h3, h4⟩ := h
      refine ⟨hf1.trans h1, h2, ?_, ?_⟩
      · rw [hc] at h3
        generalize (s.perform (Action.log c p f l m)).performAll acts = t at h3 ⊢
        simp only [hs1] at h3
        rw [h3]
        cases s.m_startupLogging <;> simp [loggedEntries, List.append_assoc]
      · rw [hc] at h4
        generalize (s.perform (Action.log c p f l m)).performAll acts = t at h4 ⊢
        simp only [hs1] at h4
        rw [h4]
        simp [loggedEntries, List.append_assoc]
    | work =>
      cases hent : s.m_entries with
      | nil =>
        have hstep : s.workerStep = s := by simp [LogStreamPrivate.workerStep, ha, hent]
        have h := ih s ha hq hrest
        rw [hent] at h
        simp only [LogStreamPrivate.perform, hstep, loggedEntries]
        exact h
      | cons e q =>
        have hm : LogStreamPrivate.isDoneMarker e = false := by
          cases hx : LogStreamPrivate.isDoneMarker e
          · rfl
          · simp [hent, hasMarker, hx] at hq
        have hq2 : hasMarker q = false := by
          simpa [hent, hasMarker, hm] using hq
        have hs1 : s.perform Action.work = _ := LogStreamPrivate.workerStep_pop s e q ha hent hm
        have hf1 : Frame s (s.perform Action.work) := Frame.of_eq _ _ _ hs1
        have h := ih (s.perform Action.work) (by simp [hs1, ha]) (by simp [hs1, hq2]) hrest
        have hc := loggedEntries_congr s (s.perform Action.work)
          (by simp [hs1]) (by simp [hs1]) acts
        obtain ⟨h1, h2, h3, h4⟩ := h
        refine ⟨hf1.trans h1, h2, ?_, ?_⟩
        · rw [hc] at h3
          generalize (s.perform Action.work).performAll acts = t at h3 ⊢
          simp only [hs1] at h3
          rw [h3]
          cases s.m_startupLogging <;> simp [loggedEntries, List.append_assoc]
        · rw [hc] at h4
          generalize (s.perform Action.work).performAll acts = t at h4 ⊢
          simp only [hs1] at h4
          rw [h4]
          simp [loggedEntries, callsFor, List.append_assoc]

/-- What `stop` returns after an execution without marker entries that
started with the dispatcher running: the queue is drained, the worker thread
has returned, and every pending or logged entry has been recorded in the
startup list (when enabled) and dispatched to the callback list. -/
theorem performAll_stop (s : LogStreamPrivate) (acts : List Action)
    (hrun : s.m_isRunning = true) (halive : s.threadAlive = true)
    (hq : hasMarker s.m_entries = false)
    (hacts : ∀ a ∈ acts, Action.isMarkerLog a = false) :
    (s.performAll acts).stop =
      (true,
        { s with
          m_entries := []
          threadAlive := false
          m_isRunning := false
          m_startupEntries := s.m_startupEntries ++
            (if s.m_startupLogging then s.m_entries ++ loggedEntries s acts else [])
          calls := s.calls ++ callsFor s.m_callbacks (s.m_entries ++ loggedEntries s acts) }) := by
  obtain ⟨h1, h2, h3, h4⟩ := performAll_invariant acts s halive hq hacts
  generalize s.performAll acts = t at h1 h2 h3 h4
  unfold Frame at h1
  have hr : t.m_isRunning = true := by rw [h1]; exact hrun
  have hal : t.threadAlive = true := by rw [h1]; exact halive
  have hcb : t.m_callbacks = s.m_callbacks := by rw [h1]
  have hsl : t.m_startupLogging = s.m_startupLogging := by rw [h1]
  have hb := beforeMarker_append_done t.m_entries LogStreamPrivate.doneEntry h2
    LogStreamPrivate.isDoneMarker_doneEntry
  have hm : hasMarker (t.m_entries ++ [LogStreamPrivate.doneEntry]) = true := by
    rw [hasMarker_append_single _ _ h2, LogStreamPrivate.isDoneMarker_doneEntry]
  rw [LogStreamPrivate.stop_running _ hr, LogStreamPrivate.run_alive _ (by simpa using hal)]
  simp only [hb.1, hb.2, hm, hcb, hsl, h3, h4]
  rw [h1]
  simp

/-- The freshly constructed `logstream`, with file/line attribution set to
`b`, after `addCallback(cb)`: the dispatcher runs again and `cb` is the
second callback. -/
theorem addCallback_new (heap0 : Nat → LogCallback) (stderrCb cb : Nat) (b : Bool) :
    (((logstream.new heap0 stderrCb).setFileLine b).addCallback cb).d =
      { (LogStreamPrivate.new heap0 stderrCb) with
        m_isRunning := true
        threadAlive := true
        m_fileLine := b
        m_callbacks := [stderrCb, cb] } := by
  have hm : hasMarker [LogStreamPrivate.doneEntry] = true := by decide
  have hb : beforeMarker [LogStreamPrivate.doneEntry] = [] := by decide
  have ha : afterMarker [LogStreamPrivate.doneEntry] = [] := by decide
  simp [logstream.new, logstream.setFileLine, logstream.addCallback,
    LogStreamPrivate.addCallback, LogStreamPrivate.PauseThread, LogStreamPrivate.new,
    LogStreamPrivate.startLog, LogStreamPrivate.stop_running, LogStreamPrivate.run_alive,
    hm, hb, ha, callsFor]

/-- What the capturing sink (mask `SG_ALL`, threshold `SG_DEBUG`) holds at
the end of the concrete scenario on a fresh registry whose file/line
attribution flag is `b`. -/
theorem captureRun_new (heap0 : Nat → LogCallback) (stderrCb cb c p : Nat)
    (f : Option String) (l : Int) (m : String) (k : Nat) (b : Bool)
    (hcb : cb ≠ stderrCb) (hsink : heap0 cb = { m_class := SG_ALL, m_priority := SG_DEBUG })
    (hc0 : c ≠ 0) (hc : c < 2 ^ 32) (hp1 : SG_DEBUG ≤ p) (hp2 : p ≤ SG_POPUP) :
    (captureRun ((logstream.new heap0 stderrCb).setFileLine b) cb c p f l m k).1 = true ∧
      capturedBy
          ((captureRun ((logstream.new heap0 stderrCb).setFileLine b) cb c p f l m k).2.heap cb)
          cb (captureRun ((logstream.new heap0 stderrCb).setFileLine b) cb c p f l m k).2.calls =
        [{ debugClass := c, debugPriority := p, file := f, line := if b then l else -1,
           message := m }] := by
  have hacts : ∀ a ∈ Action.log c p f l m :: List.replicate k Action.work,
      Action.isMarkerLog a = false := by
    intro a ha
    rcases List.mem_cons.mp ha with h | h
    · subst h
      have : c ≠ SG_NONE := hc0
      simp [Action.isMarkerLog, this]
    · rw [List.eq_of_mem_replicate h]
      rfl
  have hlog : ∀ s : LogStreamPrivate,
      loggedEntries s (Action.log c p f l m :: List.replicate k Action.work) =
        [storedEntry s c p f l m] := by
    intro s
    have : ∀ n, loggedEntries s (List.replicate n Action.work) = [] := by
      intro n
      induction n with
      | zero => rfl
      | succ n ih => simpa [List.replicate_succ, loggedEntries] using ih
    simp [loggedEntries, this]
  have hp : ∀ s : LogStreamPrivate, s.translatePriority p = p := by
    intro s
    have h7 : p ≠ SG_DEV_WARN := by unfold SG_DEV_WARN; unfold SG_POPUP at hp2; omega
    have h8 : p ≠ SG_DEV_ALERT := by unfold SG_DEV_ALERT; unfold SG_POPUP at hp2; omega
    simp [LogStreamPrivate.translatePriority, h7, h8]
  have hall : c &&& SG_ALL = c := by
    have h := Nat.and_pow_two_sub_one_of_lt_two_pow hc
    simpa [SG_ALL] using h
  have hshould : ({ m_class := SG_ALL, m_priority := SG_DEBUG } : LogCallback).shouldLog c p
      = true := by
    simp [LogCallback.shouldLog, hall, hc0, hp1]
  have hne : (stderrCb == cb) = false := by
    simpa using fun h : stderrCb = cb => hcb h.symm
  unfold captureRun
  rw [addCallback_new, performAll_stop _ _ rfl rfl (by simp [LogStreamPrivate.new, hasMarker]) hacts,
    hlog]
  refine ⟨rfl, ?_⟩
  have hheap : Function.update heap0 stderrCb
      ({ m_class := SG_ALL, m_priority := SG_ALERT } : LogCallback) cb = heap0 cb :=
    Function.update_noteq hcb _ _
  simp only [LogStreamPrivate.new, hheap, hsink]
  cases b <;>
    simp [capturedBy, callsFor, LogStreamPrivate.callOf, storedEntry, hp, hne, hshould,
      List.filter_cons]

/-! ## Filtering -/

/-- C1. `LogCallback::shouldLog` returns true exactly when the category
intersects the callback mask and the priority reaches the callback threshold,
or the category is the reserved `SG_OSG`. -/
theorem shouldLog_iff (cb : LogCallback) (c p : Nat) :
    cb.shouldLog c p = true ↔
      (((c &&& cb.m_class) ≠ 0 ∧ p ≥ cb.m_priority) ∨ c = SG_OSG) := by
  unfold LogCallback.shouldLog
  by_cases h1 : (c &&& cb.m_class) ≠ 0 ∧ p ≥ cb.m_priority
  · simp [h1.1, h1.2]
  · by_cases h2 : c = SG_OSG
    · simp [h2]
    · have h3 : ¬ (¬ (c &&& cb.m_class) = 0 ∧ cb.m_priority ≤ p) := h1
      simp [h2, h3]

/-- A priority whose unsigned value is that of `SG_OSG` is not a developer
level and is at least `SG_INFO`. -/
theorem translatePriority_of_mod_eq_OSG (s : LogStreamPrivate) (p : Nat)
    (h : p % 2 ^ 32 = SG_OSG % 2 ^ 32) : s.translatePriority p ≥ SG_INFO := by
  have h1 : p % 2 ^ 32 ≤ p := Nat.mod_le _ _
  have h2 : SG_OSG % 2 ^ 32 = 134217728 := by decide
  have h3 : 134217728 ≤ p := by omega
  unfold LogStreamPrivate.translatePriority SG_DEV_WARN SG_DEV_ALERT SG_INFO
  have h4 : (p == 7) = false := by simp; omega
  have h5 : (p == 8) = false := by simp; omega
  simp only [h4, h5]
  simp
  omega

/-- What `would_log` computes, for every category and priority. -/
theorem would_log_eq (s : LogStreamPrivate) (c p : Nat) :
    s.would_log c p = true ↔
      (s.m_testMode = true ∨ s.translatePriority p ≥ SG_INFO ∨
        ((c &&& s.m_logClass) ≠ 0 ∧ s.translatePriority p ≥ s.m_logPriority)) := by
  unfold LogStreamPrivate.would_log
  by_cases ht : s.m_testMode = true
  · simp [ht]
  · by_cases ho : p % 2 ^ 32 = SG_OSG % 2 ^ 32
    · have := translatePriority_of_mod_eq_OSG s p ho
      simp [ht, ho, this]
    · by_cases hi : s.translatePriority p ≥ SG_INFO
      · simp [ht, ho, hi]
      · have hi2 : ¬ (SG_INFO ≤ s.translatePriority p) := hi
        have ho2 : ¬ p % 4294967296 = SG_OSG % 4294967296 := by simpa using ho
        simp [ht, ho2, hi2]

/-- C2, as stated, fails: in the freshly constructed registry (mask `SG_ALL`,
threshold `SG_ALERT`) `would_log (SG_GENERAL, SG_INFO)` is true although the
priority is below the threshold, the category is not `SG_OSG` and test mode
is off. -/
theorem would_log_spec_counterexample :
    ¬ (freshPrivate.would_log SG_GENERAL SG_INFO = true ↔
        would_log_spec freshPrivate SG_GENERAL SG_INFO) := by
  intro h
  have h1 : freshPrivate.would_log SG_GENERAL SG_INFO = true := by decide
  have h2 := h.mp h1
  revert h2
  unfold would_log_spec
  decide

/-- C2, amended. For every registry state, every category other than the
reserved `SG_OSG` and every priority, `would_log` is true exactly when test
mode is active, or the translated priority is at least `SG_INFO`, or the
category intersects the global mask and the translated priority reaches the
global threshold. -/
theorem would_log_iff (s : LogStreamPrivate) (c p : Nat) (_hc : c ≠ SG_OSG) :
    s.would_log c p = true ↔
      (s.m_testMode = true ∨ s.translatePriority p ≥ SG_INFO ∨
        ((c &&& s.m_logClass) ≠ 0 ∧ s.translatePriority p ≥ s.m_logPriority)) :=
  would_log_eq s c p

/-- Witness of `would_log_iff`: category `SG_GENERAL`, priority `SG_DEBUG` in
the fresh registry. -/
theorem would_log_iff_witness :
    SG_GENERAL ≠ SG_OSG ∧
    (freshPrivate.would_log SG_GENERAL SG_DEBUG = true ↔
      (freshPrivate.m_testMode = true ∨ freshPrivate.translatePriority SG_DEBUG ≥ SG_INFO ∨
        ((SG_GENERAL &&& freshPrivate.m_logClass) ≠ 0 ∧
          freshPrivate.translatePriority SG_DEBUG ≥ freshPrivate.m_logPriority))) :=
  ⟨by decide, would_log_iff freshPrivate SG_GENERAL SG_DEBUG (by decide)⟩

/-- C3. The code at the failing input: in the freshly constructed registry,
test mode off, `would_log (SG_OSG, SG_BULK)` is false, and so is
`would_log (SG_OSG, SG_DEBUG)`. -/
theorem would_log_OSG_rejected :
    freshPrivate.m_testMode = false ∧
    freshPrivate.would_log SG_OSG SG_BULK = false ∧
    freshPrivate.would_log SG_OSG SG_DEBUG = false := by
  decide

/-- C4. After `setTestingMode(true)`, `would_log` is true for every category
and priority, and it stays so whatever global mask and threshold
`setLogLevels` installs and whatever `setDeveloperMode` sets afterwards. -/
theorem would_log_testingMode (self : logstream) (c p mask thr : Nat) (dev : Bool) :
    (self.setTestingMode true).would_log c p = true ∧
      (((self.setTestingMode true).setLogLevels mask thr).setDeveloperMode dev).would_log c p
        = true := by
  have h1 : (self.setTestingMode true).d.m_testMode = true := by
    simp [logstream.setTestingMode, LogStreamPrivate.removeCallbacks_testMode]
  constructor
  · exact LogStreamPrivate.would_log_of_testMode _ h1 c p
  · apply LogStreamPrivate.would_log_of_testMode
    simp only [logstream.setDeveloperMode, logstream.setLogLevels,
      LogStreamPrivate.setLogLevels_testMode]
    exact h1

/-! ## Priority translation and the entry queue -/

/-- C5. `translatePriority` maps `SG_DEV_WARN` to `SG_WARN` with developer
mode on and to `SG_DEBUG` with it off, maps `SG_DEV_ALERT` to `SG_POPUP` with
developer mode on and to `SG_WARN` with it off, and returns every other
priority unchanged. -/
theorem translatePriority_spec (s : LogStreamPrivate) (p : Nat)
    (h1 : p ≠ SG_DEV_WARN) (h2 : p ≠ SG_DEV_ALERT) :
    ({ s with m_developerMode := true } : LogStreamPrivate).translatePriority SG_DEV_WARN
        = SG_WARN ∧
      ({ s with m_developerMode := false } : LogStreamPrivate).translatePriority SG_DEV_WARN
        = SG_DEBUG ∧
      ({ s with m_developerMode := true } : LogStreamPrivate).translatePriority SG_DEV_ALERT
        = SG_POPUP ∧
      ({ s with m_developerMode := false } : LogStreamPrivate).translatePriority SG_DEV_ALERT
        = SG_WARN ∧
      s.translatePriority p = p := by
  refine ⟨?_, ?_, ?_, ?_, ?_⟩
  · simp [LogStreamPrivate.translatePriority]
  · simp [LogStreamPrivate.translatePriority]
  · simp [LogStreamPrivate.translatePriority, SG_DEV_ALERT, SG_DEV_WARN]
  · simp [LogStreamPrivate.translatePriority, SG_DEV_ALERT, SG_DEV_WARN]
  · simp [LogStreamPrivate.translatePriority, h1, h2]

/-- Witness of `translatePriority_spec`: the fresh registry and `SG_INFO`. -/
theorem translatePriority_spec_witness :
    SG_INFO ≠ SG_DEV_WARN ∧ SG_INFO ≠ SG_DEV_ALERT ∧
      freshPrivate.translatePriority SG_INFO = SG_INFO :=
  ⟨by decide, by decide,
    (translatePriority_spec freshPrivate SG_INFO (by decide) (by decide)).2.2.2.2⟩

/-- The result of `translatePriority` is never a developer level. -/
theorem translatePriority_concrete (s : LogStreamPrivate) (p : Nat) :
    s.translatePriority p ≠ SG_DEV_WARN ∧ s.translatePriority p ≠ SG_DEV_ALERT := by
  unfold LogStreamPrivate.translatePriority
  by_cases h1 : p = SG_DEV_WARN
  · cases s.m_developerMode <;> simp [h1] <;> decide
  · by_cases h2 : p = SG_DEV_ALERT
    · cases s.m_developerMode <;> simp [h2] <;> decide
    · simp [h1, h2]

/-- C6. `log` appends exactly one entry at the tail of the entry queue and
changes nothing else; the entry carries the category, file and message as
passed, the translated priority, which is never `SG_DEV_WARN` or
`SG_DEV_ALERT`, and the line as passed when file/line attribution is on or
`-1` when it is off. -/
theorem log_enqueues (s : LogStreamPrivate) (c p : Nat) (f : Option String) (l : Int)
    (m : String) :
    s.log c p f l m =
        { s with m_entries := s.m_entries ++
            [{ debugClass := c, debugPriority := s.translatePriority p, file := f,
               line := if s.m_fileLine then l else -1, message := m }] } ∧
      s.translatePriority p ≠ SG_DEV_WARN ∧ s.translatePriority p ≠ SG_DEV_ALERT := by
  refine ⟨?_, translatePriority_concrete s p⟩
  cases hf : s.m_fileLine <;> simp [LogStreamPrivate.log, hf]

/-- C7, as stated, fails: with file/line attribution off (the state of a
fresh registry) the entry stored by `log(SG_GENERAL, SG_INFO, "a.c", 10,
"hello")` still carries the file `"a.c"`; only its line is the sentinel. -/
theorem log_drops_file_counterexample :
    freshPrivate.m_fileLine = false ∧
      ¬ (∀ e ∈ (freshPrivate.log SG_GENERAL SG_INFO (some "a.c") 10 "hello").m_entries,
          e.file = none ∧ e.line = -1) := by
  refine ⟨rfl, ?_⟩
  intro h
  have h1 := h (storedEntry freshPrivate SG_GENERAL SG_INFO (some "a.c") 10 "hello")
    (by simp [LogStreamPrivate.log_eq, freshPrivate, LogStreamPrivate.new])
  simp [storedEntry] at h1

/-- C7, amended. While the file/line-attribution flag is off, the entry that
`log(c, p, f, l, m)` stores has the sentinel `-1` as line and keeps the file
`f` as passed; the console sink, which prints a location only for a non-null
file with a line other than `-1`, writes such an entry without file and line
(or writes nothing when its filter rejects the entry). -/
theorem log_without_attribution (s : LogStreamPrivate) (c p : Nat) (f : Option String)
    (l : Int) (m : String) (sink : LogCallback) (elapsed : String)
    (h : s.m_fileLine = false) :
    (s.log c p f l m).m_entries =
        s.m_entries ++ [{ debugClass := c, debugPriority := s.translatePriority p, file := f,
                          line := -1, message := m }] ∧
      StderrLogCallback.call sink elapsed c (s.translatePriority p) f (-1) m =
        (if sink.shouldLog c (s.translatePriority p) then
          elapsed ++ " [" ++
            fmtPrecision8 (LogCallback.debugPriorityToString (s.translatePriority p)) ++ "]:" ++
            fmtLeft10 (LogCallback.debugClassToString c) ++ " " ++ m ++ "\n"
        else "") := by
  constructor
  · simp [LogStreamPrivate.log_eq, storedEntry, h]
  · cases hs : sink.shouldLog c (s.translatePriority p) <;>
      simp [StderrLogCallback.call, hs]

/-- Witness of `log_without_attribution`: the fresh registry, whose
attribution flag is off, and the console callback filter it installs. -/
theorem log_without_attribution_witness :
    freshPrivate.m_fileLine = false ∧
      (freshPrivate.log SG_GENERAL SG_ALERT (some "a.c") 10 "hello").m_entries =
        freshPrivate.m_entries ++
          [{ debugClass := SG_GENERAL, debugPriority := freshPrivate.translatePriority SG_ALERT,
             file := some "a.c", line := -1, message := "hello" }] :=
  ⟨rfl, (log_without_attribution freshPrivate SG_GENERAL SG_ALERT (some "a.c") 10 "hello"
    { m_class := SG_ALL, m_priority := SG_ALERT } "    0.00" rfl).1⟩

/-! ## The dispatcher -/

/-- C8, as stated, fails: in the concrete scenario on a fresh registry the
record captured for `log(SG_GENERAL, SG_INFO, "a.c", 10, "hello")` is not
`{SG_GENERAL, SG_INFO, "a.c", 10, "hello"}`. -/
theorem capture_fidelity_counterexample :
    capturedBy
        ((captureRun (logstream.new captureHeap 0) 1 SG_GENERAL SG_INFO (some "a.c") 10
            "hello" 0).2.heap 1)
        1 (captureRun (logstream.new captureHeap 0) 1 SG_GENERAL SG_INFO (some "a.c") 10
            "hello" 0).2.calls ≠
      [{ debugClass := SG_GENERAL, debugPriority := SG_INFO, file := some "a.c", line := 10,
         message := "hello" }] := by
  have h := (captureRun_new captureHeap 0 1 SG_GENERAL SG_INFO (some "a.c") 10 "hello" 0 false
    (by decide) rfl (by decide) (by decide) (by decide) (by decide)).2
  have h0 : (logstream.new captureHeap 0).setFileLine false = logstream.new captureHeap 0 := rfl
  rw [h0] at h
  rw [h]
  simp

/-- C8, amended. On a freshly constructed registry with a capturing sink of
mask `SG_ALL` and threshold `SG_DEBUG` registered, for every `log(c, p, f, l,
m)` with `c` a non-zero category and `p` a concrete priority from `SG_DEBUG`
to `SG_POPUP`, and however far the worker got before `stop`, after `stop`
the sink has captured exactly one record, `{c, p, f, -1, m}`: category,
priority, file and message as passed and the no-location sentinel as line,
since file/line attribution is off in a fresh registry; when
`setFileLine(true)` was called first, the record is `{c, p, f, l, m}`. -/
theorem capture_fidelity (heap0 : Nat → LogCallback) (stderrCb cb c p : Nat)
    (f : Option String) (l : Int) (m : String) (k : Nat)
    (hcb : cb ≠ stderrCb) (hsink : heap0 cb = { m_class := SG_ALL, m_priority := SG_DEBUG })
    (hc0 : c ≠ 0) (hc : c < 2 ^ 32) (hp1 : SG_DEBUG ≤ p) (hp2 : p ≤ SG_POPUP) :
    ((captureRun (logstream.new heap0 stderrCb) cb c p f l m k).1 = true ∧
      capturedBy ((captureRun (logstream.new heap0 stderrCb) cb c p f l m k).2.heap cb) cb
          (captureRun (logstream.new heap0 stderrCb) cb c p f l m k).2.calls =
        [{ debugClass := c, debugPriority := p, file := f, line := -1, message := m }]) ∧
    ((captureRun ((logstream.new heap0 stderrCb).setFileLine true) cb c p f l m k).1 = true ∧
      capturedBy
          ((captureRun ((logstream.new heap0 stderrCb).setFileLine true) cb c p f l m k).2.heap cb)
          cb (captureRun ((logstream.new heap0 stderrCb).setFileLine true) cb c p f l m k).2.calls =
        [{ debugClass := c, debugPriority := p, file := f, line := l, message := m }]) := by
  have h0 : (logstream.new heap0 stderrCb).setFileLine false = logstream.new heap0 stderrCb := rfl
  have hf := captureRun_new heap0 stderrCb cb c p f l m k false hcb hsink hc0 hc hp1 hp2
  have ht := captureRun_new heap0 stderrCb cb c p f l m k true hcb hsink hc0 hc hp1 hp2
  rw [h0] at hf
  exact ⟨by simpa using hf, by simpa using ht⟩

/-- Witness of `capture_fidelity`: `log(SG_GENERAL, SG_INFO, "a.c", 10,
"hello")` yields exactly `{SG_GENERAL, SG_INFO, "a.c", -1, "hello"}`. -/
theorem capture_fidelity_witness :
    (1 : Nat) ≠ 0 ∧ captureHeap 1 = { m_class := SG_ALL, m_priority := SG_DEBUG } ∧
      SG_GENERAL ≠ 0 ∧ SG_GENERAL < 2 ^ 32 ∧ SG_DEBUG ≤ SG_INFO ∧ SG_INFO ≤ SG_POPUP ∧
      capturedBy
          ((captureRun (logstream.new captureHeap 0) 1 SG_GENERAL SG_INFO (some "a.c") 10
              "hello" 0).2.heap 1)
          1 (captureRun (logstream.new captureHeap 0) 1 SG_GENERAL SG_INFO (some "a.c") 10
              "hello" 0).2.calls =
        [{ debugClass := SG_GENERAL, debugPriority := SG_INFO, file := some "a.c", line := -1,
           message := "hello" }] :=
  ⟨by decide, rfl, by decide, by decide, by decide, by decide,
    (capture_fidelity captureHeap 0 1 SG_GENERAL SG_INFO (some "a.c") 10 "hello" 0
      (by decide) rfl (by decide) (by decide) (by decide) (by decide)).1.2⟩


/-- C9. Ordering and drain. Start in a state where the dispatcher is running
and no stop marker is queued; let a producer issue `log` calls, none with
category `SG_NONE` and file `"done"`, interleaved in any way with iterations
of the worker loop, and then call `stop`. Then `stop` returns true with the
worker thread gone and the queue empty, the callback list is the same, and
the calls made meanwhile are exactly: for each pending and then each logged
entry in order, one call per element of the callback list in registration
order. So a callback registered once has received exactly the pending
entries followed by the logged ones, in that order, and the number of logged
entries is the number of `log` calls. -/
theorem stop_drains (s : LogStreamPrivate) (acts : List Action)
    (hrun : s.m_isRunning = true) (halive : s.threadAlive = true)
    (hq : hasMarker s.m_entries = false)
    (hacts : ∀ a ∈ acts, Action.isMarkerLog a = false) :
    (s.performAll acts).stop.1 = true ∧
      (s.performAll acts).stop.2.m_entries = [] ∧
      (s.performAll acts).stop.2.threadAlive = false ∧
      (s.performAll acts).stop.2.m_isRunning = false ∧
      (s.performAll acts).stop.2.m_callbacks = s.m_callbacks ∧
      (s.performAll acts).stop.2.calls =
        s.calls ++ callsFor s.m_callbacks (s.m_entries ++ loggedEntries s acts) ∧
      (∀ cb, s.m_callbacks.count cb = 1 →
        ((s.performAll acts).stop.2.calls.drop s.calls.length).filter (fun i => i.cb == cb) =
          (s.m_entries ++ loggedEntries s acts).map (fun e => LogStreamPrivate.callOf e cb)) ∧
      (loggedEntries s acts).length = acts.countP Action.isLog := by
  rw [performAll_stop s acts hrun halive hq hacts]
  refine ⟨rfl, rfl, rfl, rfl, rfl, rfl, ?_, loggedEntries_length s acts⟩
  intro cb hcb
  simp only [List.drop_left]
  exact filter_callsFor_of_count_one cb s.m_callbacks hcb _

/-- Witness of `stop_drains`: the fresh registry with the dispatcher started,
two `log` calls and one worker iteration in between. -/
theorem stop_drains_witness :
    demoRunning.m_isRunning = true ∧ demoRunning.threadAlive = true ∧
      hasMarker demoRunning.m_entries = false ∧
      (∀ a ∈ demoActions, Action.isMarkerLog a = false) ∧
      (demoRunning.performAll demoActions).stop.1 = true ∧
      (demoRunning.performAll demoActions).stop.2.m_entries = [] ∧
      (demoRunning.performAll demoActions).stop.2.calls =
        demoRunning.calls ++
          callsFor demoRunning.m_callbacks
            (demoRunning.m_entries ++ loggedEntries demoRunning demoActions) :=
  ⟨rfl, rfl, rfl, by decide,
    (stop_drains demoRunning demoActions rfl rfl rfl (by decide)).1,
    (stop_drains demoRunning demoActions rfl rfl rfl (by decide)).2.1,
    (stop_drains demoRunning demoActions rfl rfl rfl (by decide)).2.2.2.2.2.1⟩

/-- C10. One iteration of the worker loop on a popped entry that is not the
stop marker: the entry leaves the queue, it is appended at the end of the
startup list exactly when startup logging is enabled, and one call per
element of the callback list is made with the fields of the entry, in
registration order and whatever the filters of the callbacks are; nothing
else changes, so with an empty callback list only the queue and the startup
list change. -/
theorem dispatcher_step (s : LogStreamPrivate) (e : LogEntry) (q : List LogEntry)
    (ha : s.threadAlive = true) (hq : s.m_entries = e :: q)
    (hm : LogStreamPrivate.isDoneMarker e = false) :
    s.workerStep =
        { s with
          m_entries := q
          m_startupEntries :=
            if s.m_startupLogging then s.m_startupEntries ++ [e] else s.m_startupEntries
          calls := s.calls ++ s.m_callbacks.map (fun cb =>
            { cb := cb, debugClass := e.debugClass, debugPriority := e.debugPriority,
              file := e.file, line := e.line, message := e.message }) } ∧
      (s.m_callbacks = [] →
        s.workerStep =
          { s with
            m_entries := q
            m_startupEntries :=
              if s.m_startupLogging then s.m_startupEntries ++ [e] else s.m_startupEntries }) := by
  have h := LogStreamPrivate.workerStep_pop s e q ha hq hm
  refine ⟨?_, ?_⟩
  · rw [h]; rfl
  · intro hc
    rw [h, hc]
    simp

/-- Witness of `dispatcher_step`: the running fresh registry with one entry
queued. -/
theorem dispatcher_step_witness :
    demoQueued.threadAlive = true ∧ demoQueued.m_entries = demoEntry :: [] ∧
      LogStreamPrivate.isDoneMarker demoEntry = false ∧
      (demoQueued.workerStep).m_entries = [] ∧
      (demoQueued.workerStep).calls = [LogStreamPrivate.callOf demoEntry 0] := by
  have h := (dispatcher_step demoQueued demoEntry [] rfl rfl (by decide)).1
  refine ⟨rfl, rfl, by decide, ?_, ?_⟩
  · rw [h]
  · rw [h]
    rfl

/-! ## Stop, start and pause -/

theorem hasMarker_append_marker (q : List LogEntry) (e : LogEntry)
    (he : LogStreamPrivate.isDoneMarker e = true) : hasMarker (q ++ [e]) = true := by
  induction q with
  | nil => simp [hasMarker, he]
  | cons x q ih => cases hx : LogStreamPrivate.isDoneMarker x <;> simp [hasMarker, hx, ih]

theorem beforeMarker_append_marker (q : List LogEntry) (e : LogEntry)
    (he : LogStreamPrivate.isDoneMarker e = true) : beforeMarker (q ++ [e]) = beforeMarker q := by
  induction q with
  | nil => simp [beforeMarker, he]
  | cons x q ih => cases hx : LogStreamPrivate.isDoneMarker x <;> simp [beforeMarker, hx, ih]

/-- What `stop` returns, in every state: whether the dispatcher was running,
and the paused state. -/
theorem stop_eq (s : LogStreamPrivate) : s.stop = (s.m_isRunning, paused s) := by
  cases hr : s.m_isRunning
  · rw [LogStreamPrivate.stop_not_running s hr]
    obtain ⟨⟩ := s
    simp only at hr
    subst hr
    simp [paused, drained, callsFor]
  · rw [LogStreamPrivate.stop_running s hr]
    cases ha : s.threadAlive
    · rw [LogStreamPrivate.run_dead _ (by simp [ha])]
      obtain ⟨⟩ := s
      simp only at hr ha
      subst hr ha
      simp [paused, drained, callsFor]
    · rw [LogStreamPrivate.run_alive _ (by simp [ha])]
      simp [paused, drained, hr, ha,
        hasMarker_append_marker _ _ LogStreamPrivate.isDoneMarker_doneEntry,
        beforeMarker_append_marker _ _ LogStreamPrivate.isDoneMarker_doneEntry]

/-- The RAII pause written out: the body runs on the paused state, and
`startLog` follows when the dispatcher was running. -/
theorem PauseThread_eq (s : LogStreamPrivate) (body : LogStreamPrivate → LogStreamPrivate) :
    s.PauseThread body =
      if s.m_isRunning then (body (paused s)).startLog else body (paused s) := by
  simp [LogStreamPrivate.PauseThread, stop_eq]

theorem paused_not_running (s : LogStreamPrivate) (h : s.m_isRunning = false) :
    paused s = s := by
  obtain ⟨⟩ := s
  simp only at h
  subst h
  simp [paused, drained, callsFor]

/-- `addCallback` in closed form. -/
theorem addCallback_eq (s : LogStreamPrivate) (cb : Nat) :
    s.addCallback cb =
      { paused s with
        m_callbacks := s.m_callbacks ++ [cb]
        calls := (paused s).calls ++
          (paused s).m_startupEntries.map (fun e => LogStreamPrivate.callOf e cb)
        m_isRunning := s.m_isRunning
        threadAlive := if s.m_isRunning then true else s.threadAlive } := by
  cases hr : s.m_isRunning <;>
    simp [LogStreamPrivate.addCallback, PauseThread_eq, hr, LogStreamPrivate.startLog, paused,
      LogStreamPrivate.foldl_invoke_entries]

/-- `removeCallback` in closed form. -/
theorem removeCallback_eq (s : LogStreamPrivate) (cb : Nat) :
    s.removeCallback cb =
      { paused s with
        m_callbacks := s.m_callbacks.erase cb
        m_isRunning := s.m_isRunning
        threadAlive := if s.m_isRunning then true else s.threadAlive } := by
  have he : cb ∉ s.m_callbacks → s.m_callbacks.erase cb = s.m_callbacks :=
    fun h => List.erase_of_not_mem h
  by_cases hm : cb ∈ s.m_callbacks <;> cases hr : s.m_isRunning <;>
    simp [LogStreamPrivate.removeCallback, PauseThread_eq, hr, LogStreamPrivate.startLog, paused,
      hm, he]

/-- `removeCallbacks` in closed form. -/
theorem removeCallbacks_eq (s : LogStreamPrivate) :
    s.removeCallbacks =
      { paused s with
        m_callbacks := []
        m_consoleCallbacks := []
        deleted := s.deleted ++ s.m_callbacks
        m_isRunning := s.m_isRunning
        threadAlive := if s.m_isRunning then true else s.threadAlive } := by
  cases hr : s.m_isRunning <;>
    simp [LogStreamPrivate.removeCallbacks, PauseThread_eq, hr, LogStreamPrivate.startLog, paused,
      LogStreamPrivate.foldl_delete]

/-- `setLogLevels` in closed form. -/
theorem setLogLevels_eq (s : LogStreamPrivate) (c p : Nat) :
    s.setLogLevels c p =
      { paused s with
        m_logPriority := p
        m_logClass := c
        heap := s.m_consoleCallbacks.foldl
          (fun h cb => Function.update h cb ((h cb).setLogLevels c p)) s.heap
        m_isRunning := s.m_isRunning
        threadAlive := if s.m_isRunning then true else s.threadAlive } := by
  cases hr : s.m_isRunning <;>
    simp [LogStreamPrivate.setLogLevels, PauseThread_eq, hr, LogStreamPrivate.startLog, paused,
      LogStreamPrivate.foldl_setLogLevels]

theorem workerStep_isRunning (s : LogStreamPrivate) :
    s.workerStep.m_isRunning = s.m_isRunning := by
  unfold LogStreamPrivate.workerStep
  cases s.threadAlive
  · simp
  · cases hq : s.m_entries with
    | nil => simp
    | cons e q =>
      cases hm : LogStreamPrivate.isDoneMarker e <;> simp [hm, LogStreamPrivate.dispatch_eq]

theorem workerStep_alive (s : LogStreamPrivate) (h : s.workerStep.threadAlive = true) :
    s.threadAlive = true := by
  unfold LogStreamPrivate.workerStep at h
  cases ha : s.threadAlive
  · simp [ha] at h
  · rfl

theorem setStartupLoggingEnabled_isRunning (s : LogStreamPrivate) (b : Bool) :
    (s.setStartupLoggingEnabled b).m_isRunning = s.m_isRunning := by
  unfold LogStreamPrivate.setStartupLoggingEnabled
  split <;> rfl

theorem setStartupLoggingEnabled_threadAlive (s : LogStreamPrivate) (b : Bool) :
    (s.setStartupLoggingEnabled b).threadAlive = s.threadAlive := by
  unfold LogStreamPrivate.setStartupLoggingEnabled
  split <;> rfl

theorem get_popup_d (self : logstream) : self.get_popup.2.d = self.d := by
  unfold logstream.get_popup
  split <;> rfl

/-- In every reachable state the worker thread is inside its loop only
while the running flag is set. -/
theorem reachable_alive_running (ls : logstream) (h : Reachable ls) :
    ls.d.threadAlive = true → ls.d.m_isRunning = true := by
  induction h with
  | init heap0 stderrCb => simp [LogStreamPrivate.new]
  | step ls op _ ih =>
    cases op with
    | work =>
      intro h
      have := ih (workerStep_alive _ h)
      simpa [logstream.apply, workerStep_isRunning] using this
    | setTestingMode b =>
      cases hr : ls.d.m_isRunning <;> cases ha : ls.d.threadAlive <;> cases b <;>
        first
        | (exfalso; simp [hr, ha] at ih; done)
        | simp [logstream.apply, logstream.setTestingMode, removeCallbacks_eq, paused, hr, ha]
    | _ =>
      cases hr : ls.d.m_isRunning <;> cases ha : ls.d.threadAlive <;>
        first
        | (exfalso; simp [hr, ha] at ih; done)
        | simp [logstream.apply, logstream.log, logstream.setLogLevels,
            logstream.setDeveloperMode, logstream.setFileLine, logstream.addCallback,
            logstream.removeCallback, logstream.setStartupLoggingEnabled, logstream.popup,
            get_popup_d, LogStreamPrivate.startLog, stop_eq, paused,
            LogStreamPrivate.log_eq, setLogLevels_eq, addCallback_eq, removeCallback_eq,
            setStartupLoggingEnabled_isRunning, setStartupLoggingEnabled_threadAlive, hr, ha]

/-- C11. `stop` called while the dispatcher is not running returns false and
changes nothing; called while it is running it returns true, with the worker
thread gone and the running flag cleared; so `stop` right after `stop`
returns false and changes nothing. -/
theorem stop_idempotent (s : LogStreamPrivate) :
    (s.m_isRunning = false → s.stop = (false, s)) ∧
      (s.m_isRunning = true →
        s.stop.1 = true ∧ s.stop.2.m_isRunning = false ∧ s.stop.2.threadAlive = false) ∧
      s.stop.2.stop = (false, s.stop.2) := by
  refine ⟨LogStreamPrivate.stop_not_running s, ?_, ?_⟩
  · intro h
    simp [stop_eq, paused, h]
  · apply LogStreamPrivate.stop_not_running
    simp [stop_eq, paused]

/-- Witness of `stop_idempotent`: the fresh registry before and after
`startLog`. -/
theorem stop_idempotent_witness :
    freshPrivate.m_isRunning = false ∧ freshPrivate.stop = (false, freshPrivate) ∧
      demoRunning.m_isRunning = true ∧ demoRunning.stop.1 = true ∧
      demoRunning.stop.2.m_isRunning = false :=
  ⟨rfl, (stop_idempotent freshPrivate).1 rfl, rfl,
    ((stop_idempotent demoRunning).2.1 rfl).1, ((stop_idempotent demoRunning).2.1 rfl).2.1⟩

/-- C12. `startLog` with the running flag set changes nothing, so it starts
no second worker; with the flag clear it sets the flag and starts the worker
thread. In every reachable state the worker thread is alive only while the
flag is set, so `start()` is never called while a worker is alive: at
most one dispatcher runs per registry. -/
theorem startLog_idempotent (s : LogStreamPrivate) (ls : logstream) (hreach : Reachable ls) :
    (s.m_isRunning = true → s.startLog = s) ∧
      (s.m_isRunning = false →
        s.startLog = { s with m_isRunning := true, threadAlive := true }) ∧
      (ls.d.m_isRunning = false → ls.d.threadAlive = false) ∧
      (ls.d.threadAlive = true → ls.d.m_isRunning = true) := by
  refine ⟨?_, ?_, ?_, reachable_alive_running ls hreach⟩
  · intro h
    simp [LogStreamPrivate.startLog, h]
  · intro h
    simp [LogStreamPrivate.startLog, h]
  · intro h
    cases ha : ls.d.threadAlive
    · rfl
    · rw [reachable_alive_running ls hreach ha] at h
      cases h

/-- Witness of `startLog_idempotent`: the running fresh registry, and the
constructed one before its thread is started. -/
theorem startLog_idempotent_witness :
    Reachable { d := LogStreamPrivate.new captureHeap 0, popup_msgs := [] } ∧
      demoRunning.m_isRunning = true ∧ demoRunning.startLog = demoRunning ∧
      (LogStreamPrivate.new captureHeap 0).m_isRunning = false ∧
      (LogStreamPrivate.new captureHeap 0).threadAlive = false :=
  ⟨Reachable.init captureHeap 0, rfl,
    (startLog_idempotent demoRunning _ (Reachable.init captureHeap 0)).1 rfl, rfl,
    (startLog_idempotent demoRunning _ (Reachable.init captureHeap 0)).2.2.1 rfl⟩

/-- The function `addCallback` is: `stop`, the mutation of the state `stop`
leaves, and `startLog` when `stop` reported a running dispatcher. -/
theorem addCallback_pause_form (s : LogStreamPrivate) (cb : Nat) :
    s.addCallback cb =
      (if s.stop.1 then (LogStreamPrivate.addCallbackBody cb s.stop.2).startLog
       else LogStreamPrivate.addCallbackBody cb s.stop.2) := rfl

/-- The function `removeCallback` as pause, mutation and restart. -/
theorem removeCallback_pause_form (s : LogStreamPrivate) (cb : Nat) :
    s.removeCallback cb =
      (if s.stop.1 then (LogStreamPrivate.removeCallbackBody cb s.stop.2).startLog
       else LogStreamPrivate.removeCallbackBody cb s.stop.2) := rfl

/-- The function `removeCallbacks` as pause, mutation and restart. -/
theorem removeCallbacks_pause_form (s : LogStreamPrivate) :
    s.removeCallbacks =
      (if s.stop.1 then (LogStreamPrivate.removeCallbacksBody s.stop.2).startLog
       else LogStreamPrivate.removeCallbacksBody s.stop.2) := rfl

/-- The function `setLogLevels` as pause, mutation and restart. -/
theorem setLogLevels_pause_form (s : LogStreamPrivate) (c p : Nat) :
    s.setLogLevels c p =
      (if s.stop.1 then (LogStreamPrivate.setLogLevelsBody c p s.stop.2).startLog
       else LogStreamPrivate.setLogLevelsBody c p s.stop.2) := rfl

/-- The four mutations leave the running flag and the thread alone. -/
theorem bodies_keep_thread (t : LogStreamPrivate) (cb c p : Nat) :
    ((LogStreamPrivate.addCallbackBody cb t).m_isRunning = t.m_isRunning ∧
        (LogStreamPrivate.addCallbackBody cb t).threadAlive = t.threadAlive) ∧
      ((LogStreamPrivate.removeCallbackBody cb t).m_isRunning = t.m_isRunning ∧
        (LogStreamPrivate.removeCallbackBody cb t).threadAlive = t.threadAlive) ∧
      ((LogStreamPrivate.removeCallbacksBody t).m_isRunning = t.m_isRunning ∧
        (LogStreamPrivate.removeCallbacksBody t).threadAlive = t.threadAlive) ∧
      ((LogStreamPrivate.setLogLevelsBody c p t).m_isRunning = t.m_isRunning ∧
        (LogStreamPrivate.setLogLevelsBody c p t).threadAlive = t.threadAlive) := by
  refine ⟨?_, ?_, ?_, ?_⟩
  · simp [LogStreamPrivate.addCallbackBody, LogStreamPrivate.foldl_invoke_entries]
  · unfold LogStreamPrivate.removeCallbackBody
    split <;> exact ⟨rfl, rfl⟩
  · simp [LogStreamPrivate.removeCallbacksBody, LogStreamPrivate.foldl_delete]
  · simp [LogStreamPrivate.setLogLevelsBody, LogStreamPrivate.foldl_setLogLevels]

/-- What the four mutations do to the callback list, the console sublist
and the filters. -/
theorem bodies_effect (t : LogStreamPrivate) (cb c p : Nat) :
    (LogStreamPrivate.addCallbackBody cb t).m_callbacks = t.m_callbacks ++ [cb] ∧
      (LogStreamPrivate.removeCallbackBody cb t).m_callbacks = t.m_callbacks.erase cb ∧
      ((LogStreamPrivate.removeCallbacksBody t).m_callbacks = [] ∧
        (LogStreamPrivate.removeCallbacksBody t).m_consoleCallbacks = []) ∧
      ((LogStreamPrivate.setLogLevelsBody c p t).m_logClass = c ∧
        (LogStreamPrivate.setLogLevelsBody c p t).m_logPriority = p) := by
  refine ⟨?_, ?_, ?_, ?_⟩
  · simp [LogStreamPrivate.addCallbackBody, LogStreamPrivate.foldl_invoke_entries]
  · unfold LogStreamPrivate.removeCallbackBody
    split
    · rfl
    · rename_i h
      exact (List.erase_of_not_mem h).symm
  · simp [LogStreamPrivate.removeCallbacksBody, LogStreamPrivate.foldl_delete]
  · simp [LogStreamPrivate.setLogLevelsBody, LogStreamPrivate.foldl_setLogLevels]

theorem setLogLevels_mk (cb : LogCallback) (c p : Nat) :
    cb.setLogLevels c p = { m_class := c, m_priority := p } := rfl

theorem foldl_update_heap (c p : Nat) (l : List Nat) (h0 : Nat → LogCallback) (x : Nat) :
    (l.foldl (fun h cb => Function.update h cb ((h cb).setLogLevels c p)) h0) x =
      if x ∈ l then { m_class := c, m_priority := p } else h0 x := by
  induction l generalizing h0 with
  | nil => simp
  | cons a l ih =>
    rw [List.foldl_cons, ih]
    by_cases hx : x ∈ l
    · simp [hx]
    · by_cases ha : x = a
      · subst ha
        simp [hx, setLogLevels_mk]
      · simp [hx, ha, Function.update_noteq ha]

/-- The mutation of `setLogLevels` gives every console callback the new
filter and leaves the filters of the other callbacks alone. -/
theorem setLogLevelsBody_heap (t : LogStreamPrivate) (c p x : Nat) :
    (LogStreamPrivate.setLogLevelsBody c p t).heap x =
      if x ∈ t.m_consoleCallbacks then { m_class := c, m_priority := p } else t.heap x := by
  simp [LogStreamPrivate.setLogLevelsBody, LogStreamPrivate.foldl_setLogLevels,
    foldl_update_heap]

/-- The state `stop` leaves: flag clear, callback list, console sublist and
filters as before. -/
theorem stop_keeps_registry (s : LogStreamPrivate) :
    s.stop.1 = s.m_isRunning ∧ s.stop.2.m_isRunning = false ∧
      s.stop.2.m_callbacks = s.m_callbacks ∧
      s.stop.2.m_consoleCallbacks = s.m_consoleCallbacks ∧ s.stop.2.heap = s.heap := by
  simp [stop_eq, paused]

/-- C13. Pause, mutate, resume. Each of `addCallback`, `removeCallback`,
`removeCallbacks` and `setLogLevels` is: `stop`; then the statements of its
body, applied to the state `stop` leaves; then `startLog`, exactly when the
dispatcher was running before. The state `stop` leaves, which is the state
the mutation is applied in, has the running flag clear, and so has the state
the mutation produces; the mutation does change the callback list, the
console sublist or the filters there (the callback appended, the callback
erased, both lists emptied, the global and the console filters replaced);
and the running flag after the operation is the running flag before it. The
same holds of the pause around any mutation that leaves the flag alone. -/
theorem pause_mutate_resume (s : LogStreamPrivate)
    (body : LogStreamPrivate → LogStreamPrivate) (cb c p : Nat)
    (hbody : ∀ t, (body t).m_isRunning = t.m_isRunning) :
    s.stop.2.m_isRunning = false ∧
      s.PauseThread body =
        (if s.m_isRunning then (body s.stop.2).startLog else body s.stop.2) ∧
      (s.PauseThread body).m_isRunning = s.m_isRunning ∧
      (s.addCallback cb).m_isRunning = s.m_isRunning ∧
      (s.removeCallback cb).m_isRunning = s.m_isRunning ∧
      s.removeCallbacks.m_isRunning = s.m_isRunning ∧
      (s.setLogLevels c p).m_isRunning = s.m_isRunning ∧
      (s.addCallback cb =
          (if s.m_isRunning then (LogStreamPrivate.addCallbackBody cb s.stop.2).startLog
           else LogStreamPrivate.addCallbackBody cb s.stop.2) ∧
        (LogStreamPrivate.addCallbackBody cb s.stop.2).m_isRunning = false ∧
        (LogStreamPrivate.addCallbackBody cb s.stop.2).m_callbacks = s.m_callbacks ++ [cb] ∧
        (s.addCallback cb).m_callbacks = s.m_callbacks ++ [cb]) ∧
      (s.removeCallback cb =
          (if s.m_isRunning then (LogStreamPrivate.removeCallbackBody cb s.stop.2).startLog
           else LogStreamPrivate.removeCallbackBody cb s.stop.2) ∧
        (LogStreamPrivate.removeCallbackBody cb s.stop.2).m_isRunning = false ∧
        (LogStreamPrivate.removeCallbackBody cb s.stop.2).m_callbacks =
          s.m_callbacks.erase cb ∧
        (s.removeCallback cb).m_callbacks = s.m_callbacks.erase cb) ∧
      (s.removeCallbacks =
          (if s.m_isRunning then (LogStreamPrivate.removeCallbacksBody s.stop.2).startLog
           else LogStreamPrivate.removeCallbacksBody s.stop.2) ∧
        (LogStreamPrivate.removeCallbacksBody s.stop.2).m_isRunning = false ∧
        (LogStreamPrivate.removeCallbacksBody s.stop.2).m_callbacks = [] ∧
        (LogStreamPrivate.removeCallbacksBody s.stop.2).m_consoleCallbacks = [] ∧
        s.removeCallbacks.m_callbacks = [] ∧ s.removeCallbacks.m_consoleCallbacks = []) ∧
      (s.setLogLevels c p =
          (if s.m_isRunning then (LogStreamPrivate.setLogLevelsBody c p s.stop.2).startLog
           else LogStreamPrivate.setLogLevelsBody c p s.stop.2) ∧
        (LogStreamPrivate.setLogLevelsBody c p s.stop.2).m_isRunning = false ∧
        (LogStreamPrivate.setLogLevelsBody c p s.stop.2).m_logClass = c ∧
        (LogStreamPrivate.setLogLevelsBody c p s.stop.2).m_logPriority = p ∧
        (∀ x ∈ s.m_consoleCallbacks,
          (LogStreamPrivate.setLogLevelsBody c p s.stop.2).heap x =
            { m_class := c, m_priority := p }) ∧
        (s.setLogLevels c p).m_logClass = c ∧ (s.setLogLevels c p).m_logPriority = p ∧
        (∀ x ∈ s.m_consoleCallbacks,
          (s.setLogLevels c p).heap x = { m_class := c, m_priority := p })) := by
  have h1 : (paused s).m_isRunning = false := by simp [paused]
  have hs := stop_keeps_registry s
  have hk := bodies_keep_thread s.stop.2 cb c p
  have he := bodies_effect s.stop.2 cb c p
  refine ⟨by simp [stop_eq, h1], by simp [PauseThread_eq, stop_eq], ?_,
    by simp [addCallback_eq], by simp [removeCallback_eq], by simp [removeCallbacks_eq],
    by simp [setLogLevels_eq], ⟨?_, ?_, ?_, ?_⟩, ⟨?_, ?_, ?_, ?_⟩, ⟨?_, ?_, ?_, ?_, ?_, ?_⟩,
    ⟨?_, ?_, ?_, ?_, ?_, ?_, ?_, ?_⟩⟩
  · rw [PauseThread_eq]
    cases hr : s.m_isRunning
    · simp [hbody, h1]
    · simp [LogStreamPrivate.startLog, hbody, h1]
  · rw [addCallback_pause_form, hs.1]
  · rw [hk.1.1, hs.2.1]
  · rw [he.1, hs.2.2.1]
  · simp [addCallback_eq]
  · rw [removeCallback_pause_form, hs.1]
  · rw [hk.2.1.1, hs.2.1]
  · rw [he.2.1, hs.2.2.1]
  · simp [removeCallback_eq]
  · rw [removeCallbacks_pause_form, hs.1]
  · rw [hk.2.2.1.1, hs.2.1]
  · exact he.2.2.1.1
  · exact he.2.2.1.2
  · simp [removeCallbacks_eq]
  · simp [removeCallbacks_eq]
  · rw [setLogLevels_pause_form, hs.1]
  · rw [hk.2.2.2.1, hs.2.1]
  · exact he.2.2.2.1
  · exact he.2.2.2.2
  · intro x hx
    rw [setLogLevelsBody_heap, hs.2.2.2.1, if_pos hx]
  · simp [setLogLevels_eq]
  · simp [setLogLevels_eq]
  · intro x hx
    simp [setLogLevels_eq, foldl_update_heap, hx]

/-- Witness of `pause_mutate_resume`: the running registry with startup
logging on and an entry queued, and the mutation that clears the callback
list. The pause lets the worker dispatch the queued entry before the
callback is appended, so the state the mutation is applied in is not the
state before the operation. -/
theorem pause_mutate_resume_witness :
    (∀ t : LogStreamPrivate,
        ({ t with m_callbacks := [] } : LogStreamPrivate).m_isRunning = t.m_isRunning) ∧
      demoPending.m_isRunning = true ∧ demoPending.m_entries = [demoEntry] ∧
      demoPending.stop.2.m_isRunning = false ∧
      (demoPending.addCallback 1).m_isRunning = demoPending.m_isRunning ∧
      (LogStreamPrivate.addCallbackBody 1 demoPending.stop.2).m_isRunning = false ∧
      (demoPending.addCallback 1).m_callbacks = demoPending.m_callbacks ++ [1] :=
  ⟨fun _ => rfl, rfl, rfl,
    (pause_mutate_resume demoPending (fun t => { t with m_callbacks := [] }) 1 0 0
      (fun _ => rfl)).1,
    (pause_mutate_resume demoPending (fun t => { t with m_callbacks := [] }) 1 0 0
      (fun _ => rfl)).2.2.2.1,
    (pause_mutate_resume demoPending (fun t => { t with m_callbacks := [] }) 1 0 0
      (fun _ => rfl)).2.2.2.2.2.2.2.1.2.1,
    (pause_mutate_resume demoPending (fun t => { t with m_callbacks := [] }) 1 0 0
      (fun _ => rfl)).2.2.2.2.2.2.2.1.2.2.2⟩

/-! ## Reconfiguration -/

theorem callsFor_nil (es : List LogEntry) : callsFor [] es = [] := by
  induction es with
  | nil => rfl
  | cons e es ih => simp [callsFor, ih]

/-- C14, as stated, fails: with the dispatcher running, startup logging
enabled and an entry still queued, `setLogLevels` returns with that entry
appended to the startup list. -/
theorem setLogLevels_startup_counterexample :
    demoPending.m_startupEntries = [] ∧
      (demoPending.setLogLevels SG_ALL SG_DEBUG).m_startupEntries ≠
        demoPending.m_startupEntries := by
  refine ⟨rfl, ?_⟩
  rw [setLogLevels_eq]
  decide

/-- C14, amended. After `setLogLevels(c, p)` the global mask is `c` and the
global threshold is `p`, every callback of the console sublist has the
filter `(c, p)`, every other callback object keeps its filter, and the
callback list and the console sublist are unchanged; the startup list is
the one the pause leaves, that is the old one followed, when startup logging
is enabled, by the entries the pause lets the worker dispatch, and it is
unchanged when no entry is dispatched by the pause. -/
theorem setLogLevels_propagates (s : LogStreamPrivate) (c p : Nat) :
    (s.setLogLevels c p).m_logClass = c ∧
      (s.setLogLevels c p).m_logPriority = p ∧
      (∀ cb ∈ s.m_consoleCallbacks,
        (s.setLogLevels c p).heap cb = { m_class := c, m_priority := p }) ∧
      (∀ cb, cb ∉ s.m_consoleCallbacks → (s.setLogLevels c p).heap cb = s.heap cb) ∧
      (s.setLogLevels c p).m_callbacks = s.m_callbacks ∧
      (s.setLogLevels c p).m_consoleCallbacks = s.m_consoleCallbacks ∧
      (s.setLogLevels c p).m_startupEntries =
        s.m_startupEntries ++ (if s.m_startupLogging then drained s else []) ∧
      (drained s = [] → (s.setLogLevels c p).m_startupEntries = s.m_startupEntries) := by
  rw [setLogLevels_eq]
  refine ⟨rfl, rfl, ?_, ?_, rfl, rfl, rfl, ?_⟩
  · intro cb hcb
    simp [foldl_update_heap, hcb]
  · intro cb hcb
    simp [foldl_update_heap, hcb]
  · intro hd
    simp [paused, hd]

/-- Witness of `setLogLevels_propagates`: in the running fresh registry the
console callback at address `0` gets the new filter, and the startup list
stays empty. -/
theorem setLogLevels_propagates_witness :
    (0 : Nat) ∈ demoRunning.m_consoleCallbacks ∧ drained demoRunning = [] ∧
      (demoRunning.setLogLevels SG_IO SG_DEBUG).heap 0 =
        { m_class := SG_IO, m_priority := SG_DEBUG } ∧
      (demoRunning.setLogLevels SG_IO SG_DEBUG).m_startupEntries =
        demoRunning.m_startupEntries :=
  ⟨by decide, by decide,
    (setLogLevels_propagates demoRunning SG_IO SG_DEBUG).2.2.1 0 (by decide),
    (setLogLevels_propagates demoRunning SG_IO SG_DEBUG).2.2.2.2.2.2.2 (by decide)⟩

/-- C15, as stated, fails: with the dispatcher running, startup logging
enabled, an empty startup list and one entry still queued, `addCallback(1)`
invokes the new callback once, for the queued entry, and leaves that entry
in the startup list. -/
theorem addCallback_replay_counterexample :
    demoPending.m_startupEntries = [] ∧
      ((demoPending.addCallback 1).calls.filter (fun i => i.cb == 1) ≠
          demoPending.m_startupEntries.map (fun e => LogStreamPrivate.callOf e 1)) ∧
      (demoPending.addCallback 1).m_startupEntries ≠ demoPending.m_startupEntries := by
  refine ⟨rfl, ?_, ?_⟩
  · rw [addCallback_eq]
    decide
  · rw [addCallback_eq]
    decide

/-- C15, amended. `addCallback(cb)` first pauses the dispatcher, which lets
the worker dispatch the entries still pending in front of the first marker
to the callbacks registered so far and, when startup logging is enabled,
append them to the startup list; it then appends `cb` at the end of the
callback list and invokes `cb`, and no other callback, exactly once for each
entry of the startup list as the pause left it, in order, and does not
modify the startup list itself. When the pause dispatches nothing, the
startup list is the one before the call and the only calls made are the
replay of `e1..ek` to `cb`. -/
theorem addCallback_replays (s : LogStreamPrivate) (cb : Nat) :
    (s.addCallback cb).m_callbacks = s.m_callbacks ++ [cb] ∧
      s.stop.2.m_startupEntries =
        s.m_startupEntries ++ (if s.m_startupLogging then drained s else []) ∧
      s.stop.2.calls = s.calls ++ callsFor s.m_callbacks (drained s) ∧
      (s.addCallback cb).m_startupEntries = s.stop.2.m_startupEntries ∧
      (s.addCallback cb).calls =
        s.stop.2.calls ++ s.stop.2.m_startupEntries.map (fun e => LogStreamPrivate.callOf e cb) ∧
      (drained s = [] →
        (s.addCallback cb).m_startupEntries = s.m_startupEntries ∧
        (s.addCallback cb).calls =
          s.calls ++ s.m_startupEntries.map (fun e => LogStreamPrivate.callOf e cb)) := by
  rw [addCallback_eq, stop_eq]
  refine ⟨rfl, rfl, rfl, rfl, rfl, ?_⟩
  intro hd
  simp [paused, hd, callsFor]

/-- Witness of `addCallback_replays`: a stopped registry with one buffered
startup entry. -/
theorem addCallback_replays_witness :
    drained ({ freshPrivate with m_startupEntries := [demoEntry] } : LogStreamPrivate) = [] ∧
      (({ freshPrivate with m_startupEntries := [demoEntry] } : LogStreamPrivate).addCallback
          1).calls =
        ({ freshPrivate with m_startupEntries := [demoEntry] } : LogStreamPrivate).calls ++
          ({ freshPrivate with m_startupEntries := [demoEntry] } :
            LogStreamPrivate).m_startupEntries.map (fun e => LogStreamPrivate.callOf e 1) :=
  ⟨by decide,
    ((addCallback_replays { freshPrivate with m_startupEntries := [demoEntry] } 1).2.2.2.2.2
      (by decide)).2⟩

/-! ## Startup list and test mode -/

theorem workerStep_startupLogging (s : LogStreamPrivate) :
    s.workerStep.m_startupLogging = s.m_startupLogging := by
  unfold LogStreamPrivate.workerStep
  cases s.threadAlive
  · simp
  · cases hq : s.m_entries with
    | nil => simp
    | cons e q =>
      cases hm : LogStreamPrivate.isDoneMarker e <;> simp [hm, LogStreamPrivate.dispatch_eq]

theorem workerStep_startupEntries (s : LogStreamPrivate) (h : s.m_startupLogging = false) :
    s.workerStep.m_startupEntries = s.m_startupEntries := by
  unfold LogStreamPrivate.workerStep
  cases s.threadAlive
  · simp
  · cases hq : s.m_entries with
    | nil => simp
    | cons e q =>
      cases hm : LogStreamPrivate.isDoneMarker e <;> simp [hm, LogStreamPrivate.dispatch_eq, h]

theorem startupKept_paused (s : LogStreamPrivate) : StartupKept s (paused s) := by
  constructor
  · rfl
  · intro h
    simp [paused, h]

theorem startupKept_startLog (s : LogStreamPrivate) : StartupKept s s.startLog := by
  cases hr : s.m_isRunning <;> simp [StartupKept, LogStreamPrivate.startLog, hr]

theorem startupKept_removeCallbacks (s : LogStreamPrivate) :
    StartupKept s s.removeCallbacks := by
  rw [removeCallbacks_eq]
  exact startupKept_paused s

/-- Every operation other than `setStartupLoggingEnabled` keeps the
startup-logging flag and, while it is off, the startup list. -/
theorem startupKept_apply (ls : logstream) (op : Op)
    (hop : ∀ b, op ≠ Op.setStartupLoggingEnabled b) : StartupKept ls.d (ls.apply op).d := by
  cases op with
  | startLog => exact startupKept_startLog _
  | stop =>
    simp only [logstream.apply, stop_eq]
    exact startupKept_paused _
  | work =>
    exact ⟨workerStep_startupLogging _, workerStep_startupEntries _⟩
  | log c p f l m =>
    simp [StartupKept, logstream.apply, logstream.log, LogStreamPrivate.log_eq]
  | setLogLevels c p =>
    simp only [logstream.apply, logstream.setLogLevels, setLogLevels_eq]
    exact ⟨(startupKept_paused ls.d).1, (startupKept_paused ls.d).2⟩
  | setDeveloperMode b => simp [StartupKept, logstream.apply, logstream.setDeveloperMode]
  | setFileLine b => simp [StartupKept, logstream.apply, logstream.setFileLine]
  | addCallback cb =>
    simp only [logstream.apply, logstream.addCallback, addCallback_eq]
    exact ⟨(startupKept_paused ls.d).1, (startupKept_paused ls.d).2⟩
  | removeCallback cb =>
    simp only [logstream.apply, logstream.removeCallback, removeCallback_eq]
    exact ⟨(startupKept_paused ls.d).1, (startupKept_paused ls.d).2⟩
  | setStartupLoggingEnabled b => exact absurd rfl (hop b)
  | setTestingMode b =>
    cases b
    · simp [StartupKept, logstream.apply, logstream.setTestingMode]
    · simp only [logstream.apply, logstream.setTestingMode, if_true]
      exact startupKept_removeCallbacks { ls.d with m_testMode := true }
  | popup msg => simp [StartupKept, logstream.apply, logstream.popup]
  | get_popup => simp [StartupKept, logstream.apply, get_popup_d]

/-- In every reachable state the startup list is empty while startup
logging is off. -/
theorem reachable_startup_empty (ls : logstream) (h : Reachable ls) :
    ls.d.m_startupLogging = false → ls.d.m_startupEntries = [] := by
  induction h with
  | init heap0 stderrCb => simp [LogStreamPrivate.new]
  | step ls op _ ih =>
    by_cases hop : ∀ b, op ≠ Op.setStartupLoggingEnabled b
    · intro h
      have hk := startupKept_apply ls op hop
      rw [hk.1] at h
      rw [hk.2 h]
      exact ih h
    · push_neg at hop
      obtain ⟨b, rfl⟩ := hop
      cases hs : ls.d.m_startupLogging <;> cases b <;>
        simp [logstream.apply, logstream.setStartupLoggingEnabled,
          LogStreamPrivate.setStartupLoggingEnabled, hs]
      exact ih hs

/-- C16. The function `setStartupLoggingEnabled(v)` leaves the flag at `v`
in every state, and when `v` differs from the current flag it sets the flag
and empties the startup list, changing nothing else; so after
`setStartupLoggingEnabled(false)` in a state with the flag on, whatever the
startup list held, the list is empty and a callback added next is replayed
nothing: the only calls made are those of the pause. In every reachable
state the startup list is empty whenever the startup-logging flag is off; so
a callback added in a reachable state with the flag off, in particular right
after `setStartupLoggingEnabled(false)`, is replayed nothing; and
`setStartupLoggingEnabled(v)` with `v` the current flag changes nothing. -/
theorem startup_discarded (ls : logstream) (hreach : Reachable ls) (cb : Nat) (v : Bool)
    (s : LogStreamPrivate) :
    (ls.d.m_startupLogging = false → ls.d.m_startupEntries = []) ∧
      (ls.d.m_startupLogging = false →
        (ls.addCallback cb).d.calls = ls.d.stop.2.calls) ∧
      (ls.setStartupLoggingEnabled false).d.m_startupEntries = [] ∧
      ((ls.setStartupLoggingEnabled false).addCallback cb).d.calls =
        (ls.setStartupLoggingEnabled false).d.stop.2.calls ∧
      (ls.d.m_startupLogging = v → ls.setStartupLoggingEnabled v = ls) ∧
      (ls.setStartupLoggingEnabled v).d.m_startupLogging = v ∧
      (ls.d.m_startupLogging ≠ v →
        ls.setStartupLoggingEnabled v =
          { ls with d := { ls.d with m_startupLogging := v, m_startupEntries := [] } }) ∧
      (s.setStartupLoggingEnabled v).m_startupLogging = v ∧
      (s.m_startupLogging ≠ v →
        s.setStartupLoggingEnabled v =
          { s with m_startupLogging := v, m_startupEntries := [] }) ∧
      (s.m_startupLogging = true →
        (s.setStartupLoggingEnabled false).m_startupEntries = [] ∧
          ((s.setStartupLoggingEnabled false).addCallback cb).calls =
            (s.setStartupLoggingEnabled false).stop.2.calls) := by
  have hinv := reachable_startup_empty ls hreach
  have hoff : ∀ t : LogStreamPrivate, t.m_startupLogging = false → t.m_startupEntries = [] →
      (t.addCallback cb).calls = t.stop.2.calls := by
    intro t h1 h2
    rw [addCallback_eq, stop_eq]
    simp [paused, h1, h2]
  have hdis : (ls.d.setStartupLoggingEnabled false).m_startupLogging = false ∧
      (ls.d.setStartupLoggingEnabled false).m_startupEntries = [] := by
    cases hs : ls.d.m_startupLogging
    · simp [LogStreamPrivate.setStartupLoggingEnabled, hs, hinv hs]
    · simp [LogStreamPrivate.setStartupLoggingEnabled, hs]
  have hflag : ∀ t : LogStreamPrivate, (t.setStartupLoggingEnabled v).m_startupLogging = v := by
    intro t
    cases ht : t.m_startupLogging <;> cases v <;>
      simp [LogStreamPrivate.setStartupLoggingEnabled, ht]
  have hchg : ∀ t : LogStreamPrivate, t.m_startupLogging ≠ v →
      t.setStartupLoggingEnabled v =
        { t with m_startupLogging := v, m_startupEntries := [] } := by
    intro t hne
    cases ht : t.m_startupLogging <;> cases v <;>
      simp [LogStreamPrivate.setStartupLoggingEnabled, ht] at hne ⊢
  refine ⟨hinv, ?_, hdis.2, ?_, ?_, hflag ls.d, ?_, hflag s, hchg s, ?_⟩
  · intro h
    exact hoff ls.d h (hinv h)
  · exact hoff _ hdis.1 hdis.2
  · intro h
    simp [logstream.setStartupLoggingEnabled, LogStreamPrivate.setStartupLoggingEnabled, h]
  · intro hne
    simp only [logstream.setStartupLoggingEnabled]
    rw [hchg ls.d hne]
  · intro hon
    have hs2 : (s.setStartupLoggingEnabled false).m_startupLogging = false ∧
        (s.setStartupLoggingEnabled false).m_startupEntries = [] := by
      simp [LogStreamPrivate.setStartupLoggingEnabled, hon]
    exact ⟨hs2.2, hoff _ hs2.1 hs2.2⟩

/-- Witness of `startup_discarded`: the registry that was started, had
startup logging switched on, and dispatched one logged entry. It is
reachable, its flag is on and its startup list holds the entry; disabling
startup logging clears the flag and empties the list. -/
theorem startup_discarded_witness :
    Reachable demoBuffered ∧ demoBuffered.d.m_startupLogging = true ∧
      demoBuffered.d.m_startupEntries = [demoEntry] ∧
      demoBuffered.d.m_startupLogging ≠ false ∧
      (demoBuffered.setStartupLoggingEnabled false).d.m_startupLogging = false ∧
      (demoBuffered.setStartupLoggingEnabled false).d.m_startupEntries = [] ∧
      demoBuffered.setStartupLoggingEnabled false =
        { demoBuffered with
          d := { demoBuffered.d with m_startupLogging := false, m_startupEntries := [] } } :=
  ⟨Reachable.step _ Op.work
      (Reachable.step _ (Op.log SG_GENERAL SG_ALERT (some "a.c") 10 "hello")
        (Reachable.step _ (Op.setStartupLoggingEnabled true)
          (Reachable.step _ Op.startLog (Reachable.init captureHeap 0)))),
    rfl, rfl, by decide,
    (startup_discarded demoBuffered
      (Reachable.step _ Op.work
        (Reachable.step _ (Op.log SG_GENERAL SG_ALERT (some "a.c") 10 "hello")
          (Reachable.step _ (Op.setStartupLoggingEnabled true)
            (Reachable.step _ Op.startLog (Reachable.init captureHeap 0)))))
      1 false freshPrivate).2.2.2.2.2.1,
    (startup_discarded demoBuffered
      (Reachable.step _ Op.work
        (Reachable.step _ (Op.log SG_GENERAL SG_ALERT (some "a.c") 10 "hello")
          (Reachable.step _ (Op.setStartupLoggingEnabled true)
            (Reachable.step _ Op.startLog (Reachable.init captureHeap 0)))))
      1 false freshPrivate).2.2.1,
    (startup_discarded demoBuffered
      (Reachable.step _ Op.work
        (Reachable.step _ (Op.log SG_GENERAL SG_ALERT (some "a.c") 10 "hello")
          (Reachable.step _ (Op.setStartupLoggingEnabled true)
            (Reachable.step _ Op.startLog (Reachable.init captureHeap 0)))))
      1 false freshPrivate).2.2.2.2.2.2.1 (by decide)⟩

theorem perform_no_callbacks (s : LogStreamPrivate) (a : Action) (h : s.m_callbacks = []) :
    (s.perform a).m_callbacks = [] ∧ (s.perform a).calls = s.calls := by
  cases a with
  | log c p f l m => simp [LogStreamPrivate.perform, LogStreamPrivate.log_eq, h]
  | work =>
    simp only [LogStreamPrivate.perform]
    unfold LogStreamPrivate.workerStep
    cases s.threadAlive
    · simp [h]
    · cases hq : s.m_entries with
      | nil => simp [h]
      | cons e q =>
        cases hm : LogStreamPrivate.isDoneMarker e <;>
          simp [hm, LogStreamPrivate.dispatch_eq, h]

theorem performAll_no_callbacks (acts : List Action) :
    ∀ s : LogStreamPrivate, s.m_callbacks = [] →
      (s.performAll acts).m_callbacks = [] ∧ (s.performAll acts).calls = s.calls := by
  induction acts with
  | nil => intro s h; exact ⟨h, rfl⟩
  | cons a acts ih =>
    intro s h
    have h1 := perform_no_callbacks s a h
    have h2 := ih (s.perform a) h1.1
    have hfold : s.performAll (a :: acts) = (s.perform a).performAll acts := by
      simp [LogStreamPrivate.performAll]
    rw [hfold]
    exact ⟨h2.1, h2.2.trans h1.2⟩

/-- C17. `setTestingMode(true)` leaves the callback list and the console
sublist empty, so whatever `log` calls and worker iterations follow, and
also after a final `stop`, no further callback call has been made;
`setTestingMode(false)` only clears the flag. -/
theorem testingMode_silence (self : logstream) (acts : List Action) :
    (self.setTestingMode true).d.m_callbacks = [] ∧
      (self.setTestingMode true).d.m_consoleCallbacks = [] ∧
      ((self.setTestingMode true).d.performAll acts).calls =
        (self.setTestingMode true).d.calls ∧
      ((self.setTestingMode true).d.performAll acts).stop.2.calls =
        (self.setTestingMode true).d.calls ∧
      self.setTestingMode false = { self with d := { self.d with m_testMode := false } } := by
  have h1 : (self.setTestingMode true).d.m_callbacks = [] := by
    simp [logstream.setTestingMode, removeCallbacks_eq]
  have h2 := performAll_no_callbacks acts _ h1
  refine ⟨h1, ?_, h2.2, ?_, ?_⟩
  · simp [logstream.setTestingMode, removeCallbacks_eq]
  · rw [stop_eq]
    simp [paused, h2.1, h2.2, callsFor_nil]
  · simp [logstream.setTestingMode]

/-! ## The popup channel -/

theorem popups_eq (msgs : List String) (self : logstream) :
    self.popups msgs = { self with popup_msgs := self.popup_msgs ++ msgs } := by
  induction msgs generalizing self with
  | nil => simp [logstream.popups]
  | cons m msgs ih =>
    have h : self.popups (m :: msgs) = (self.popup m).popups msgs := by
      simp [logstream.popups]
    rw [h, ih]
    simp [logstream.popup, List.append_assoc]

theorem get_popup_cons (ls : logstream) (m : String) (rest : List String)
    (h : ls.popup_msgs = m :: rest) :
    ls.get_popup = (m, { ls with popup_msgs := rest }) := by
  simp [logstream.get_popup, h]

theorem get_popup_nil (ls : logstream) (h : ls.popup_msgs = []) : ls.get_popup = ("", ls) := by
  simp [logstream.get_popup, h]

theorem get_popups_all (msgs : List String) (ls : logstream) (h : ls.popup_msgs = msgs) :
    ls.get_popups msgs.length = (msgs, { ls with popup_msgs := [] }) := by
  induction msgs generalizing ls with
  | nil =>
    obtain ⟨d, pm⟩ := ls
    simp only at h
    subst h
    rfl
  | cons m msgs ih =>
    simp only [List.length_cons, logstream.get_popups]
    rw [get_popup_cons ls m msgs h]
    simp only
    rw [ih _ rfl]

/-- C18. The popup channel is a FIFO. After `popup(m1)`, ..., `popup(mn)` on
an empty popup list, `n` successive calls of `get_popup` return `m1`, ...,
`mn` in that order and leave the list empty; a call of `get_popup` on a
non-empty list returns the first element and removes exactly it, on an
empty list it returns the empty string and leaves the list empty;
`has_popup` is true exactly when the list is non-empty; and `popup` and
`get_popup` leave the private part of the registry (queue, callback lists,
filters) untouched, while `has_popup` changes nothing at all. -/
theorem popup_fifo (self ls : logstream) (msgs rest : List String) (m : String)
    (hempty : self.popup_msgs = []) (hls : ls.popup_msgs = m :: rest) :
    (self.popups msgs).get_popups msgs.length = (msgs, self) ∧
      ls.get_popup = (m, { ls with popup_msgs := rest }) ∧
      self.get_popup = ("", self) ∧
      (ls.has_popup = true ∧ self.has_popup = false) ∧
      (∀ x : logstream, x.has_popup = true ↔ x.popup_msgs ≠ []) ∧
      (∀ (x : logstream) (msg : String), (x.popup msg).d = x.d ∧ x.get_popup.2.d = x.d) := by
  refine ⟨?_, get_popup_cons ls m rest hls, get_popup_nil self hempty, ?_, ?_, ?_⟩
  · rw [get_popups_all msgs (self.popups msgs) (by simp [popups_eq, hempty]), popups_eq]
    obtain ⟨d, pm⟩ := self
    simp only at hempty
    subst hempty
    rfl
  · simp [logstream.has_popup, hls, hempty]
  · intro x
    cases hx : x.popup_msgs <;> simp [logstream.has_popup, hx]
  · intro x msg
    exact ⟨rfl, get_popup_d x⟩

/-- Witness of `popup_fifo`: two popups on the fresh `logstream`. -/
theorem popup_fifo_witness :
    (logstream.new captureHeap 0).popup_msgs = [] ∧
      ((logstream.new captureHeap 0).popup "a").popup_msgs = "a" :: [] ∧
      ((logstream.new captureHeap 0).popups ["a", "b"]).get_popups 2 =
        (["a", "b"], logstream.new captureHeap 0) :=
  ⟨rfl, rfl,
    (popup_fifo (logstream.new captureHeap 0) ((logstream.new captureHeap 0).popup "a")
      ["a", "b"] [] "a" rfl rfl).1⟩

/-! ## The hex dump -/

theorem fmt06x_length (i : Nat) : 6 ≤ (fmt06x i).length ∧ (fmt06x i).length ≤ 8 := by
  unfold fmt06x
  split
  · simp [String.length]
  · split <;> simp [String.length]

theorem fmt06x_length_small (i : Nat) (h : i < 16 ^ 6) : (fmt06x i).length = 6 := by
  unfold fmt06x
  rw [if_pos h]
  rfl

theorem hexCell_length (mem : Nat → Nat) (len i : Nat) : (hexCell mem len i).length = 3 := by
  unfold hexCell fmt02x
  split
  · rw [String.length_append]
    rfl
  · rfl

theorem hexRowPrefix_succ (mem : Nat → Nat) (len columns r k : Nat) :
    hexRowPrefix mem len columns r (k + 1) =
      hexRowPrefix mem len columns r k ++ hexCell mem len (r * columns + k) := by
  unfold hexRowPrefix
  rw [List.range'_concat, List.foldl_append]
  simp

theorem hexRowPrefix_length (mem : Nat → Nat) (len columns r k : Nat) :
    (hexRowPrefix mem len columns r k).length = 4 + (fmt06x (r * columns)).length + 3 * k := by
  induction k with
  | zero =>
    simp [hexRowPrefix, String.length_append]
    have : "0x".length = 2 := rfl
    have : ": ".length = 2 := rfl
    omega
  | succ k ih =>
    rw [hexRowPrefix_succ, String.length_append, ih, hexCell_length]
    omega

theorem hexdumpAscii_eq (mem : Nat → Nat) (len : Nat) (temp : String) (j : Nat) :
    hexdumpAscii mem len temp j = temp ++ String.singleton (asciiChar mem len j) := by
  unfold hexdumpAscii asciiChar
  split
  · rfl
  · split <;> rfl

theorem foldl_hexdumpAscii (mem : Nat → Nat) (len : Nat) (l : List Nat) (temp : String) :
    l.foldl (hexdumpAscii mem len) temp = temp ++ String.mk (l.map (asciiChar mem len)) := by
  induction l generalizing temp with
  | nil =>
    apply String.ext
    simp
  | cons j l ih =>
    rw [List.foldl_cons, ih, hexdumpAscii_eq]
    apply String.ext
    simp [String.singleton]

/-- One iteration of the outer loop that passes the loop test and the
length guard. -/
theorem hexdumpLoop_step (c p : Nat) (fileName : Option String) (line : Int) (mem : Nat → Nat)
    (len columns bound fuel i : Nat) (temp : String) (self : logstream)
    (hi : i < bound) (hlen : temp.length ≤ 500) :
    hexdumpLoop c p fileName line mem len columns bound (fuel + 1) i temp self =
      if i % columns = columns - 1 then
        hexdumpLoop c p fileName line mem len columns bound fuel (i + 1) ""
          (self.log c p fileName line
            (((if i % columns = 0 then temp ++ ("0x" ++ fmt06x i ++ ": ") else temp) ++
                hexCell mem len i) ++
              String.mk ((List.range' (i - (columns - 1)) columns).map (asciiChar mem len))))
      else
        hexdumpLoop c p fileName line mem len columns bound fuel (i + 1)
          ((if i % columns = 0 then temp ++ ("0x" ++ fmt06x i ++ ": ") else temp) ++
            hexCell mem len i) self := by
  have hg : ¬ (temp.length > 500) := by omega
  rw [hexdumpLoop]
  simp only [hi, hg, if_true, if_false, foldl_hexdumpAscii, beq_iff_eq]
  have hcell : ∀ t : String,
      (if i < len then t ++ (fmt02x (mem i % 256) ++ " ") else t ++ "   ") =
        t ++ hexCell mem len i := by
    intro t
    unfold hexCell
    split <;> rfl
  simp only [hcell]

theorem hexRowPrefix_zero (mem : Nat → Nat) (len columns r : Nat) :
    hexRowPrefix mem len columns r 0 = "0x" ++ fmt06x (r * columns) ++ ": " := by
  simp [hexRowPrefix]

theorem string_empty_append (t : String) : "" ++ t = t := by
  apply String.ext
  simp

/-- From the position `k` of row `r` the loop completes the row: it logs
the row text and continues at the start of the next row with an empty
`temp`. -/
theorem hexdumpLoop_row (c p : Nat) (fileName : Option String) (line : Int) (mem : Nat → Nat)
    (len columns bound r : Nat) (hC : columns ≤ 163)
    (hb : r * columns + columns ≤ bound) :
    ∀ (d k fuel : Nat) (temp : String) (self : logstream),
      k + d + 1 = columns → columns - k ≤ fuel →
      temp = (if k = 0 then "" else hexRowPrefix mem len columns r k) →
      hexdumpLoop c p fileName line mem len columns bound fuel (r * columns + k) temp self =
        hexdumpLoop c p fileName line mem len columns bound (fuel - (columns - k))
          (r * columns + columns) ""
          (self.log c p fileName line (hexRow mem len columns r)) := by
  intro d
  induction d with
  | zero =>
    intro k fuel temp self hk hf ht
    obtain ⟨fuel1, rfl⟩ : ∃ f, fuel = f + 1 := ⟨fuel - 1, by omega⟩
    have hmod : (r * columns + k) % columns = k := by
      rw [Nat.add_comm, Nat.add_mul_mod_self_right]
      exact Nat.mod_eq_of_lt (by omega)
    have hlen : temp.length ≤ 500 := by
      rw [ht]
      split
      · decide
      · rw [hexRowPrefix_length]
        have := (fmt06x_length (r * columns)).2
        omega
    have hpre : (if k = 0 then temp ++ ("0x" ++ fmt06x (r * columns + k) ++ ": ") else temp) =
        hexRowPrefix mem len columns r k := by
      by_cases h0 : k = 0
      · subst h0
        simp [ht, hexRowPrefix_zero, string_empty_append]
      · simp [h0, ht]
    rw [hexdumpLoop_step _ _ _ _ _ _ _ _ _ _ _ _ (by omega) hlen, hmod, hpre,
      ← hexRowPrefix_succ]
    have hlast : k = columns - 1 := by omega
    have hstart : r * columns + k - (columns - 1) = r * columns := by omega
    have hk1 : k + 1 = columns := by omega
    have hfuel : fuel1 + 1 - (columns - k) = fuel1 := by omega
    rw [if_pos hlast, hstart, hk1, hfuel]
    have hnext : r * columns + k + 1 = r * columns + columns := by omega
    rw [hnext]
    rfl
  | succ d ih =>
    intro k fuel temp self hk hf ht
    obtain ⟨fuel1, rfl⟩ : ∃ f, fuel = f + 1 := ⟨fuel - 1, by omega⟩
    have hmod : (r * columns + k) % columns = k := by
      rw [Nat.add_comm, Nat.add_mul_mod_self_right]
      exact Nat.mod_eq_of_lt (by omega)
    have hlen : temp.length ≤ 500 := by
      rw [ht]
      split
      · decide
      · rw [hexRowPrefix_length]
        have := (fmt06x_length (r * columns)).2
        omega
    have hpre : (if k = 0 then temp ++ ("0x" ++ fmt06x (r * columns + k) ++ ": ") else temp) =
        hexRowPrefix mem len columns r k := by
      by_cases h0 : k = 0
      · subst h0
        simp [ht, hexRowPrefix_zero, string_empty_append]
      · simp [h0, ht]
    rw [hexdumpLoop_step _ _ _ _ _ _ _ _ _ _ _ _ (by omega) hlen, hmod, hpre,
      ← hexRowPrefix_succ]
    have hlast : ¬ k = columns - 1 := by omega
    rw [if_neg hlast]
    have hnext : r * columns + k + 1 = r * columns + (k + 1) := by omega
    rw [hnext, ih (k + 1) fuel1 _ self (by omega) (by omega) (by simp)]
    have hfuel : fuel1 - (columns - (k + 1)) = fuel1 + 1 - (columns - k) := by omega
    rw [hfuel]

/-- The loop bound of `hexdump`, before the reduction to `unsigned int`: the
length rounded up to a whole number of rows. -/
theorem hexdump_bound (len columns : Nat) (hC : 1 ≤ columns) :
    len + (if (len % columns != 0) = true then columns - len % columns else 0) =
      (len + columns - 1) / columns * columns := by
  have hdm : len / columns * columns + len % columns = len := by
    rw [Nat.mul_comm]
    exact Nat.div_add_mod len columns
  have hr : len % columns < columns := Nat.mod_lt _ (by omega)
  generalize len / columns = q at hdm
  generalize len % columns = r at hdm hr
  by_cases h0 : r = 0
  · subst h0
    have hq : (len + columns - 1) / columns = q := by
      apply Nat.div_eq_of_lt_le
      · omega
      · rw [Nat.succ_mul]
        omega
    rw [hq]
    simp
    omega
  · have hq : (len + columns - 1) / columns = q + 1 := by
      apply Nat.div_eq_of_lt_le
      · rw [Nat.succ_mul]
        omega
      · rw [Nat.succ_mul, Nat.succ_mul]
        omega
    rw [hq, Nat.succ_mul]
    simp [h0]
    omega

/-- From the start of row `r` the loop logs the remaining `n` rows, one
`log` call each, in order. -/
theorem hexdumpLoop_rows (c p : Nat) (fileName : Option String) (line : Int) (mem : Nat → Nat)
    (len columns bound : Nat) (hC1 : 1 ≤ columns) (hC : columns ≤ 163) :
    ∀ (n r : Nat) (self : logstream), (r + n) * columns = bound →
      hexdumpLoop c p fileName line mem len columns bound (n * columns) (r * columns) "" self =
        ((List.range' r n).map (hexRow mem len columns)).foldl
          (fun acc row => acc.log c p fileName line row) self := by
  intro n
  induction n with
  | zero =>
    intro r self _
    simp [hexdumpLoop]
  | succ n ih =>
    intro r self hb
    have hb1 : r * columns + n * columns + columns = bound := by
      rw [← hb, Nat.add_mul, Nat.succ_mul]
      omega
    have h := hexdumpLoop_row c p fileName line mem len columns bound r hC (by omega)
      (columns - 1) 0 ((n + 1) * columns) "" self (by omega)
      (by rw [Nat.succ_mul]; omega) (by simp)
    simp only [Nat.add_zero, Nat.sub_zero] at h
    rw [h]
    have hf : (n + 1) * columns - columns = n * columns := by
      rw [Nat.succ_mul]
      omega
    have hi : r * columns + columns = (r + 1) * columns := by
      rw [Nat.succ_mul]
    rw [hf, hi, ih (r + 1) _ (by rw [← hb]; congr 1; omega)]
    simp [List.range'_succ]

/-- The function `hexdump` in closed form, for rows of at most 163 columns and
a buffer whose rounded-up length fits an `unsigned int`: one `log` call per
row of the dump, in order. -/
theorem hexdump_eq_rows (self : logstream) (c p : Nat) (fileName : Option String) (line : Int)
    (mem : Nat → Nat) (len columns : Nat) (hC1 : 1 ≤ columns) (hC : columns ≤ 163)
    (hlen : len + columns ≤ 2 ^ 32) :
    self.hexdump c p fileName line mem len columns =
      (hexRows mem len columns).foldl (fun acc row => acc.log c p fileName line row) self := by
  have hb := hexdump_bound len columns hC1
  have hlt : (len + columns - 1) / columns * columns < 2 ^ 32 := by
    have : (len + columns - 1) / columns * columns ≤ len + columns - 1 :=
      Nat.div_mul_le_self _ _
    omega
  unfold logstream.hexdump
  simp only [hb, Nat.mod_eq_of_lt hlt]
  have h := hexdumpLoop_rows c p fileName line mem len columns
    ((len + columns - 1) / columns * columns) hC1 hC ((len + columns - 1) / columns) 0 self
    (by simp)
  rw [Nat.zero_mul] at h
  rw [h]
  simp [hexRows, List.range_eq_range']

theorem foldl_log_entries (c p : Nat) (fileName : Option String) (line : Int)
    (rows : List String) (self : logstream) :
    (rows.foldl (fun acc row => acc.log c p fileName line row) self) =
      { self with d := { self.d with m_entries :=
          (self.d.m_entries ++ rows.map (storedEntry self.d c p fileName line)) } } := by
  induction rows generalizing self with
  | nil => simp
  | cons row rows ih =>
    rw [List.foldl_cons, ih]
    simp [logstream.log, LogStreamPrivate.log_eq, storedEntry, LogStreamPrivate.translatePriority,
      List.append_assoc]

/-- With more than 164 columns the length guard stops the loop inside the
first row: from the position `k` of row 0 the loop returns without a `log`
call, whatever the bound and the number of iterations left. -/
theorem hexdumpLoop_wide (c p : Nat) (fileName : Option String) (line : Int) (mem : Nat → Nat)
    (len columns bound : Nat) (hC : 165 ≤ columns) (self : logstream) :
    ∀ (d k fuel : Nat) (temp : String), k + d = 164 →
      temp = (if k = 0 then "" else hexRowPrefix mem len columns 0 k) →
      hexdumpLoop c p fileName line mem len columns bound fuel k temp self = self := by
  have hoff : (fmt06x (0 * columns)).length = 6 := by
    rw [Nat.zero_mul]
    rfl
  intro d
  induction d with
  | zero =>
    intro k fuel temp hk ht
    cases fuel with
    | zero => simp [hexdumpLoop]
    | succ fuel =>
      have hlen : temp.length > 500 := by
        have hk0 : ¬ k = 0 := by omega
        rw [ht, if_neg hk0, hexRowPrefix_length, hoff]
        omega
      rw [hexdumpLoop]
      simp [hlen]
  | succ d ih =>
    intro k fuel temp hk ht
    cases fuel with
    | zero => simp [hexdumpLoop]
    | succ fuel =>
      by_cases hi : k < bound
      · have hlen : temp.length ≤ 500 := by
          rw [ht]
          split
          · decide
          · rw [hexRowPrefix_length, hoff]
            omega
        have hmod : k % columns = k := Nat.mod_eq_of_lt (by omega)
        have hpre : (if k = 0 then temp ++ ("0x" ++ fmt06x k ++ ": ") else temp) =
            hexRowPrefix mem len columns 0 k := by
          by_cases h0 : k = 0
          · subst h0
            simp [ht, hexRowPrefix_zero, string_empty_append]
          · simp [h0, ht]
        have hcell : hexCell mem len k = hexCell mem len (0 * columns + k) := by
          rw [Nat.zero_mul, Nat.zero_add]
        rw [hexdumpLoop_step _ _ _ _ _ _ _ _ _ _ _ _ hi hlen, hmod, hpre, hcell,
          ← hexRowPrefix_succ, if_neg (by omega)]
        exact ih (k + 1) fuel _ (by omega) (by simp)
      · rw [hexdumpLoop]
        simp [hi]

/-- With 165 or more columns `hexdump` makes no `log` call at all. -/
theorem hexdump_wide (self : logstream) (c p : Nat) (fileName : Option String) (line : Int)
    (mem : Nat → Nat) (len columns : Nat) (hC : 165 ≤ columns) :
    self.hexdump c p fileName line mem len columns = self := by
  unfold logstream.hexdump
  exact hexdumpLoop_wide c p fileName line mem len columns _ hC self 164 0 _ "" (by omega)
    (by simp)

theorem hexRows_length (mem : Nat → Nat) (len columns : Nat) :
    (hexRows mem len columns).length = (len + columns - 1) / columns := by
  simp [hexRows]

/-- C19, as stated, fails: a dump of one byte in rows of 165 columns makes no
`log` call, although one row is due. -/
theorem hexdump_row_count_counterexample :
    ((logstream.new captureHeap 0).hexdump SG_IO SG_ALERT none 0 demoMem 1 165).d.m_entries.length
      ≠ (logstream.new captureHeap 0).d.m_entries.length + (1 + 165 - 1) / 165 := by
  rw [hexdump_wide _ _ _ _ _ _ _ _ (by decide)]
  decide

/-- C19, amended. For every buffer of length `N` and every column width `C`
with `1 ≤ C ≤ 163` whose rounded-up length fits an `unsigned int`
(`N + C ≤ 2^32`), `hexdump` issues exactly `(N + C - 1) / C` `log` calls, that
is the number of rows `N / C` rounded up, and none when `N = 0`: one per
formatted row, in order, each with the category, priority, file and line it
was given. With 165 or more columns the guard on the length of the row text
makes `hexdump` return before its first row is complete, and it issues no
`log` call. -/
theorem hexdump_row_count (self : logstream) (c p : Nat) (fileName : Option String)
    (line : Int) (mem : Nat → Nat) (len columns : Nat) (hC1 : 1 ≤ columns)
    (hC : columns ≤ 163) (hlen : len + columns ≤ 2 ^ 32) :
    self.hexdump c p fileName line mem len columns =
        (hexRows mem len columns).foldl (fun acc row => acc.log c p fileName line row) self ∧
      (hexRows mem len columns).length = (len + columns - 1) / columns ∧
      (len = 0 → hexRows mem len columns = []) ∧
      (self.hexdump c p fileName line mem len columns).d.m_entries =
        self.d.m_entries ++
          (hexRows mem len columns).map (fun row =>
            { debugClass := c, debugPriority := self.d.translatePriority p, file := fileName,
              line := if self.d.m_fileLine then line else -1, message := row }) ∧
      (∀ wide, 165 ≤ wide → self.hexdump c p fileName line mem len wide = self) := by
  have h := hexdump_eq_rows self c p fileName line mem len columns hC1 hC hlen
  refine ⟨h, hexRows_length mem len columns, ?_, ?_, ?_⟩
  · intro h0
    subst h0
    have : (columns - 1) / columns = 0 := Nat.div_eq_of_lt (by omega)
    simp [hexRows, this]
  · rw [h, foldl_log_entries]
    rfl
  · intro wide hw
    exact hexdump_wide self c p fileName line mem len wide hw

/-- Witness of `hexdump_row_count`: eight bytes in rows of three columns give
three `log` calls. -/
theorem hexdump_row_count_witness :
    (1 : Nat) ≤ 3 ∧ (3 : Nat) ≤ 163 ∧ 8 + 3 ≤ 2 ^ 32 ∧
      (hexRows demoMem 8 3).length = (8 + 3 - 1) / 3 ∧ (8 + 3 - 1) / 3 = 3 :=
  ⟨by decide, by decide, by decide,
    (hexdump_row_count (logstream.new captureHeap 0) SG_IO SG_ALERT (some "x.c") 7 demoMem 8 3
      (by decide) (by decide) (by decide)).2.1, by decide⟩

theorem land_7f (b : Nat) : b &&& 0x7f = b % 128 := by
  have h := Nat.and_pow_two_sub_one_eq_mod b 7
  simpa using h

/-- C20, as stated, fails: the byte 0x20 lies in the printable range
0x20..0x7e, yet the row that `hexdump` emits for it shows a dot in the ASCII
column. -/
theorem hexdump_ascii_counterexample :
    ((logstream.new captureHeap 0).hexdump SG_IO SG_ALERT none 0 (fun _ => 0x20) 1
        1).d.m_entries.map (fun e => e.message) = ["0x000000: 20 ."] ∧
      "0x000000: 20 " ++ String.singleton (printableAscii 0x20) = "0x000000: 20  " ∧
      asciiChar (fun _ => 0x20) 1 0 ≠ printableAscii 0x20 := by
  refine ⟨?_, by decide, by decide⟩
  rw [hexdump_eq_rows _ _ _ _ _ _ _ _ (by decide) (by decide) (by decide), foldl_log_entries]
  decide

/-- C20, amended. For `1 ≤ C ≤ 163` and `N + C ≤ 2^32`, the messages `hexdump`
logs are the rows of the dump, and in every row the ASCII column has one
character per position of the row: a blank for a position behind the end of
the buffer, and for a byte `b` other than 0x7f the byte itself when its low
seven bits exceed 32 (`(b & 0x7f) > 32`) and a dot otherwise. So the bytes
0x21..0x7e are shown as themselves, as the printable range asks, the bytes
up to 0x20, the blank included, are shown as dots, and a byte with the high
bit set is shown by the rule for its low seven bits. -/
theorem hexdump_ascii_column (self : logstream) (c p : Nat) (fileName : Option String)
    (line : Int) (mem : Nat → Nat) (len columns : Nat) (hC1 : 1 ≤ columns)
    (hC : columns ≤ 163) (hlen : len + columns ≤ 2 ^ 32) (j : Nat) (hj : j < len)
    (_hdel : mem j % 256 ≠ 0x7f) :
    ((self.hexdump c p fileName line mem len columns).d.m_entries.drop
          self.d.m_entries.length).map (fun e => e.message) =
        (List.range ((len + columns - 1) / columns)).map (fun r =>
          hexRowPrefix mem len columns r columns ++
            String.mk ((List.range' (r * columns) columns).map (asciiChar mem len))) ∧
      (∀ r, ((List.range' (r * columns) columns).map (asciiChar mem len)).length = columns) ∧
      (∀ i, len ≤ i → asciiChar mem len i = ' ') ∧
      asciiChar mem len j =
        (if (mem j % 256) &&& 0x7f > 32 then Char.ofNat (mem j % 256) else '.') ∧
      (0x21 ≤ mem j % 256 → mem j % 256 ≤ 0x7e →
        asciiChar mem len j = printableAscii (mem j % 256)) ∧
      (mem j % 256 ≤ 0x20 → asciiChar mem len j = '.') := by
  have hnj : ¬ j ≥ len := by omega
  refine ⟨?_, ?_, ?_, ?_, ?_, ?_⟩
  · rw [hexdump_eq_rows self c p fileName line mem len columns hC1 hC hlen, foldl_log_entries]
    simp [storedEntry, hexRows, hexRow, Function.comp_def]
  · intro r
    simp
  · intro i hi
    simp [asciiChar, hi]
  · simp [asciiChar, hnj]
  · intro h1 h2
    have h3 : mem j % 256 % 128 > 32 := by omega
    have h4 : 32 ≤ mem j % 256 := by omega
    simp [asciiChar, hnj, land_7f, h3, printableAscii, h4, h2]
  · intro h1
    have h3 : ¬ (mem j % 256 % 128 > 32) := by omega
    simp only [asciiChar, hnj, land_7f, h3, if_false]

/-- Witness of `hexdump_ascii_column`: the first byte `H` (0x48) of the
example buffer, dumped in rows of three columns. -/
theorem hexdump_ascii_column_witness :
    (1 : Nat) ≤ 3 ∧ (3 : Nat) ≤ 163 ∧ 8 + 3 ≤ 2 ^ 32 ∧ (0 : Nat) < 8 ∧
      demoMem 0 % 256 ≠ 0x7f ∧
      asciiChar demoMem 8 0 =
        (if (demoMem 0 % 256) &&& 0x7f > 32 then Char.ofNat (demoMem 0 % 256) else '.') :=
  ⟨by decide, by decide, by decide, by decide, by decide,
    (hexdump_ascii_column (logstream.new captureHeap 0) SG_IO SG_ALERT (some "x.c") 7 demoMem 8
      3 (by decide) (by decide) (by decide) 0 (by decide) (by decide)).2.2.2.1⟩

/-! ## The sinks -/

theorem debugPriorityToString_length (p : Nat) :
    (LogCallback.debugPriorityToString p).length = 4 ∧
      fmtPrecision8 (LogCallback.debugPriorityToString p) = LogCallback.debugPriorityToString p := by
  unfold LogCallback.debugPriorityToString
  split_ifs <;> exact ⟨by decide, by decide⟩

/-- C21, as stated, fails: for an accepted entry with a location the console
sink writes `file:line: ` in front of the priority code, not behind the
category. -/
theorem console_layout_counterexample :
    demoSink.shouldLog SG_GENERAL SG_INFO = true ∧
      StderrLogCallback.call demoSink "    1.50" SG_GENERAL SG_INFO (some "a.c") 10 "hello" =
        "    1.50 a.c:10: [INFO]:general    hello\n" ∧
      consoleLineSpec "    1.50" SG_GENERAL SG_INFO (some "a.c") 10 "hello" =
        "    1.50 [INFO]:general    a.c:10: hello\n" ∧
      StderrLogCallback.call demoSink "    1.50" SG_GENERAL SG_INFO (some "a.c") 10 "hello" ≠
        consoleLineSpec "    1.50" SG_GENERAL SG_INFO (some "a.c") 10 "hello" := by
  decide

/-- C21, amended. For every accepted entry and elapsed-time text `T`, the
console sink writes exactly `T <file>:<line>: [<priority code>]:<category
name left-justified and padded to 10> <message>` and a newline when a
location is present (file not null and line not `-1`), and exactly
`T [<priority code>]:<category name padded to 10> <message>` and a newline
when it is absent; the priority code is the four-letter code, which the
conversion `%.8s` leaves whole. -/
theorem console_layout (sink : LogCallback) (elapsed : String) (c p : Nat)
    (file : Option String) (f : String) (line : Int) (msg : String)
    (hacc : sink.shouldLog c p = true) :
    (file = some f → line ≠ -1 →
        StderrLogCallback.call sink elapsed c p file line msg =
          elapsed ++ " " ++ f ++ ":" ++ toString line ++ ": [" ++
            LogCallback.debugPriorityToString p ++ "]:" ++
            fmtLeft10 (LogCallback.debugClassToString c) ++ " " ++ msg ++ "\n") ∧
      ((file = none ∨ line = -1) →
        StderrLogCallback.call sink elapsed c p file line msg =
          elapsed ++ " [" ++ LogCallback.debugPriorityToString p ++ "]:" ++
            fmtLeft10 (LogCallback.debugClassToString c) ++ " " ++ msg ++ "\n") ∧
      (LogCallback.debugPriorityToString p).length = 4 := by
  have hcode := debugPriorityToString_length p
  refine ⟨?_, ?_, hcode.1⟩
  · intro hf hl
    subst hf
    simp [StderrLogCallback.call, hacc, hl, hcode.2]
  · intro h
    rcases h with h | h
    · subst h
      simp [StderrLogCallback.call, hacc, hcode.2]
    · subst h
      simp [StderrLogCallback.call, hacc, hcode.2]

/-- Witness of `console_layout`: the entry `{SG_GENERAL, SG_INFO, "a.c", 10,
"hello"}` at the sink that accepts everything from `SG_DEBUG` on. -/
theorem console_layout_witness :
    demoSink.shouldLog SG_GENERAL SG_INFO = true ∧ (10 : Int) ≠ -1 ∧
      StderrLogCallback.call demoSink "    1.50" SG_GENERAL SG_INFO (some "a.c") 10 "hello" =
        "    1.50" ++ " " ++ "a.c" ++ ":" ++ toString (10 : Int) ++ ": [" ++
          LogCallback.debugPriorityToString SG_INFO ++ "]:" ++
          fmtLeft10 (LogCallback.debugClassToString SG_GENERAL) ++ " " ++ "hello" ++ "\n" :=
  ⟨by decide, by decide,
    (console_layout demoSink "    1.50" SG_GENERAL SG_INFO (some "a.c") "a.c" 10 "hello"
      (by decide)).1 rfl (by decide)⟩

theorem fmtLeft8_priority (p : Nat) :
    fmtLeft8 (" [" ++ LogCallback.debugPriorityToString p ++ "]:") =
      " [" ++ LogCallback.debugPriorityToString p ++ "]:" := by
  unfold LogCallback.debugPriorityToString
  split_ifs <;> decide

/-- C22, as stated, fails: for the same accepted entry and elapsed time the
file sink and the console sink write different lines, with a location and
with the sentinel line `-1` alike. -/
theorem file_sink_layout_counterexample :
    demoSink.shouldLog SG_GENERAL SG_INFO = true ∧
      FileLogCallback.call demoSink "    1.50" SG_GENERAL SG_INFO (some "a.c") 10 "hello" =
        some "    1.50 [INFO]:general    a.c:10:hello\n" ∧
      StderrLogCallback.call demoSink "    1.50" SG_GENERAL SG_INFO (some "a.c") 10 "hello" =
        "    1.50 a.c:10: [INFO]:general    hello\n" ∧
      FileLogCallback.call demoSink "    1.50" SG_GENERAL SG_INFO (some "a.c") (-1) "hello" =
        some "    1.50 [INFO]:general    a.c:-1:hello\n" ∧
      StderrLogCallback.call demoSink "    1.50" SG_GENERAL SG_INFO (some "a.c") (-1) "hello" =
        "    1.50 [INFO]:general    hello\n" := by
  decide

/-- C22, amended. For every entry accepted by both filters that carries a
location (file not null, line not `-1`) and for the same elapsed-time text
`T`, the file sink appends `T [<priority code>]:<category padded to 10>
<file>:<line>:<message>` and a newline, while the console sink writes
`T <file>:<line>: [<priority code>]:<category padded to 10> <message>` and a
newline: the same fields in a different order, the console line being one
character longer, so the two lines are never equal. -/
theorem file_sink_layout (fileSink consoleSink : LogCallback) (elapsed : String) (c p : Nat)
    (f : String) (line : Int) (msg : String)
    (hfile : fileSink.shouldLog c p = true) (hconsole : consoleSink.shouldLog c p = true)
    (hline : line ≠ -1) :
    FileLogCallback.call fileSink elapsed c p (some f) line msg =
        some (elapsed ++ " [" ++ LogCallback.debugPriorityToString p ++ "]:" ++
          fmtLeft10 (LogCallback.debugClassToString c) ++ " " ++ f ++ ":" ++ toString line ++
          ":" ++ msg ++ "\n") ∧
      StderrLogCallback.call consoleSink elapsed c p (some f) line msg =
        elapsed ++ " " ++ f ++ ":" ++ toString line ++ ": [" ++
          LogCallback.debugPriorityToString p ++ "]:" ++
          fmtLeft10 (LogCallback.debugClassToString c) ++ " " ++ msg ++ "\n" ∧
      FileLogCallback.call fileSink elapsed c p (some f) line msg ≠
        some (StderrLogCallback.call consoleSink elapsed c p (some f) line msg) := by
  have hcode := debugPriorityToString_length p
  have h1 : FileLogCallback.call fileSink elapsed c p (some f) line msg =
      some (elapsed ++ " [" ++ LogCallback.debugPriorityToString p ++ "]:" ++
        fmtLeft10 (LogCallback.debugClassToString c) ++ " " ++ f ++ ":" ++ toString line ++
        ":" ++ msg ++ "\n") := by
    unfold FileLogCallback.call
    simp only [hfile, Bool.not_true, Bool.false_eq_true, if_false]
    rw [fmtLeft8_priority]
    simp only [String.append_assoc]
  have h2 : StderrLogCallback.call consoleSink elapsed c p (some f) line msg =
      elapsed ++ " " ++ f ++ ":" ++ toString line ++ ": [" ++
        LogCallback.debugPriorityToString p ++ "]:" ++
        fmtLeft10 (LogCallback.debugClassToString c) ++ " " ++ msg ++ "\n" := by
    simp [StderrLogCallback.call, hconsole, hline, hcode.2]
  refine ⟨h1, h2, ?_⟩
  rw [h1, h2]
  intro h
  have h3 := congrArg String.length (Option.some.inj h)
  simp only [String.length_append] at h3
  have e1 : " [".length = 2 := rfl
  have e2 : "]:".length = 2 := rfl
  have e3 : " ".length = 1 := rfl
  have e4 : ":".length = 1 := rfl
  have e5 : ": [".length = 3 := rfl
  have e6 : "\n".length = 1 := rfl
  omega

/-- Witness of `file_sink_layout`: the entry `{SG_GENERAL, SG_INFO, "a.c",
10, "hello"}`. -/
theorem file_sink_layout_witness :
    demoSink.shouldLog SG_GENERAL SG_INFO = true ∧ (10 : Int) ≠ -1 ∧
      FileLogCallback.call demoSink "    1.50" SG_GENERAL SG_INFO (some "a.c") 10 "hello" ≠
        some (StderrLogCallback.call demoSink "    1.50" SG_GENERAL SG_INFO (some "a.c") 10
          "hello") :=
  ⟨by decide, by decide,
    (file_sink_layout demoSink demoSink "    1.50" SG_GENERAL SG_INFO "a.c" 10 "hello"
      (by decide) (by decide) (by decide)).2.2⟩

/-- What holds of the filter re-check: a sink whose `shouldLog` is false
writes nothing, and an accepting console sink, debug-pane sink, or file sink
given a file that is not null writes one text that ends in a newline. -/
theorem sinks_recheck_filter (sink : LogCallback) (elapsed : String) (c p : Nat)
    (file : Option String) (f : String) (line : Int) (msg : String) :
    (sink.shouldLog c p = false →
        StderrLogCallback.call sink elapsed c p file line msg = "" ∧
        FileLogCallback.call sink elapsed c p file line msg = some "" ∧
        WinDebugLogCallback.call sink c p file line msg = "") ∧
      (sink.shouldLog c p = true →
        (∃ body, StderrLogCallback.call sink elapsed c p file line msg = body ++ "\n") ∧
        (∃ body, FileLogCallback.call sink elapsed c p (some f) line msg = some (body ++ "\n")) ∧
        WinDebugLogCallback.call sink c p file line msg =
          LogCallback.debugClassToString c ++ ":" ++ msg ++ "\n") := by
  constructor
  · intro h
    simp [StderrLogCallback.call, FileLogCallback.call, WinDebugLogCallback.call, h]
  · intro h
    refine ⟨?_, ?_, ?_⟩
    · unfold StderrLogCallback.call
      simp only [h, Bool.not_true, Bool.false_eq_true, if_false]
      split <;> exact ⟨_, rfl⟩
    · unfold FileLogCallback.call
      simp only [h, Bool.not_true, Bool.false_eq_true, if_false]
      exact ⟨_, rfl⟩
    · simp [WinDebugLogCallback.call, h]

/-- C23. The code at the failing input: the file sink, invoked with an entry
its filter accepts and a null file, has no defined output, while the console
sink writes its line for the same entry. -/
theorem file_sink_null_file :
    demoSink.shouldLog SG_GENERAL SG_INFO = true ∧
      FileLogCallback.call demoSink "    1.50" SG_GENERAL SG_INFO none 10 "hello" = none ∧
      StderrLogCallback.call demoSink "    1.50" SG_GENERAL SG_INFO none 10 "hello" =
        "    1.50 [INFO]:general    hello\n" := by
  decide

/-- C24, as stated, fails: the display tag of the reserved category `SG_OSG`
is `"OSG"`, in upper case. -/
theorem debugClassToString_counterexample :
    LogCallback.debugClassToString SG_OSG = "OSG" ∧
      ¬ ((LogCallback.debugClassToString SG_OSG).toList.all Char.isLower = true) := by
  decide

theorem lower_ite (b : Bool) (x y : String) (hx : x.toList.all Char.isLower = true)
    (hy : y.toList.all Char.isLower = true) :
    (if b = true then x else y).toList.all Char.isLower = true := by
  cases b
  · exact hy
  · exact hx

/-- C24, amended. For every category value other than the reserved `SG_OSG`
(each single category flag, `SG_NONE`, and any other value or combination),
`debugClassToString` returns a string that consists of lowercase letters
only; for `SG_OSG` it returns `"OSG"`. -/
theorem debugClassToString_lowercase (c : Nat) (hc : c ≠ SG_OSG) :
    (LogCallback.debugClassToString c).toList.all Char.isLower = true ∧
      LogCallback.debugClassToString SG_OSG = "OSG" := by
  refine ⟨?_, by decide⟩
  have hne : (c == SG_OSG) = false := by simpa using hc
  unfold LogCallback.debugClassToString
  repeat (refine lower_ite _ _ _ (by decide) ?_)
  rw [hne]
  decide

/-- Witness of `debugClassToString_lowercase`: the category `SG_GENERAL`. -/
theorem debugClassToString_lowercase_witness :
    SG_GENERAL ≠ SG_OSG ∧
      (LogCallback.debugClassToString SG_GENERAL).toList.all Char.isLower = true :=
  ⟨by decide, (debugClassToString_lowercase SG_GENERAL (by decide)).1⟩

/-! ## The console sublist -/

/-- As long as `removeCallback` is not applied to a callback of the console
sublist, every callback of the console sublist is in the callback list. -/
theorem sparing_console_sublist (ls : logstream) (h : ReachableSparing ls) :
    ∀ cb ∈ ls.d.m_consoleCallbacks, cb ∈ ls.d.m_callbacks := by
  induction h with
  | init heap0 stderrCb => simp [LogStreamPrivate.new]
  | step ls op _ hop ih =>
    cases op with
    | startLog =>
      cases hr : ls.d.m_isRunning <;> simpa [logstream.apply, LogStreamPrivate.startLog, hr] using ih
    | stop => simpa [logstream.apply, stop_eq, paused] using ih
    | work =>
      have hf : ls.d.workerStep.m_callbacks = ls.d.m_callbacks ∧
          ls.d.workerStep.m_consoleCallbacks = ls.d.m_consoleCallbacks := by
        unfold LogStreamPrivate.workerStep
        cases ls.d.threadAlive
        · simp
        · cases hq : ls.d.m_entries with
          | nil => simp
          | cons e q =>
            cases hm : LogStreamPrivate.isDoneMarker e <;>
              simp [hm, LogStreamPrivate.dispatch_eq]
      simpa [logstream.apply, hf.1, hf.2] using ih
    | log c p f l m => simpa [logstream.apply, logstream.log, LogStreamPrivate.log_eq] using ih
    | setLogLevels c p =>
      simpa [logstream.apply, logstream.setLogLevels, setLogLevels_eq, paused] using ih
    | setDeveloperMode b => simpa [logstream.apply, logstream.setDeveloperMode] using ih
    | setFileLine b => simpa [logstream.apply, logstream.setFileLine] using ih
    | addCallback cb =>
      intro x hx
      have hx1 : x ∈ ls.d.m_consoleCallbacks := by
        simpa [logstream.apply, logstream.addCallback, addCallback_eq, paused] using hx
      have := ih x hx1
      simp [logstream.apply, logstream.addCallback, addCallback_eq, this]
    | removeCallback cb =>
      intro x hx
      have hx1 : x ∈ ls.d.m_consoleCallbacks := by
        simpa [logstream.apply, logstream.removeCallback, removeCallback_eq, paused] using hx
      have hne : x ≠ cb := fun h => hop cb rfl (h ▸ hx1)
      have := (List.mem_erase_of_ne hne).mpr (ih x hx1)
      simpa [logstream.apply, logstream.removeCallback, removeCallback_eq] using this
    | setStartupLoggingEnabled b =>
      have hf : (ls.d.setStartupLoggingEnabled b).m_callbacks = ls.d.m_callbacks ∧
          (ls.d.setStartupLoggingEnabled b).m_consoleCallbacks = ls.d.m_consoleCallbacks := by
        unfold LogStreamPrivate.setStartupLoggingEnabled
        split <;> exact ⟨rfl, rfl⟩
      simpa [logstream.apply, logstream.setStartupLoggingEnabled, hf.1, hf.2] using ih
    | setTestingMode b =>
      cases b
      · simpa [logstream.apply, logstream.setTestingMode] using ih
      · simp [logstream.apply, logstream.setTestingMode, removeCallbacks_eq]
    | popup msg => simpa [logstream.apply, logstream.popup] using ih
    | get_popup => simpa [logstream.apply, get_popup_d] using ih

/-- C25. The code at the failing input: `removeCallback` of the console
callback of a fresh `logstream` leads to a reachable state in which that
callback is still in the console sublist and no longer in the callback
list. -/
theorem console_sublist_broken :
    Reachable demoRemoved ∧ 0 ∈ demoRemoved.d.m_consoleCallbacks ∧
      0 ∉ demoRemoved.d.m_callbacks := by
  refine ⟨?_, ?_, ?_⟩
  · exact Reachable.step _ (Op.removeCallback 0)
      (Reachable.step _ Op.startLog (Reachable.init captureHeap 0))
  · simp [demoRemoved, logstream.removeCallback, removeCallback_eq, paused, logstream.new,
      LogStreamPrivate.new, LogStreamPrivate.startLog]
  · simp [demoRemoved, logstream.removeCallback, removeCallback_eq, logstream.new,
      LogStreamPrivate.new, LogStreamPrivate.startLog]

/-! ## Mutation only while the worker is stopped -/

theorem paused_threadAlive (s : LogStreamPrivate)
    (h : s.threadAlive = true → s.m_isRunning = true) : (paused s).threadAlive = false := by
  cases hr : s.m_isRunning
  · cases ha : s.threadAlive
    · simp [paused, ha]
    · rw [h ha] at hr
      cases hr
  · simp [paused, hr]

theorem perform_dead (s : LogStreamPrivate) (a : Action) (h : s.threadAlive = false) :
    (s.perform a).threadAlive = false ∧ (s.perform a).m_callbacks = s.m_callbacks ∧
      (s.perform a).calls = s.calls := by
  cases a with
  | log c p f l m => simp [LogStreamPrivate.perform, LogStreamPrivate.log_eq, h]
  | work => simp [LogStreamPrivate.perform, LogStreamPrivate.workerStep, h]

theorem performAll_dead (acts : List Action) :
    ∀ s : LogStreamPrivate, s.threadAlive = false →
      (s.performAll acts).threadAlive = false ∧
        (s.performAll acts).m_callbacks = s.m_callbacks ∧
        (s.performAll acts).calls = s.calls := by
  induction acts with
  | nil => intro s h; exact ⟨h, rfl, rfl⟩
  | cons a acts ih =>
    intro s h
    have h1 := perform_dead s a h
    have h2 := ih (s.perform a) h1.1
    have hfold : s.performAll (a :: acts) = (s.perform a).performAll acts := by
      simp [LogStreamPrivate.performAll]
    rw [hfold]
    exact ⟨h2.1, h2.2.1.trans h1.2.1, h2.2.2.trans h1.2.2⟩

/-- The function `setTestingMode(true)` is the assignment of the test-mode
flag followed by `removeCallbacks`, that is by `stop`, the mutation and the
restart; `setTestingMode(false)` only assigns the flag. -/
theorem setTestingMode_pause_form (ls : logstream) :
    (ls.setTestingMode true).d =
        (if ls.d.m_isRunning then
          (LogStreamPrivate.removeCallbacksBody
            (({ ls.d with m_testMode := true } : LogStreamPrivate).stop.2)).startLog
         else LogStreamPrivate.removeCallbacksBody
            (({ ls.d with m_testMode := true } : LogStreamPrivate).stop.2)) ∧
      (ls.setTestingMode false).d = { ls.d with m_testMode := false } := by
  refine ⟨?_, by simp [logstream.setTestingMode]⟩
  simp only [logstream.setTestingMode, if_true]
  rw [removeCallbacks_pause_form, (stop_keeps_registry _).1]

/-- A pause-form operation leaves the worker thread inside its loop exactly
when the dispatcher was running, provided the paused state has the worker
outside its loop and the mutation leaves flag and thread alone. -/
theorem resumed_threadAlive (r : Bool) (t : LogStreamPrivate)
    (m : LogStreamPrivate → LogStreamPrivate) (hr : t.m_isRunning = false)
    (ha : t.threadAlive = false)
    (hm : (m t).m_isRunning = t.m_isRunning ∧ (m t).threadAlive = t.threadAlive) :
    (if r then (m t).startLog else m t).threadAlive = r := by
  cases r
  · simp [hm.2, ha]
  · simp [LogStreamPrivate.startLog, hm.1, hr]

/-- C26. In every state reachable by any interleaving of `log` calls, worker
iterations and the operations of a reconfiguring thread, each of
`addCallback`, `removeCallback`, `setLogLevels` and `setTestingMode(true)`
is `stop`, then its mutation applied to the state `stop` leaves, then
`startLog` when the dispatcher was running; the state `stop` hands to the
mutation has the worker thread outside its loop, and so has the state the
mutation produces; the worker thread is inside its loop after the operation
exactly when the dispatcher was running before, so it re-enters only through
the `startLog` that follows the mutation. While the pause lasts, before the
mutation and after it, `log` calls of producer threads and attempts of the
worker to iterate leave the worker outside its loop, leave the callback list
alone and make no callback call. The callback list changes under
`setTestingMode(false)` not at all. So the callback list is mutated only
while the worker thread is not running. -/
theorem mutation_while_stopped (ls : logstream) (hreach : Reachable ls) (acts : List Action)
    (body : LogStreamPrivate → LogStreamPrivate) (b : Bool) (cb c p : Nat)
    (acts2 : List Action) :
    ls.d.stop.2.threadAlive = false ∧
      (({ ls.d with m_testMode := b } : LogStreamPrivate).stop.2).threadAlive = false ∧
      (ls.d.stop.2.performAll acts).threadAlive = false ∧
      (ls.d.stop.2.performAll acts).m_callbacks = ls.d.stop.2.m_callbacks ∧
      (ls.d.stop.2.performAll acts).calls = ls.d.stop.2.calls ∧
      ls.d.PauseThread body =
        (if ls.d.stop.1 then (body ls.d.stop.2).startLog else body ls.d.stop.2) ∧
      ((ls.addCallback cb).d =
          (if ls.d.m_isRunning then (LogStreamPrivate.addCallbackBody cb ls.d.stop.2).startLog
           else LogStreamPrivate.addCallbackBody cb ls.d.stop.2) ∧
        (LogStreamPrivate.addCallbackBody cb ls.d.stop.2).threadAlive = false ∧
        (LogStreamPrivate.addCallbackBody cb ls.d.stop.2).m_callbacks =
          ls.d.m_callbacks ++ [cb] ∧
        (ls.addCallback cb).d.threadAlive = ls.d.m_isRunning) ∧
      ((ls.removeCallback cb).d =
          (if ls.d.m_isRunning then
            (LogStreamPrivate.removeCallbackBody cb ls.d.stop.2).startLog
           else LogStreamPrivate.removeCallbackBody cb ls.d.stop.2) ∧
        (LogStreamPrivate.removeCallbackBody cb ls.d.stop.2).threadAlive = false ∧
        (LogStreamPrivate.removeCallbackBody cb ls.d.stop.2).m_callbacks =
          ls.d.m_callbacks.erase cb ∧
        (ls.removeCallback cb).d.threadAlive = ls.d.m_isRunning) ∧
      ((ls.setLogLevels c p).d =
          (if ls.d.m_isRunning then
            (LogStreamPrivate.setLogLevelsBody c p ls.d.stop.2).startLog
           else LogStreamPrivate.setLogLevelsBody c p ls.d.stop.2) ∧
        (LogStreamPrivate.setLogLevelsBody c p ls.d.stop.2).threadAlive = false ∧
        (∀ x ∈ ls.d.m_consoleCallbacks,
          (LogStreamPrivate.setLogLevelsBody c p ls.d.stop.2).heap x =
            { m_class := c, m_priority := p }) ∧
        (ls.setLogLevels c p).d.threadAlive = ls.d.m_isRunning) ∧
      ((ls.setTestingMode true).d =
          (if ls.d.m_isRunning then
            (LogStreamPrivate.removeCallbacksBody
              (({ ls.d with m_testMode := true } : LogStreamPrivate).stop.2)).startLog
           else LogStreamPrivate.removeCallbacksBody
              (({ ls.d with m_testMode := true } : LogStreamPrivate).stop.2)) ∧
        (LogStreamPrivate.removeCallbacksBody
          (({ ls.d with m_testMode := true } : LogStreamPrivate).stop.2)).threadAlive = false ∧
        (LogStreamPrivate.removeCallbacksBody
          (({ ls.d with m_testMode := true } : LogStreamPrivate).stop.2)).m_callbacks = [] ∧
        (ls.setTestingMode true).d.threadAlive = ls.d.m_isRunning ∧
        (ls.setTestingMode false).d.m_callbacks = ls.d.m_callbacks) ∧
      (∀ t : LogStreamPrivate,
        t = ls.d.stop.2 ∨ t = ({ ls.d with m_testMode := true } : LogStreamPrivate).stop.2 →
        ∀ m ∈ [LogStreamPrivate.addCallbackBody cb, LogStreamPrivate.removeCallbackBody cb,
            LogStreamPrivate.setLogLevelsBody c p, LogStreamPrivate.removeCallbacksBody],
          (m (t.performAll acts)).threadAlive = false ∧
            ((m (t.performAll acts)).performAll acts2).threadAlive = false ∧
            ((m (t.performAll acts)).performAll acts2).m_callbacks =
              (m (t.performAll acts)).m_callbacks ∧
            ((m (t.performAll acts)).performAll acts2).calls =
              (m (t.performAll acts)).calls) := by
  have hinv := reachable_alive_running ls hreach
  have h1 : ls.d.stop.2.threadAlive = false := by
    rw [stop_eq]
    exact paused_threadAlive _ hinv
  have h1t : (({ ls.d with m_testMode := true } : LogStreamPrivate).stop.2).threadAlive =
      false := by
    rw [stop_eq]
    exact paused_threadAlive _ hinv
  have h2 := performAll_dead acts _ h1
  have hs := stop_keeps_registry ls.d
  have hst := stop_keeps_registry ({ ls.d with m_testMode := true } : LogStreamPrivate)
  have hk := bodies_keep_thread ls.d.stop.2 cb c p
  have hkt := bodies_keep_thread (({ ls.d with m_testMode := true } : LogStreamPrivate).stop.2)
    cb c p
  have he := bodies_effect ls.d.stop.2 cb c p
  have het := bodies_effect (({ ls.d with m_testMode := true } : LogStreamPrivate).stop.2)
    cb c p
  have hadd : (ls.addCallback cb).d =
      (if ls.d.m_isRunning then (LogStreamPrivate.addCallbackBody cb ls.d.stop.2).startLog
       else LogStreamPrivate.addCallbackBody cb ls.d.stop.2) := by
    simp only [logstream.addCallback]
    rw [addCallback_pause_form, hs.1]
  have hrem : (ls.removeCallback cb).d =
      (if ls.d.m_isRunning then (LogStreamPrivate.removeCallbackBody cb ls.d.stop.2).startLog
       else LogStreamPrivate.removeCallbackBody cb ls.d.stop.2) := by
    simp only [logstream.removeCallback]
    rw [removeCallback_pause_form, hs.1]
  have hlev : (ls.setLogLevels c p).d =
      (if ls.d.m_isRunning then (LogStreamPrivate.setLogLevelsBody c p ls.d.stop.2).startLog
       else LogStreamPrivate.setLogLevelsBody c p ls.d.stop.2) := by
    simp only [logstream.setLogLevels]
    rw [setLogLevels_pause_form, hs.1]
  have htest := setTestingMode_pause_form ls
  refine ⟨h1, ?_, h2.1, h2.2.1, h2.2.2, rfl, ⟨hadd, ?_, ?_, ?_⟩, ⟨hrem, ?_, ?_, ?_⟩,
    ⟨hlev, ?_, ?_, ?_⟩, ⟨htest.1, ?_, ?_, ?_, ?_⟩, ?_⟩
  · rw [stop_eq]
    exact paused_threadAlive _ hinv
  · rw [hk.1.2, h1]
  · rw [he.1, hs.2.2.1]
  · rw [hadd]
    exact resumed_threadAlive _ _ _ hs.2.1 h1 hk.1
  · rw [hk.2.1.2, h1]
  · rw [he.2.1, hs.2.2.1]
  · rw [hrem]
    exact resumed_threadAlive _ _ _ hs.2.1 h1 hk.2.1
  · rw [hk.2.2.2.2, h1]
  · intro x hx
    rw [setLogLevelsBody_heap, hs.2.2.2.1, if_pos hx]
  · rw [hlev]
    exact resumed_threadAlive _ _ _ hs.2.1 h1 hk.2.2.2
  · rw [hkt.2.2.1.2, h1t]
  · exact het.2.2.1.1
  · rw [htest.1]
    exact resumed_threadAlive _ _ _ hst.2.1 h1t hkt.2.2.1
  · rw [htest.2]
  · intro t ht m hm
    have hta : t.threadAlive = false := by
      rcases ht with ht | ht
      · rw [ht]; exact h1
      · rw [ht]; exact h1t
    have hp := performAll_dead acts t hta
    have hb := bodies_keep_thread (t.performAll acts) cb c p
    have hma : (m (t.performAll acts)).threadAlive = false := by
      simp only [List.mem_cons, List.mem_singleton, List.not_mem_nil, or_false] at hm
      rcases hm with hm | hm | hm | hm
      · rw [hm, hb.1.2, hp.1]
      · rw [hm, hb.2.1.2, hp.1]
      · rw [hm, hb.2.2.2.2, hp.1]
      · rw [hm, hb.2.2.1.2, hp.1]
    have hq := performAll_dead acts2 _ hma
    exact ⟨hma, hq.1, hq.2.1, hq.2.2⟩

/-- Witness of `mutation_while_stopped`: the constructed `logstream` with
one entry logged and not yet dispatched. It is reachable, its worker is
inside the loop and its queue holds the entry; the state `stop` hands to the
mutation of `addCallback` has the worker outside the loop, and the worker is
inside the loop again after `addCallback`. -/
theorem mutation_while_stopped_witness :
    Reachable demoLogged ∧ demoLogged.d.threadAlive = true ∧
      demoLogged.d.m_entries = [demoEntry] ∧
      demoLogged.d.stop.2.threadAlive = false ∧
      (LogStreamPrivate.addCallbackBody 1 demoLogged.d.stop.2).threadAlive = false ∧
      (demoLogged.addCallback 1).d.threadAlive = demoLogged.d.m_isRunning :=
  ⟨Reachable.step _ (Op.log SG_GENERAL SG_ALERT (some "a.c") 10 "hello")
      (Reachable.step _ Op.startLog (Reachable.init captureHeap 0)),
    rfl, rfl,
    (mutation_while_stopped demoLogged
      (Reachable.step _ (Op.log SG_GENERAL SG_ALERT (some "a.c") 10 "hello")
        (Reachable.step _ Op.startLog (Reachable.init captureHeap 0))) [] id true 1 0 0 []).1,
    (mutation_while_stopped demoLogged
      (Reachable.step _ (Op.log SG_GENERAL SG_ALERT (some "a.c") 10 "hello")
        (Reachable.step _ Op.startLog (Reachable.init captureHeap 0))) [] id true 1 0 0
        []).2.2.2.2.2.2.1.2.1,
    (mutation_while_stopped demoLogged
      (Reachable.step _ (Op.log SG_GENERAL SG_ALERT (some "a.c") 10 "hello")
        (Reachable.step _ Op.startLog (Reachable.init captureHeap 0))) [] id true 1 0 0
        []).2.2.2.2.2.2.1.2.2.2⟩

/-! ## The stop marker -/

theorem marker_split (pre post : List LogEntry) (d : LogEntry)
    (hpre : hasMarker pre = false) (hd : LogStreamPrivate.isDoneMarker d = true) :
    beforeMarker (pre ++ d :: post) = pre ∧ afterMarker (pre ++ d :: post) = post ∧
      hasMarker (pre ++ d :: post) = true := by
  induction pre with
  | nil => simp [beforeMarker, afterMarker, hasMarker, hd]
  | cons x pre ih =>
    cases hx : LogStreamPrivate.isDoneMarker x
    · simp [hasMarker, hx] at hpre
      simp [beforeMarker, afterMarker, hasMarker, hx, ih hpre]
    · simp [hasMarker, hx] at hpre

theorem isDoneMarker_iff (e : LogEntry) :
    LogStreamPrivate.isDoneMarker e = true ↔ (e.debugClass = SG_NONE ∧ e.file = some "done") := by
  unfold LogStreamPrivate.isDoneMarker
  cases hf : e.file with
  | none => simp
  | some f => simp

/-- C27. The stop marker. With the worker in its loop and a queue
`pre ++ d :: post`, where no entry of `pre` is a marker and `d` has category
`SG_NONE` and file `"done"` (priority, line and message being arbitrary),
the worker dispatches exactly the entries of `pre`, in order, records them in
the startup list when that is enabled, returns at `d` without recording or
dispatching it, and leaves `post` in the queue, in order; once the thread
is started again it dispatches the entries of `post` in front of the next
marker. An entry is a marker exactly when its category is `SG_NONE` and its
file is `"done"`; popping any other entry leaves the worker in its loop, and
with no marker in the queue the worker does not return. -/
theorem sentinel_stop (s : LogStreamPrivate) (pre post : List LogEntry) (d e : LogEntry)
    (q : List LogEntry) (halive : s.threadAlive = true)
    (hq : s.m_entries = pre ++ d :: post) (hpre : hasMarker pre = false)
    (hd : d.debugClass = SG_NONE ∧ d.file = some "done") :
    s.run =
        { s with
          m_entries := post
          threadAlive := false
          m_startupEntries := s.m_startupEntries ++ (if s.m_startupLogging then pre else [])
          calls := s.calls ++ callsFor s.m_callbacks pre } ∧
      (({ s.run with threadAlive := true } : LogStreamPrivate).run).calls =
        s.calls ++ callsFor s.m_callbacks pre ++ callsFor s.m_callbacks (beforeMarker post) ∧
      (LogStreamPrivate.isDoneMarker e = true ↔
        (e.debugClass = SG_NONE ∧ e.file = some "done")) ∧
      (¬ (e.debugClass = SG_NONE ∧ e.file = some "done") →
        ({ s with m_entries := e :: q } : LogStreamPrivate).workerStep.threadAlive = true) ∧
      (∀ t : LogStreamPrivate, t.threadAlive = true → hasMarker t.m_entries = false →
        t.run.threadAlive = true ∧ t.run.m_entries = []) := by
  have hm := marker_split pre post d hpre ((isDoneMarker_iff d).mpr hd)
  have hrun : s.run =
      { s with
        m_entries := post
        threadAlive := false
        m_startupEntries := s.m_startupEntries ++ (if s.m_startupLogging then pre else [])
        calls := s.calls ++ callsFor s.m_callbacks pre } := by
    rw [LogStreamPrivate.run_alive s halive, hq, hm.1, hm.2.1, hm.2.2]
    rfl
  refine ⟨hrun, ?_, isDoneMarker_iff e, ?_, ?_⟩
  · rw [LogStreamPrivate.run_alive _ rfl, hrun]
  · intro hne
    have hnm : LogStreamPrivate.isDoneMarker e = false := by
      cases hx : LogStreamPrivate.isDoneMarker e
      · rfl
      · exact absurd ((isDoneMarker_iff e).mp hx) hne
    rw [LogStreamPrivate.workerStep_pop
      ({ s with m_entries := e :: q } : LogStreamPrivate) e q halive rfl hnm]
    exact halive
  · intro t ht hmk
    rw [LogStreamPrivate.run_alive t ht]
    have hafter : ∀ l : List LogEntry, hasMarker l = false → afterMarker l = [] := by
      intro l
      induction l with
      | nil => intro _; rfl
      | cons x l ih =>
        intro hl
        cases hx : LogStreamPrivate.isDoneMarker x
        · simp [hasMarker, hx] at hl
          simp [afterMarker, hx, ih hl]
        · simp [hasMarker, hx] at hl
    simp [hmk, hafter _ hmk]

/-- Witness of `sentinel_stop`: the running fresh registry with an entry, the
marker of `stop`, and another entry queued. -/
theorem sentinel_stop_witness :
    demoRunning.threadAlive = true ∧
      ({ demoRunning with m_entries := [demoEntry] ++ LogStreamPrivate.doneEntry :: [demoEntry] }
        : LogStreamPrivate).run.m_entries = [demoEntry] ∧
      ({ demoRunning with m_entries := [demoEntry] ++ LogStreamPrivate.doneEntry :: [demoEntry] }
        : LogStreamPrivate).run.threadAlive = false := by
  have h := (sentinel_stop
    { demoRunning with m_entries := [demoEntry] ++ LogStreamPrivate.doneEntry :: [demoEntry] }
    [demoEntry] [demoEntry] LogStreamPrivate.doneEntry demoEntry [] rfl rfl (by decide)
    ⟨rfl, rfl⟩).1
  refine ⟨rfl, ?_, ?_⟩
  · rw [h]
  · rw [h]

/-! ## The admission pre-check and the console sinks -/

/-- C28. With test mode off, whatever the category, the global mask and the
global threshold are, `would_log` is true as soon as the translated priority
is at least `SG_INFO`; so `SG_DEV_ALERT` passes in both developer-mode
settings and `SG_DEV_WARN` passes whenever developer mode is on. -/
theorem would_log_severity_bypass (s : LogStreamPrivate) (c p : Nat)
    (_ht : s.m_testMode = false) (hp : s.translatePriority p ≥ SG_INFO) :
    s.would_log c p = true ∧
      (∀ (t : LogStreamPrivate) (c1 : Nat), t.would_log c1 SG_DEV_ALERT = true) ∧
      (∀ (t : LogStreamPrivate) (c1 : Nat), t.m_developerMode = true →
        t.would_log c1 SG_DEV_WARN = true) := by
  refine ⟨(would_log_eq s c p).mpr (Or.inr (Or.inl hp)), ?_, ?_⟩
  · intro t c1
    apply (would_log_eq t c1 SG_DEV_ALERT).mpr
    right; left
    cases hd : t.m_developerMode <;>
      simp [LogStreamPrivate.translatePriority, hd, SG_DEV_ALERT, SG_DEV_WARN, SG_INFO, SG_WARN,
        SG_POPUP]
  · intro t c1 hd
    apply (would_log_eq t c1 SG_DEV_WARN).mpr
    right; left
    simp [LogStreamPrivate.translatePriority, hd, SG_DEV_WARN, SG_INFO, SG_WARN]

/-- Witness of `would_log_severity_bypass`: category `SG_IO` and priority
`SG_INFO` under the mask `0` and the threshold `SG_POPUP`. -/
theorem would_log_severity_bypass_witness :
    ({ freshPrivate with m_logClass := 0, m_logPriority := SG_POPUP } :
        LogStreamPrivate).m_testMode = false ∧
      ({ freshPrivate with m_logClass := 0, m_logPriority := SG_POPUP } :
        LogStreamPrivate).translatePriority SG_INFO ≥ SG_INFO ∧
      ({ freshPrivate with m_logClass := 0, m_logPriority := SG_POPUP } :
        LogStreamPrivate).would_log SG_IO SG_INFO = true :=
  ⟨rfl, by decide,
    (would_log_severity_bypass { freshPrivate with m_logClass := 0, m_logPriority := SG_POPUP }
      SG_IO SG_INFO rfl (by decide)).1⟩

theorem shouldLog_iff_aux (cb : LogCallback) (c p : Nat) :
    cb.shouldLog c p = true ↔
      (((c &&& cb.m_class) ≠ 0 ∧ p ≥ cb.m_priority) ∨ c = SG_OSG) := by
  unfold LogCallback.shouldLog
  by_cases h1 : (c &&& cb.m_class) ≠ 0 ∧ p ≥ cb.m_priority
  · simp [h1.1, h1.2]
  · by_cases h2 : c = SG_OSG
    · simp [h2]
    · have h3 : ¬ (¬ (c &&& cb.m_class) = 0 ∧ cb.m_priority ≤ p) := h1
      simp [h2, h3]

/-- For every category other than the reserved `SG_OSG`, an entry that
`would_log` rejects is rejected by a callback whose filter is the global
one. -/
theorem would_log_false_shouldLog_false (s : LogStreamPrivate) (c p : Nat) (sink : LogCallback)
    (hc : c ≠ SG_OSG)
    (hsink : sink = { m_class := s.m_logClass, m_priority := s.m_logPriority })
    (hw : s.would_log c p = false) : sink.shouldLog c (s.translatePriority p) = false := by
  have h1 : ¬ (s.would_log c p = true) := by simp [hw]
  rw [would_log_eq] at h1
  push_neg at h1
  cases hs : sink.shouldLog c (s.translatePriority p)
  · rfl
  · rw [shouldLog_iff_aux] at hs
    rcases hs with hs | hs
    · rw [hsink] at hs
      exact absurd (h1.2.2 hs.1) (by simpa using hs.2)
    · exact absurd hs hc

/-- C29. The code at the failing input: in the fresh registry the console
callback has the global filter, `would_log (SG_OSG, SG_BULK)` is false, and
yet the console callback accepts the entry. -/
theorem would_log_rejects_console_entry :
    freshPrivate.m_consoleCallbacks = [0] ∧
      freshPrivate.heap 0 =
        { m_class := freshPrivate.m_logClass, m_priority := freshPrivate.m_logPriority } ∧
      freshPrivate.would_log SG_OSG SG_BULK = false ∧
      (freshPrivate.heap 0).shouldLog SG_OSG (freshPrivate.translatePriority SG_BULK) = true := by
  refine ⟨rfl, ?_, by decide, ?_⟩
  · simp [freshPrivate, LogStreamPrivate.new]
  · simp [freshPrivate, LogStreamPrivate.new, LogCallback.shouldLog]

/-! ## Removing a callback -/

/-- C30, as stated, fails: with the dispatcher running, startup logging
enabled and an entry still queued, `removeCallback` returns with that entry
appended to the startup list. -/
theorem removeCallback_startup_counterexample :
    demoPending.m_startupEntries = [] ∧
      (demoPending.removeCallback 7).m_startupEntries ≠ demoPending.m_startupEntries := by
  refine ⟨rfl, ?_⟩
  rw [removeCallback_eq]
  decide

/-- C30, amended. `removeCallback(cb)` removes exactly the first occurrence
of `cb` from the callback list and keeps all other callbacks in their
order; when `cb` is not in the list the list is unchanged; in both cases
the console sublist, the global mask and threshold and the running flag are
unchanged, and the startup list is the one the pause leaves: unchanged when
the pause dispatches nothing, otherwise extended, when startup logging is
enabled, by the entries it dispatches; and `removeCallback(cb)` right after
`addCallback(cb)` of a callback that was not registered restores the
callback list. -/
theorem removeCallback_frame (s : LogStreamPrivate) (cb : Nat) (pre post : List Nat) :
    (s.m_callbacks = pre ++ cb :: post → cb ∉ pre →
        (s.removeCallback cb).m_callbacks = pre ++ post) ∧
      (cb ∉ s.m_callbacks → (s.removeCallback cb).m_callbacks = s.m_callbacks) ∧
      (s.removeCallback cb).m_consoleCallbacks = s.m_consoleCallbacks ∧
      (s.removeCallback cb).m_logClass = s.m_logClass ∧
      (s.removeCallback cb).m_logPriority = s.m_logPriority ∧
      (s.removeCallback cb).m_isRunning = s.m_isRunning ∧
      (s.removeCallback cb).m_startupEntries =
        s.m_startupEntries ++ (if s.m_startupLogging then drained s else []) ∧
      (drained s = [] → (s.removeCallback cb).m_startupEntries = s.m_startupEntries) ∧
      (cb ∉ s.m_callbacks →
        ((s.addCallback cb).removeCallback cb).m_callbacks = s.m_callbacks) := by
  refine ⟨?_, ?_, ?_, ?_, ?_, ?_, ?_, ?_, ?_⟩
  · intro h hpre
    rw [removeCallback_eq, h]
    simp [List.erase_append_right _ hpre]
  · intro h
    rw [removeCallback_eq]
    simp [List.erase_of_not_mem h]
  · rw [removeCallback_eq]; rfl
  · rw [removeCallback_eq]; rfl
  · rw [removeCallback_eq]; rfl
  · rw [removeCallback_eq]
  · rw [removeCallback_eq]; rfl
  · intro hd
    rw [removeCallback_eq]
    simp [paused, hd]
  · intro h
    rw [removeCallback_eq, addCallback_eq]
    simp [List.erase_append_right _ h]

/-- Witness of `removeCallback_frame`: removing the console callback `0` of
the running fresh registry, and removing a callback right after adding
it. -/
theorem removeCallback_frame_witness :
    demoRunning.m_callbacks = [] ++ 0 :: [] ∧ (0 : Nat) ∉ ([] : List Nat) ∧
      (demoRunning.removeCallback 0).m_callbacks = [] ++ [] ∧
      (3 : Nat) ∉ demoRunning.m_callbacks ∧
      ((demoRunning.addCallback 3).removeCallback 3).m_callbacks = demoRunning.m_callbacks :=
  ⟨rfl, by decide, (removeCallback_frame demoRunning 0 [] []).1 rfl (by decide), by decide,
    (removeCallback_frame demoRunning 3 [] []).2.2.2.2.2.2.2.2 (by decide)⟩

end Simgear
